import Mathlib

/-!
# Deployment descriptor resolution and action lifecycle of the elemental CLI

A shallow embedding of `internal/cli/action/install.go` and
`internal/cli/action/reset.go`: the description loader, the flag overlay
(`applyInstallFlags`, `setBootloader`), reset target discovery
(`setResetTarget`) and the resolvers `digestInstallSetup` and
`digestResetSetup`, together with the `Install` action that consumes them; of
`internal/cli/action/build.go` and `internal/cli/action/customize.go`: the
actions `Build` and `Customize` with `validateArgs`, `parseImageDefinition`,
`resolveOutputPaths` and the deferred clean-up of the workspace; and of
`SetLoggerTarget` in `internal/cli/cmd/root.go`.

Go pointers into the descriptor are embedded as functional updates of the
descriptor value; an error return is an `Option GoError` next to the state
the call leaves behind; calls into collaborators and the logger are recorded,
in order, in a list of events. The functions of the Go standard library the
sources call on paths and on the clock are embedded for Unix paths and UTC.
-/

namespace Elemental

/-! ## Errors -/

/-- Go error values: `leaf` is an error carrying a plain message, `wrap pre inner`
is `fmt.Errorf(pre + "%w", inner)`. -/
inductive GoError where
  | leaf (msg : String)
  | wrap (pre : String) (inner : GoError)
deriving DecidableEq, Repr

/-- The `Error()` method: the message of an error; a wrapping error prints its
own text followed by the message of the wrapped one. -/
def GoError.Error : GoError → String
  | .leaf msg => msg
  | .wrap pre inner => pre ++ inner.Error

/-- The `errors.Is` relation restricted to the unwrap chain: `outer` is `e` or
wraps, at some depth, `e`. -/
def GoError.Is : GoError → GoError → Bool
  | .leaf msg, e => e == .leaf msg
  | .wrap pre inner, e => e == .wrap pre inner || inner.Is e

/-- Substring test on messages, as `ContainSubstring` in the test-suite. -/
def Contains (s sub : String) : Prop := sub.data <:+: s.data

instance (s sub : String) : Decidable (Contains s sub) := by
  unfold Contains; infer_instance

/-! ## Data model (package `deployment`) -/

/-- Modelled from the spec: the role tag of a partition (system, efi, recovery,
data); the declaration lives in package `deployment`, outside the sources at hand. -/
inductive PartRole where
  | Data | EFI | System | Recovery
deriving DecidableEq, Repr

/-- Modelled from the spec: the filesystem kind of a partition; `Ext4` is the
fixed kind forced by the overwrite snapshotter. The declaration lives in package
`deployment`. -/
inductive FileSystem where
  | Btrfs | Ext2 | Ext4 | XFS | VFat
deriving DecidableEq, Repr

/-- Modelled from the spec: one entry of a partition's read-write volume list. -/
structure RWVolume where
  Path : String
deriving DecidableEq, Repr

/-- Modelled from the spec: a partition with its role tag, filesystem kind and
read-write volume list. A nil slice is the empty list. -/
structure Partition where
  Label : String
  Role : PartRole
  FileSystem : Elemental.FileSystem
  RWVolumes : List RWVolume
deriving DecidableEq, Repr

/-- Modelled from the spec: a disk with its device and partitions. -/
structure Disk where
  Device : String
  Partitions : List Partition
deriving DecidableEq, Repr

/-- Modelled from the spec: a typed source reference, the result of
`deployment.NewSrcFromURI`. -/
structure ImageSource where
  uri : String
deriving DecidableEq, Repr

/-- The boot configuration assigned by `setBootloader`. -/
structure BootConfig where
  Bootloader : String
  KernelCmdline : String
deriving DecidableEq, Repr

/-- The security policy; `crypto.Policy` is a string type. -/
structure SecurityConfig where
  CryptoPolicy : String
deriving DecidableEq, Repr

/-- The snapshotter selection. -/
structure SnapshotterConfig where
  Name : String
deriving DecidableEq, Repr

/-- Modelled from the spec: a firmware boot entry, built by
`firmware.DefaultBootEntry` from the platform and the device of the system disk. -/
structure EfiBootEntry where
  Label : String
  Disk : String
deriving DecidableEq, Repr

/-- The firmware section with its boot-entry list. -/
structure FirmwareConfig where
  BootEntries : List EfiBootEntry
deriving DecidableEq, Repr

/-- Modelled from the spec: the deployment descriptor, with the fields the
actions read and assign. `BootConfig` is the one field the source tests against
nil; `Firmware`, `Security` and `Snapshotter` are dereferenced unguarded and are
embedded as plain values. -/
structure Deployment where
  SourceOS : Option ImageSource
  Disks : List Disk
  Firmware : FirmwareConfig
  BootConfig : Option Elemental.BootConfig
  Security : SecurityConfig
  Snapshotter : SnapshotterConfig
  OverlayTree : Option ImageSource
  CfgScript : String
deriving DecidableEq, Repr

/-- Update of the first element satisfying `p`: the embedding of an assignment
through a pointer obtained by a first-match search. -/
def modifyFirst {α : Type} (p : α → Bool) (f : α → α) : List α → List α
  | [] => []
  | a :: as => if p a then f a :: as else a :: modifyFirst p f as

/-- A partition tagged as the system partition. -/
def Partition.isSystem (p : Partition) : Bool := p.Role == PartRole.System

/-- A disk holding a system partition. -/
def Disk.hasSystem (k : Disk) : Bool := k.Partitions.any Partition.isSystem

/-- Modelled from the spec: `GetSystemDisk` is missing from the sources at hand;
it yields the disk that holds the partition tagged system, the first one in disk
order, and nil (`none`) when there is none. -/
def Deployment.GetSystemDisk (d : Deployment) : Option Disk :=
  d.Disks.find? Disk.hasSystem

/-- Modelled from the spec: `GetSystemPartition` is missing from the sources at
hand; it yields the partition tagged system, the first one in disk and partition
order, and nil (`none`) when there is none. -/
def Deployment.GetSystemPartition (d : Deployment) : Option Partition :=
  (d.Disks.find? Disk.hasSystem).bind (fun k => k.Partitions.find? Partition.isSystem)

/-- The assignment `disk.Device = dev` through the pointer `d.GetSystemDisk()`. -/
def Deployment.setSystemDiskDevice (d : Deployment) (dev : String) : Deployment :=
  { d with Disks := modifyFirst Disk.hasSystem (fun k => { k with Device := dev }) d.Disks }

/-- The assignments `sysPart.FileSystem = fs; sysPart.RWVolumes = nil` on one
partition. -/
def Partition.reset (fs : Elemental.FileSystem) (p : Partition) : Partition :=
  { p with FileSystem := fs, RWVolumes := [] }

/-- The same assignments on the first system partition of a disk. -/
def Disk.resetSystemPartition (fs : Elemental.FileSystem) (k : Disk) : Disk :=
  { k with Partitions := modifyFirst Partition.isSystem (Partition.reset fs) k.Partitions }

/-- The assignments `sysPart.FileSystem = fs; sysPart.RWVolumes = nil` through the
pointer `d.GetSystemPartition()`. -/
def Deployment.resetSystemPartition (d : Deployment) (fs : Elemental.FileSystem) : Deployment :=
  { d with Disks := modifyFirst Disk.hasSystem (Disk.resetSystemPartition fs) d.Disks }

/-- Modelled from the spec: the bootloader kind "none" (`bootloader.BootNone`). -/
def BootNone : String := "none"

/-! ## Flags (package `cmd`) -/

/-- The flag record shared by the install and reset commands (`cmd.InstallFlags`),
with the fields the actions read. -/
structure InstallFlags where
  Target : String
  OperatingSystemImage : String
  Overlay : String
  ConfigScript : String
  Description : String
  CryptoPolicy : String
  Bootloader : String
  KernelCmdline : String
  Snapshotter : String
  CreateBootEntry : Bool
  Verify : Bool
  Local : Bool
deriving DecidableEq, Repr

/-- The zero value `cmd.InstallFlags{}` the tests start from. -/
def InstallFlags.zero : InstallFlags :=
  { Target := "", OperatingSystemImage := "", Overlay := "", ConfigScript := "",
    Description := "", CryptoPolicy := "", Bootloader := "", KernelCmdline := "",
    Snapshotter := "", CreateBootEntry := false, Verify := false, Local := false }

/-! ## Collaborators and observable effects -/

/-- The partition record returned by `block.GetPartitionByMountPoint`; `Disk` is
the parent device. -/
structure BlockPartition where
  Path : String
  Disk : String
deriving DecidableEq, Repr

/-- Calls into the logger and into the collaborators, in program order. -/
inductive Event where
  | logInfo (msg : String)
  | logDebug (msg : String)
  | logWarn (msg : String)
  | logError (msg : String)
  | readFile (path : String)
  | stat (path : String)
  | getPartitionByMountPoint (mountPoint : String)
  | newSrcFromURI (uri : String)
  | sanitize (d : Deployment)
  | notifyContext
  | stop
  | bootloaderNew (kind : String)
  | transactionNew (name : String)
  | installNew
  | installerInstall (d : Deployment)
  | installerReset (d : Deployment)
deriving DecidableEq, Repr

/-- The `sys.System` handle together with the package functions the actions call
and whose code is outside the sources at hand; each is a parameter. -/
structure Env where
  /-- The `ReadFile` method of `s.FS()`. -/
  ReadFile : String → Except GoError String
  /-- The boolean of `vfs.Exists(s.FS(), path)`; its error is dropped by the caller. -/
  Exists : String → Bool
  /-- The probe `install.IsLiveMedia(s)`. -/
  IsLiveMedia : Bool
  /-- The probe `install.IsRecovery(s)`. -/
  IsRecovery : Bool
  /-- The decoder `yaml.Unmarshal(data, d)`: the descriptor it leaves and its error. -/
  Unmarshal : String → Deployment → Deployment × Option GoError
  /-- The lookup `block.GetPartitionByMountPoint(s, lsblk.NewLsDevice(s), mountPoint, n)`. -/
  GetPartitionByMountPoint : String → Nat → Except GoError BlockPartition
  /-- The constructor `deployment.DefaultDeployment()`. -/
  DefaultDeployment : Deployment
  /-- The path `installer.InstallDesc`. -/
  InstallDesc : String
  /-- The path `installer.LiveMountPoint`. -/
  LiveMountPoint : String
  /-- The parser `deployment.NewSrcFromURI`. -/
  NewSrcFromURI : String → Except GoError ImageSource
  /-- The check `crypto.Policy(v).IsValid()`. -/
  IsValid : String → Bool
  /-- The predicate `d.IsFipsEnabled()`. -/
  IsFipsEnabled : Deployment → Bool
  /-- The function `fips.AppendCommandLine`. -/
  AppendCommandLine : String → String
  /-- The constructor `firmware.DefaultBootEntry(s.Platform(), device)`. -/
  DefaultBootEntry : String → EfiBootEntry
  /-- Modelled from the spec: `d.Sanitize(s)`, the Descriptor Sanitizer, is missing
  from the sources at hand; it cross-validates the merged descriptor and fails with
  a descriptive error if inconsistent. -/
  Sanitize : Deployment → Option GoError
  /-- The constructor `bootloader.New(kind, s)`, reduced to its error. -/
  BootloaderNew : String → Option GoError
  /-- The constructor `transaction.New(ctx, s, d, name)`, reduced to its error. -/
  TransactionNew : Deployment → String → Option GoError
  /-- The engine call `installer.Install(d)`. -/
  InstallerInstall : Deployment → Option GoError
  /-- The engine call `installer.Reset(d)`. -/
  InstallerReset : Deployment → Option GoError

/-- What a call that mutates the descriptor through its pointer leaves behind:
the descriptor, the returned error and the events it produced. -/
structure Outcome where
  d : Deployment
  err : Option GoError
  trace : List Event
deriving DecidableEq, Repr

/-! ## `install.go` -/

/-- Lines 131-136 of `setBootloader`: the firmware boot entry, created when asked
for and a system disk exists. -/
def setBootEntries (env : Env) (d : Deployment) (createEntry : Bool) : Deployment :=
  match createEntry, d.GetSystemDisk with
  | true, some disk =>
    { d with Firmware := { d.Firmware with BootEntries := [env.DefaultBootEntry disk.Device] } }
  | _, _ => d

/-- Lines 138-147 of `setBootloader`: the boot configuration, allocated when nil,
after the bootloader kind and the command line flag are applied. -/
def overlayBootConfig (old : Option BootConfig) (bootloaderType cmdline : String) : BootConfig :=
  let bc0 : BootConfig :=
    match old with
    | none => { Bootloader := "", KernelCmdline := "" }
    | some bc => bc
  let bc1 : BootConfig :=
    if bootloaderType ≠ BootNone then { bc0 with Bootloader := bootloaderType } else bc0
  if cmdline ≠ "" then { bc1 with KernelCmdline := cmdline } else bc1

/-- The function `setBootloader` (install.go, lines 130-152). -/
def setBootloader (env : Env) (d : Deployment) (bootloaderType cmdline : String)
    (createEntry : Bool) : Deployment :=
  let d1 : Deployment := setBootEntries env d createEntry
  let bc : BootConfig := overlayBootConfig d1.BootConfig bootloaderType cmdline
  let d2 : Deployment := { d1 with BootConfig := some bc }
  if env.IsFipsEnabled d2 then
    { d2 with BootConfig := some { bc with KernelCmdline := env.AppendCommandLine bc.KernelCmdline } }
  else d2

/-- The warning logged when the overwrite snapshotter is selected. -/
def overwriteWarning : String :=
  "'overwrite' snapshotter is a debugging tool and should not be used for production installation"

/-- Lines 203-212 of `applyInstallFlags`: the configuration script and the crypto
policy, the latter assigned only when valid. -/
def overlayPolicy (env : Env) (d : Deployment) (flags : InstallFlags) : Deployment :=
  let d1 : Deployment :=
    if flags.ConfigScript ≠ "" then { d with CfgScript := flags.ConfigScript } else d
  if flags.CryptoPolicy ≠ "" then
    if env.IsValid flags.CryptoPolicy then
      { d1 with Security := { d1.Security with CryptoPolicy := flags.CryptoPolicy } }
    else d1
  else d1

/-- Lines 216-228 of `applyInstallFlags`: the snapshotter name and, for the
overwrite snapshotter, the warning and the reset of the system partition. -/
def overlaySnapshotter (d : Deployment) (flags : InstallFlags) : Deployment × List Event :=
  if flags.Snapshotter ≠ "" then
    let d1 : Deployment := { d with Snapshotter := { d.Snapshotter with Name := flags.Snapshotter } }
    if d1.Snapshotter.Name = "overwrite" then
      (match d1.GetSystemPartition with
        | some _ => d1.resetSystemPartition FileSystem.Ext4
        | none => d1,
       [Event.logWarn overwriteWarning])
    else (d1, [])
  else (d, [])

/-- Lines 203-228 of `applyInstallFlags`: the assignments made once both source
URIs are settled, up to the Sanitize call. Returns the descriptor and the events. -/
def overlayFields (env : Env) (d : Deployment) (flags : InstallFlags) : Deployment × List Event :=
  overlaySnapshotter
    (setBootloader env (overlayPolicy env d flags)
      flags.Bootloader flags.KernelCmdline flags.CreateBootEntry)
    flags

/-- Lines 203-234 of `applyInstallFlags`: the field assignments followed by the
Sanitize call. -/
def finishInstallFlags (env : Env) (d : Deployment) (flags : InstallFlags)
    (trace : List Event) : Outcome :=
  let r := overlayFields env d flags
  match env.Sanitize r.1 with
  | some e =>
    { d := r.1, err := some (GoError.wrap "inconsistent deployment setup found: " e),
      trace := trace ++ r.2 ++ [Event.sanitize r.1] }
  | none => { d := r.1, err := none, trace := trace ++ r.2 ++ [Event.sanitize r.1] }

/-- Lines 195-234 of `applyInstallFlags`: the overlay URI, then the rest. -/
def applyOverlayFlag (env : Env) (d : Deployment) (flags : InstallFlags)
    (trace : List Event) : Outcome :=
  if flags.Overlay ≠ "" then
    match env.NewSrcFromURI flags.Overlay with
    | .error e =>
      { d := d,
        err := some (GoError.wrap ("failed parsing overlay source URI ('" ++ flags.Overlay ++ "'): ") e),
        trace := trace ++ [Event.newSrcFromURI flags.Overlay] }
    | .ok overlay =>
      finishInstallFlags env { d with OverlayTree := some overlay } flags
        (trace ++ [Event.newSrcFromURI flags.Overlay])
  else finishInstallFlags env d flags trace

/-- Lines 182-185 of `applyInstallFlags`: the target device, assigned to the system
disk when the flag is set and a system disk exists. -/
def overlayTarget (d : Deployment) (flags : InstallFlags) : Deployment :=
  if flags.Target ≠ "" ∧ d.GetSystemDisk.isSome then d.setSystemDiskDevice flags.Target else d

/-- The function `applyInstallFlags` (install.go, lines 181-235). -/
def applyInstallFlags (env : Env) (d : Deployment) (flags : InstallFlags) : Outcome :=
  let d1 : Deployment := overlayTarget d flags
  if flags.OperatingSystemImage ≠ "" then
    match env.NewSrcFromURI flags.OperatingSystemImage with
    | .error e =>
      { d := d1,
        err := some (GoError.wrap
          ("failed parsing OS source URI ('" ++ flags.OperatingSystemImage ++ "'): ") e),
        trace := [Event.newSrcFromURI flags.OperatingSystemImage] }
    | .ok srcOS =>
      applyOverlayFlag env { d1 with SourceOS := some srcOS } flags
        [Event.newSrcFromURI flags.OperatingSystemImage]
  else applyOverlayFlag env d1 flags []

/-- What a resolver returns, `(d, nil)` or `(nil, err)`, with the events produced. -/
structure Digest where
  res : Except GoError Deployment
  trace : List Event

/-- The function `loadDescriptionFile` (install.go, lines 115-127). -/
def loadDescriptionFile (env : Env) (file : String) (d : Deployment) : Outcome :=
  match env.ReadFile file with
  | .error e =>
    { d := d, err := some (GoError.wrap ("could not read description file '" ++ file ++ "': ") e),
      trace := [Event.readFile file] }
  | .ok data =>
    match env.Unmarshal data d with
    | (d1, some e) =>
      { d := d1, err := some (GoError.wrap "could not unmarshal config file: " e),
        trace := [Event.readFile file] }
    | (d1, none) =>
      { d := d1, err := none,
        trace := [Event.readFile file,
                  Event.logInfo ("Loaded deployment description file: " ++ file)] }

/-- The closing step shared by both resolvers (install.go, lines 173-178, and
reset.go, lines 102-107): apply the flag overlay and wrap its error. -/
def defineDeployment (env : Env) (d : Deployment) (flags : InstallFlags)
    (trace : List Event) : Digest :=
  let r := applyInstallFlags env d flags
  match r.err with
  | some e =>
    { res := .error (GoError.wrap "defining the deployment details: " e),
      trace := trace ++ r.trace }
  | none => { res := .ok r.d, trace := trace ++ r.trace }

/-- The function `digestInstallSetup` (install.go, lines 154-179). -/
def digestInstallSetup (env : Env) (flags : InstallFlags) : Digest :=
  let d := env.DefaultDeployment
  if flags.Description ≠ "" then
    let r := loadDescriptionFile env flags.Description d
    match r.err with
    | some e => { res := .error e, trace := r.trace }
    | none => defineDeployment env r.d flags r.trace
  else if env.IsLiveMedia then
    if env.Exists env.InstallDesc then
      let r := loadDescriptionFile env env.InstallDesc d
      match r.err with
      | some e => { res := .error e, trace := Event.stat env.InstallDesc :: r.trace }
      | none => defineDeployment env r.d flags (Event.stat env.InstallDesc :: r.trace)
    else defineDeployment env d flags [Event.stat env.InstallDesc]
  else defineDeployment env d flags []

/-- The function `initInstaller` (install.go, lines 87-113), reduced to its error
and its events; `installNew` marks the installer as constructed. -/
def initInstaller (env : Env) (d : Deployment) : Option GoError × List Event :=
  let kind : String := match d.BootConfig with
    | some bc => bc.Bootloader
    | none => ""
  match env.BootloaderNew kind with
  | some e => (some e, [Event.bootloaderNew kind, Event.logError "Parsing boot config failed"])
  | none =>
    match env.TransactionNew d d.Snapshotter.Name with
    | some e =>
      (some e, [Event.bootloaderNew kind, Event.transactionNew d.Snapshotter.Name,
                Event.logError "Parsing snapshotter config failed"])
    | none =>
      (none, [Event.bootloaderNew kind, Event.transactionNew d.Snapshotter.Name,
              Event.installNew])

/-- What an action returns, with the events produced. -/
structure ActionResult where
  err : Option GoError
  trace : List Event

/-- The action `Install` (install.go, lines 44-85) as one sequential flow; `system`
is the entry of the command metadata, `none` when it is missing. The deferred
`stop()` is the last event of every path that created the derived context; the
watcher goroutine is left out. -/
def Install (system : Option Env) (args : InstallFlags) : ActionResult :=
  match system with
  | none => { err := some (GoError.leaf "error setting up initial configuration"), trace := [] }
  | some env =>
    let t0 : List Event :=
      [Event.logInfo "Starting install action",
       Event.logDebug "Install action called with args: %+v"]
    let r := digestInstallSetup env args
    match r.res with
    | .error e =>
      { err := some e,
        trace := t0 ++ r.trace ++ [Event.logError "Failed to collect installation setup"] }
    | .ok d =>
      let t1 : List Event := t0 ++ r.trace ++
        [Event.logInfo "Checked configuration, running installation process",
         Event.notifyContext]
      let i := initInstaller env d
      match i.1 with
      | some e =>
        { err := some (GoError.wrap "initiating installer components: " e),
          trace := t1 ++ i.2 ++ [Event.stop] }
      | none =>
        match env.InstallerInstall d with
        | some e =>
          { err := some e,
            trace := t1 ++ i.2 ++
              [Event.installerInstall d, Event.logError "Installation failed", Event.stop] }
        | none =>
          { err := none,
            trace := t1 ++ i.2 ++
              [Event.installerInstall d, Event.logInfo "Installation complete", Event.stop] }

/-! ## `reset.go` -/

/-- The zero value `&deployment.Deployment{}` the reset resolver starts from. -/
def Deployment.zero : Deployment :=
  { SourceOS := none, Disks := [], Firmware := { BootEntries := [] }, BootConfig := none,
    Security := { CryptoPolicy := "" }, Snapshotter := { Name := "" }, OverlayTree := none,
    CfgScript := "" }

/-- The function `setResetTarget` (reset.go, lines 110-123). -/
def setResetTarget (env : Env) (d : Deployment) : Outcome :=
  match env.GetPartitionByMountPoint env.LiveMountPoint 1 with
  | .error e =>
    { d := d, err := some (GoError.wrap "partition for the live mount point not found: " e),
      trace := [Event.getPartitionByMountPoint env.LiveMountPoint] }
  | .ok part =>
    match d.GetSystemDisk with
    | none =>
      { d := d, err := some (GoError.leaf "no system partition found in deployment"),
        trace := [Event.getPartitionByMountPoint env.LiveMountPoint] }
    | some _ =>
      { d := d.setSystemDiskDevice part.Disk, err := none,
        trace := [Event.getPartitionByMountPoint env.LiveMountPoint] }

/-- The function `digestResetSetup` (reset.go, lines 80-108). -/
def digestResetSetup (env : Env) (flags : InstallFlags) : Digest :=
  let d := Deployment.zero
  if ¬ env.IsRecovery then
    { res := .error (GoError.leaf "reset command requires booting from recovery system"),
      trace := [] }
  else
    let descriptionFile : String :=
      if flags.Description ≠ "" then flags.Description else env.InstallDesc
    let r := loadDescriptionFile env descriptionFile d
    match r.err with
    | some e => { res := .error e, trace := r.trace }
    | none =>
      let t := setResetTarget env r.d
      match t.err with
      | some e =>
        { res := .error (GoError.wrap "failed to define target disk: " e),
          trace := r.trace ++ t.trace }
      | none => defineDeployment env t.d flags (r.trace ++ t.trace)

/-! ## A concrete system, after the fixtures of the test-suite -/

/-- A descriptor with one disk carrying an EFI and a system partition. -/
def sampleDeployment : Deployment :=
  { SourceOS := none,
    Disks := [{ Device := "/dev/sda",
                Partitions := [{ Label := "EFI", Role := PartRole.EFI,
                                 FileSystem := FileSystem.VFat, RWVolumes := [] },
                               { Label := "SYSTEM", Role := PartRole.System,
                                 FileSystem := FileSystem.Btrfs,
                                 RWVolumes := [{ Path := "/var" }, { Path := "/etc" }] }] }],
    Firmware := { BootEntries := [] },
    BootConfig := some { Bootloader := "grub", KernelCmdline := "quiet" },
    Security := { CryptoPolicy := "default" },
    Snapshotter := { Name := "snapper" },
    OverlayTree := none,
    CfgScript := "" }

/-- The sample descriptor with a second disk that also carries a partition tagged
system. -/
def twoSystemDisks : Deployment :=
  { sampleDeployment with
    Disks := sampleDeployment.Disks ++
      [{ Device := "/dev/sdb",
         Partitions := [{ Label := "SYSTEM2", Role := PartRole.System,
                          FileSystem := FileSystem.Ext4, RWVolumes := [] }] }] }

/-- The sample descriptor naming the overwrite snapshotter itself. -/
def overwriteDeployment : Deployment :=
  { sampleDeployment with Snapshotter := { Name := "overwrite" } }

/-- The descriptor of the `badConfig` fixture: partitions, none tagged system. -/
def badDeployment : Deployment :=
  { Deployment.zero with
    Disks := [{ Device := "",
                Partitions := [{ Label := "mylabel", Role := PartRole.Data,
                                 FileSystem := FileSystem.XFS, RWVolumes := [] },
                               { Label := "", Role := PartRole.EFI,
                                 FileSystem := FileSystem.VFat, RWVolumes := [] },
                               { Label := "", Role := PartRole.Recovery,
                                 FileSystem := FileSystem.Btrfs, RWVolumes := [] },
                               { Label := "", Role := PartRole.Data,
                                 FileSystem := FileSystem.Ext2, RWVolumes := [] }] }] }

/-- A system in the shape of the test fixtures: two description files, a recovery
boot with the live medium mounted from `/dev/device`, and collaborators that
accept what the fixtures accept. -/
def testEnv : Env :=
  { ReadFile := fun path =>
      if path = "/configDir/bad_config.yaml" then .ok "bad"
      else if path = "/configDir/install.yaml" then .ok "good"
      else if path = "/configDir/broken.yaml" then .ok "broken"
      else .error (GoError.leaf ("ReadFile " ++ path ++ ": file does not exist")),
    Exists := fun path => path = "/configDir/install.yaml",
    IsLiveMedia := true,
    IsRecovery := true,
    Unmarshal := fun data d =>
      if data = "bad" then ({ d with Disks := badDeployment.Disks }, none)
      else if data = "good" then ({ d with Disks := sampleDeployment.Disks }, none)
      else (d, some (GoError.leaf "yaml: unmarshal errors")),
    GetPartitionByMountPoint := fun _ _ => .ok { Path := "/dev/device2", Disk := "/dev/device" },
    DefaultDeployment := sampleDeployment,
    InstallDesc := "/configDir/install.yaml",
    LiveMountPoint := "/run/initramfs/live",
    NewSrcFromURI := fun uri =>
      if uri = "https://example.com/my/image" then
        .error (GoError.leaf "image source type not supported")
      else .ok { uri := uri },
    IsValid := fun v => v = "default" ∨ v = "fips",
    IsFipsEnabled := fun d => d.Security.CryptoPolicy = "fips",
    AppendCommandLine := fun c => c ++ " fips=1",
    DefaultBootEntry := fun dev => { Label := "elemental", Disk := dev },
    Sanitize := fun d =>
      match d.GetSystemPartition with
      | some _ => none
      | none => some (GoError.leaf "no system partition defined"),
    BootloaderNew := fun _ => none,
    TransactionNew := fun _ _ => none,
    InstallerInstall := fun _ => none,
    InstallerReset := fun _ => none }

/-- Flags that set every override field to a value the collaborators accept. -/
def fullFlags : InstallFlags :=
  { Target := "/dev/device", OperatingSystemImage := "my.registry.org/my/image:test",
    Overlay := "dir:///overlay", ConfigScript := "/configDir/config.sh", Description := "",
    CryptoPolicy := "fips", Bootloader := "grub", KernelCmdline := "console=ttyS0",
    Snapshotter := "overwrite", CreateBootEntry := true, Verify := true, Local := false }

/-- Events of the flag overlay: URI parsing, the overwrite warning, Sanitize. -/
def Event.isOverlay : Event → Bool
  | .newSrcFromURI _ => true
  | .logWarn _ => true
  | .sanitize _ => true
  | _ => false

/-- Events of the description loader and the probes before it. -/
def Event.isLoad : Event → Bool
  | .readFile _ => true
  | .stat _ => true
  | .logInfo _ => true
  | _ => false

/-- Events of the execution engine and of the derived context around it. -/
def Event.isEngine : Event → Bool
  | .notifyContext => true
  | .stop => true
  | .bootloaderNew _ => true
  | .transactionNew _ => true
  | .installNew => true
  | .installerInstall _ => true
  | .installerReset _ => true
  | _ => false

/-- The flags of the test "fails if the setup is inconsistent". -/
def badConfigFlags : InstallFlags :=
  { InstallFlags.zero with
    Target := "/dev/device",
    OperatingSystemImage := "my.registry.org/my/image:test",
    Description := "/configDir/bad_config.yaml" }

/-- The flags of the test "fails if the given OS uri is not valid". -/
def badUriFlags : InstallFlags :=
  { InstallFlags.zero with
    Target := "/dev/device",
    OperatingSystemImage := "https://example.com/my/image" }

/-- The fields the two source URIs do not touch agree. -/
def SameButSources (x y : Deployment) : Prop :=
  x.Disks = y.Disks ∧ x.Firmware = y.Firmware ∧ x.BootConfig = y.BootConfig ∧
  x.Security = y.Security ∧ x.Snapshotter = y.Snapshotter ∧ x.CfgScript = y.CfgScript

/-- The flag record of the reset command run without options: the defaults
registered by `NewResetCommand` (cmd/reset.go, lines 25-97) in the destinations
of its flags; flags without a registered value keep the zero value. -/
def resetDefaults : InstallFlags :=
  { InstallFlags.zero with
    CreateBootEntry := true,
    Bootloader := "grub",
    KernelCmdline := "",
    Snapshotter := "snapper",
    Verify := true }

/-! ## Paths (Go `path/filepath`, Unix) and `strings.TrimSuffix`

The functions of the Go standard library the actions call, on lists of
characters; the separator is `/`. -/

namespace filepath

/-- The elements of a path between separators, as `strings.Split(path, "/")`. -/
def split : List Char → List (List Char)
  | [] => [[]]
  | c :: cs =>
    if c = '/' then [] :: split cs
    else
      match split cs with
      | [] => [[c]]
      | h :: t => (c :: h) :: t

/-- One step of `Clean` on the stack of elements kept so far, top first: empty
and `.` elements are dropped, `..` removes the element before it when there is
one to remove, is dropped at the root and is kept otherwise, any other element is
kept. -/
def cleanStep (rooted : Bool) (stack : List (List Char)) (c : List Char) : List (List Char) :=
  if c = [] ∨ c = ['.'] then stack
  else if c = ['.', '.'] then
    match stack with
    | top :: rest => if top = ['.', '.'] then c :: stack else rest
    | [] => if rooted then [] else [c]
  else c :: stack

/-- The path printed from the elements kept by `Clean`. -/
def render (rooted : Bool) (stack : List (List Char)) : List Char :=
  if rooted then '/' :: List.intercalate ['/'] stack.reverse
  else if stack = [] then ['.']
  else List.intercalate ['/'] stack.reverse

/-- The function `filepath.Clean`: the shortest path equivalent to `path` by purely
lexical processing. -/
def cleanChars (path : List Char) : List Char :=
  if path = [] then ['.']
  else render (path.head? = some '/') ((split path).foldl (cleanStep (path.head? = some '/')) [])

/-- The part of a path up to and including its last separator. -/
def dirPart (path : List Char) : List Char :=
  (path.reverse.dropWhile (fun c => c ≠ '/')).reverse

/-- The function `filepath.Dir`: all but the last element of the path, cleaned. -/
def dirChars (path : List Char) : List Char := cleanChars (dirPart path)

/-- The function `filepath.Base`: the last element of the path, after trailing
separators are removed; `.` for the empty path and `/` for a path of separators. -/
def baseChars (path : List Char) : List Char :=
  if path = [] then ['.']
  else
    let last := ((path.reverse.dropWhile (fun c => c = '/')).takeWhile (fun c => c ≠ '/')).reverse
    if last = [] then ['/'] else last

/-- The function `filepath.Ext`: the suffix of the last element from its last dot,
empty when it has no dot. -/
def extChars (path : List Char) : List Char :=
  let tail := path.reverse.takeWhile (fun c => c ≠ '/')
  if '.' ∈ tail then (tail.takeWhile (fun c => c ≠ '.') ++ ['.']).reverse else []

/-- The function `filepath.Join` on two elements: the elements from the first
non-empty one on, joined by the separator and cleaned. -/
def joinChars (a b : List Char) : List Char :=
  if a ≠ [] then cleanChars (a ++ '/' :: b)
  else if b ≠ [] then cleanChars b
  else []

/-- The function `strings.TrimSuffix`. -/
def trimSuffixChars (s suffix : List Char) : List Char :=
  if suffix <:+ s then s.take (s.length - suffix.length) else s

/-- The function `filepath.Clean` on strings. -/
def Clean (path : String) : String := String.mk (cleanChars path.data)

/-- The function `filepath.Dir` on strings. -/
def Dir (path : String) : String := String.mk (dirChars path.data)

/-- The function `filepath.Base` on strings. -/
def Base (path : String) : String := String.mk (baseChars path.data)

/-- The function `filepath.Ext` on strings. -/
def Ext (path : String) : String := String.mk (extChars path.data)

/-- The function `filepath.Join` on strings. -/
def Join (a b : String) : String := String.mk (joinChars a.data b.data)

/-- The function `strings.TrimSuffix` on strings. -/
def TrimSuffix (s suffix : String) : String := String.mk (trimSuffixChars s.data suffix.data)

end filepath

/-! ## Timestamps (Go `time`, layout "2006-01-02T15-04-05")

An instant is counted in whole seconds from 0000-01-01T00:00:00Z, the first
second of the year 0 of the proleptic Gregorian calendar Go uses. -/

/-- A leap year of the Gregorian calendar. -/
def isLeap (y : Nat) : Bool := y % 4 = 0 ∧ (y % 100 ≠ 0 ∨ y % 400 = 0)

/-- The number of days of a month. -/
def daysIn (y m : Nat) : Nat :=
  if m = 2 then (if isLeap y then 29 else 28)
  else if m = 4 ∨ m = 6 ∨ m = 9 ∨ m = 11 then 30
  else 31

/-- A calendar date: year, month, day. -/
structure Date where
  year : Nat
  month : Nat
  day : Nat
deriving DecidableEq, Repr

/-- The day after a date. -/
def Date.next (a : Date) : Date :=
  if a.day < daysIn a.year a.month then { a with day := a.day + 1 }
  else if a.month < 12 then { a with month := a.month + 1, day := 1 }
  else { year := a.year + 1, month := 1, day := 1 }

/-- The date `n` days after 0000-01-01. -/
def dateOfDay : Nat → Date
  | 0 => { year := 0, month := 1, day := 1 }
  | n + 1 => (dateOfDay n).next

/-- The decimal digit of the units of `n`. -/
def digit (n : Nat) : Char := Char.ofNat (48 + n % 10)

/-- Two decimal digits, zero padded. -/
def pad2 (n : Nat) : List Char := [digit (n / 10), digit n]

/-- A year as Go prints it for the layout element `2006`: four decimal digits, zero
padded, and all its digits from 10000 on. -/
def pad4 (n : Nat) : List Char :=
  if n < 10000 then [digit (n / 1000), digit (n / 100), digit (n / 10), digit n]
  else Nat.toDigits 10 n

/-- The characters of `t.UTC().Format("2006-01-02T15-04-05")` for the instant `t`. -/
def timestampChars (t : Nat) : List Char :=
  pad4 (dateOfDay (t / 86400)).year ++ '-' :: pad2 (dateOfDay (t / 86400)).month ++
    '-' :: pad2 (dateOfDay (t / 86400)).day ++
    'T' :: pad2 (t % 86400 / 3600) ++ '-' :: pad2 (t % 3600 / 60) ++ '-' :: pad2 (t % 60)

/-- The string `t.UTC().Format("2006-01-02T15-04-05")`. -/
def formatTimestamp (t : Nat) : String := String.mk (timestampChars t)

/-- The name `fmt.Sprintf("image-%s.%s", timestamp, mediaType)` (customize.go, line
96, and build.go, line 133). -/
def imageName (t : Nat) (mediaType : String) : String :=
  "image-" ++ formatTimestamp t ++ "." ++ mediaType

/-- The name `fmt.Sprintf("build-%s", timestamp)` (build.go, line 70). -/
def buildName (t : Nat) : String := "build-" ++ formatTimestamp t

/-! ## `customize.go` and `build.go` -/

/-- The flag record of the customize command (`cmd.CustomizeFlags`, cmd/customize.go,
lines 30-37). -/
structure CustomizeFlags where
  ConfigDir : String
  OutputPath : String
  Mode : String
  Platform : String
  MediaType : String
  Local : Bool
deriving DecidableEq, Repr

/-- The function `resolveOutputPaths` (customize.go, lines 92-110); `now` is the
reading of the clock. Returns `(imagePath, configPath)`. -/
def resolveOutputPaths (now : Nat) (args : CustomizeFlags) : String × String :=
  let imagePath : String :=
    if args.OutputPath = "" then filepath.Join args.ConfigDir (imageName now args.MediaType)
    else args.OutputPath
  let configPath : String :=
    if args.Mode = "split" then
      filepath.Join (filepath.Dir imagePath)
        (filepath.TrimSuffix (filepath.Base imagePath) (filepath.Ext (filepath.Base imagePath))
          ++ "-config")
    else ""
  (imagePath, configPath)

/-- The flag record of the build command (`cmd.BuildFlags`), with the fields the
action reads. -/
structure BuildFlags where
  ConfigDir : String
  ImageType : String
  Platform : String
  OutputPath : String
  BuildDir : String
  Local : Bool
deriving DecidableEq, Repr

/-- A platform as returned by `platform.Parse`. -/
structure Platform where
  OS : String
  Arch : String
deriving DecidableEq, Repr

/-- The image definition handed to the engine (`image.Definition`); the parsed
configuration directory is kept as an opaque value. -/
structure Definition where
  ImageType : String
  Platform : Elemental.Platform
  OutputImageName : String
  Configuration : String
deriving DecidableEq, Repr

/-- The workspace returned by `config.NewOutput`. -/
structure Output where
  RootPath : String
  ConfigPath : String
deriving DecidableEq, Repr

/-- Calls into the logger and into the collaborators of the build and customize
actions, in program order. -/
inductive WorkEvent where
  | logInfo (msg : String)
  | logDebug (msg : String)
  | logWarn (msg : String)
  | logError (msg : String)
  | notifyContext
  | cancel
  | stat (path : String)
  | platformParse (platform : String)
  | configParse (dir : String)
  | newOutput (root configPath : String)
  | cleanup (output : Output)
  | mkdirAll (path : String)
  | extractorNew (store : String)
  | builderRun (definition : Definition) (output : Output)
  | customizeRun (definition : Definition) (output : Output)
deriving DecidableEq, Repr

/-- The `sys.System` handle of the build and customize actions together with the
package functions they call and whose code is outside the sources at hand; each
is a parameter. -/
structure WorkEnv where
  /-- The error of `fs.Stat(path)`. -/
  Stat : String → Option GoError
  /-- The parser `platform.Parse`. -/
  PlatformParse : String → Except GoError Elemental.Platform
  /-- The parser `config.Parse(f, config.Dir(dir))`. -/
  ConfigParse : String → Except GoError String
  /-- The constructor `config.NewOutput(fs, root, configPath)`, which creates the
  workspace. -/
  NewOutput : String → String → Except GoError Output
  /-- The method `output.Cleanup(fs)`. -/
  Cleanup : Output → Option GoError
  /-- The method `output.ISOStoreDir()`. -/
  ISOStoreDir : Output → String
  /-- The error of `vfs.MkdirAll(s.FS(), path, vfs.DirPerm)`. -/
  MkdirAll : String → Option GoError
  /-- The error of `extractor.New` for the given store. -/
  ExtractorNew : String → Bool → Option GoError
  /-- The engine call `builder.Run(ctx, definition, output)`. -/
  BuilderRun : Definition → Output → Option GoError
  /-- The engine call `customizeRunner.Run(ctx, def, output)`. -/
  CustomizeRun : Definition → Output → Option GoError
  /-- The readings of the clock, `time.Now()`, by call site. -/
  Now : Nat → Nat
  /-- The constant `image.TypeRAW`. -/
  TypeRAW : String
  /-- The tables of `strconv.IsPrint` for the runes above U+00FF. -/
  IsPrintWide : Char → Bool

/-- The table `lowerhex` of `strconv`. -/
def lowerhex (n : Nat) : Char :=
  if n % 16 < 10 then Char.ofNat (48 + n % 16) else Char.ofNat (87 + n % 16)

/-- The `n` hexadecimal digits of `r`, most significant first: the loops
`for s := 12; s >= 0; s -= 4` and `for s := 28; s >= 0; s -= 4` of
`appendEscapedRune`. -/
def hexDigits (r : Nat) : Nat → List Char
  | 0 => []
  | n + 1 => lowerhex (r / 16 ^ n) :: hexDigits r n

/-- The function `strconv.IsPrint`: the check for Latin-1 is the one of the
library, the runes above it are looked up in the tables `wide`. -/
def isPrint (wide : Char → Bool) (r : Char) : Bool :=
  if r.toNat ≤ 0xFF then
    if 0x20 ≤ r.toNat ∧ r.toNat ≤ 0x7E then true
    else if 0xA1 ≤ r.toNat ∧ r.toNat ≤ 0xFF then r.toNat ≠ 0xAD
    else false
  else wide r

/-- The function `appendEscapedRune` of `strconv` with the double quote as the
quote, neither ASCII-only nor graphic-only: the quote and the backslash are
backslashed, a printable rune is kept, a control character has its letter or
two hexadecimal digits, every other rune four or eight. -/
def escapedRune (wide : Char → Bool) (r : Char) : List Char :=
  if r = Char.ofNat 34 ∨ r = Char.ofNat 92 then [Char.ofNat 92, r]
  else if isPrint wide r then [r]
  else if r.toNat = 7 then [Char.ofNat 92, 'a']
  else if r.toNat = 8 then [Char.ofNat 92, 'b']
  else if r.toNat = 12 then [Char.ofNat 92, 'f']
  else if r.toNat = 10 then [Char.ofNat 92, 'n']
  else if r.toNat = 13 then [Char.ofNat 92, 'r']
  else if r.toNat = 9 then [Char.ofNat 92, 't']
  else if r.toNat = 11 then [Char.ofNat 92, 'v']
  else if r.toNat < 0x20 ∨ r.toNat = 0x7F then
    [Char.ofNat 92, 'x', lowerhex (r.toNat / 16), lowerhex r.toNat]
  else if r.toNat < 0x10000 then Char.ofNat 92 :: 'u' :: hexDigits r.toNat 4
  else Char.ofNat 92 :: 'U' :: hexDigits r.toNat 8

/-- The verb `%q` of `fmt` on a string, which is `strconv.Quote`: the escaped
runes between double quotes. A string is a sequence of runes here, so the
branch for bytes that are not UTF-8 has no counterpart. -/
def quoted (wide : Char → Bool) (s : String) : String :=
  String.mk (Char.ofNat 34 :: s.data.foldr (fun r acc => escapedRune wide r ++ acc) [Char.ofNat 34])

/-- The function `validateArgs` (build.go, lines 112-128). -/
def validateArgs (env : WorkEnv) (args : BuildFlags) : Option GoError × List WorkEvent :=
  match env.Stat args.ConfigDir with
  | some e => (some (GoError.wrap "reading config directory: " e), [WorkEvent.stat args.ConfigDir])
  | none =>
    if ¬ ([env.TypeRAW].contains args.ImageType) then
      (some (GoError.leaf ("image type " ++ quoted env.IsPrintWide args.ImageType ++ " not supported")),
       [WorkEvent.stat args.ConfigDir])
    else
      match env.PlatformParse args.Platform with
      | .error _ =>
        (some (GoError.leaf ("malformed platform " ++ quoted env.IsPrintWide args.Platform)),
         [WorkEvent.stat args.ConfigDir, WorkEvent.platformParse args.Platform])
      | .ok _ => (none, [WorkEvent.stat args.ConfigDir, WorkEvent.platformParse args.Platform])

/-- Lines 137-154 of `parseImageDefinition`, which are the body of
`digestCustomizeDefinition` (customize.go, lines 160-179): the platform and the
configuration directory are parsed and the definition is assembled. -/
def digestDefinition (env : WorkEnv) (platform configDir mediaType imagePath : String) :
    Except GoError Definition × List WorkEvent :=
  match env.PlatformParse platform with
  | .error _ =>
    (.error (GoError.leaf ("error parsing platform " ++ platform)),
     [WorkEvent.platformParse platform])
  | .ok p =>
    match env.ConfigParse configDir with
    | .error e =>
      (.error (GoError.wrap ("parsing configuration directory " ++ configDir ++ ": ") e),
       [WorkEvent.platformParse platform, WorkEvent.configParse configDir])
    | .ok conf =>
      (.ok { ImageType := mediaType, Platform := p, OutputImageName := imagePath,
             Configuration := conf },
       [WorkEvent.platformParse platform, WorkEvent.configParse configDir])

/-- The function `parseImageDefinition` (build.go, lines 130-155). -/
def parseImageDefinition (env : WorkEnv) (args : BuildFlags) :
    Except GoError Definition × List WorkEvent :=
  let outputPath : String :=
    if args.OutputPath = "" then filepath.Join args.BuildDir (imageName (env.Now 0) args.ImageType)
    else args.OutputPath
  digestDefinition env args.Platform args.ConfigDir args.ImageType outputPath

/-- The function `digestCustomizeDefinition` (customize.go, lines 160-179). -/
def digestCustomizeDefinition (env : WorkEnv) (args : CustomizeFlags) (imagePath : String) :
    Except GoError Definition × List WorkEvent :=
  digestDefinition env args.Platform args.ConfigDir args.MediaType imagePath

/-- A deferred clean-up of the workspace: the call and, when it fails, the logged
error; `msg` is the text before the verb `%v`. -/
def deferredCleanup (env : WorkEnv) (output : Output) (msg : String) : List WorkEvent :=
  match env.Cleanup output with
  | some rmErr => [WorkEvent.cleanup output, WorkEvent.logError (msg ++ rmErr.Error)]
  | none => [WorkEvent.cleanup output]

/-- What the build and customize actions return, with the events produced. -/
structure WorkResult where
  err : Option GoError
  trace : List WorkEvent
deriving DecidableEq, Repr

/-- The action `Build` (build.go, lines 42-110) as one sequential flow; `system` is
the entry of the command metadata. Deferred calls run at the return, last
deferred first: the clean-up of the workspace, then `cancelFunc`. -/
def Build (system : Option WorkEnv) (args : BuildFlags) : WorkResult :=
  match system with
  | none => { err := some (GoError.leaf "error setting up initial configuration"), trace := [] }
  | some env =>
    let t0 : List WorkEvent :=
      [WorkEvent.notifyContext,
       WorkEvent.logWarn "Warning: build is deprecated. Switch to customize going forward."]
    let v := validateArgs env args
    match v.1 with
    | some e =>
      { err := some e,
        trace := t0 ++ v.2 ++ [WorkEvent.logError "Input args are invalid", WorkEvent.cancel] }
    | none =>
      let t1 : List WorkEvent := t0 ++ v.2 ++ [WorkEvent.logInfo "Reading image configuration"]
      let p := parseImageDefinition env args
      match p.1 with
      | .error e =>
        { err := some e,
          trace := t1 ++ p.2 ++
            [WorkEvent.logError "Parsing image configuration failed", WorkEvent.cancel] }
      | .ok definition =>
        let rootBuildPath : String := filepath.Join args.BuildDir (buildName (env.Now 1))
        let t2 : List WorkEvent := t1 ++ p.2 ++
          [WorkEvent.logInfo "Validated image configuration",
           WorkEvent.newOutput rootBuildPath ""]
        match env.NewOutput rootBuildPath "" with
        | .error e =>
          { err := some e,
            trace := t2 ++ [WorkEvent.logError "Creating build directory failed", WorkEvent.cancel] }
        | .ok output =>
          let t3 : List WorkEvent := t2 ++
            [WorkEvent.logInfo ("Starting build process for " ++ definition.Platform.OS ++ "/" ++
               definition.Platform.Arch ++ " " ++ definition.ImageType ++ " image"),
             WorkEvent.builderRun definition output]
          match env.BuilderRun definition output with
          | some e =>
            { err := some e,
              trace := t3 ++ [WorkEvent.logError "Build process failed"] ++
                deferredCleanup env output "Cleaning up build directory failed: " ++
                [WorkEvent.cancel] }
          | none =>
            { err := none,
              trace := t3 ++ [WorkEvent.logInfo "Build process complete"] ++
                deferredCleanup env output "Cleaning up build directory failed: " ++
                [WorkEvent.cancel] }

/-- The function `setupCustomizeRunner` (customize.go, lines 112-128) with
`setupFileExtractor` (lines 144-158), reduced to its error and its events. -/
def setupCustomizeRunner (env : WorkEnv) (args : CustomizeFlags) (output : Output) :
    Option GoError × List WorkEvent :=
  match env.MkdirAll (env.ISOStoreDir output) with
  | some e =>
    (some (GoError.wrap "setting up file extractor: "
        (GoError.wrap "creating ISO store directory: " e)),
     [WorkEvent.mkdirAll (env.ISOStoreDir output)])
  | none =>
    match env.ExtractorNew (env.ISOStoreDir output) args.Local with
    | some e =>
      (some (GoError.wrap "setting up file extractor: " e),
       [WorkEvent.mkdirAll (env.ISOStoreDir output),
        WorkEvent.extractorNew (env.ISOStoreDir output)])
    | none =>
      (none,
       [WorkEvent.mkdirAll (env.ISOStoreDir output),
        WorkEvent.extractorNew (env.ISOStoreDir output)])

/-- The deferred clean-up of `Customize` (customize.go, lines 62-67). -/
def customizeCleanup (env : WorkEnv) (output : Output) : List WorkEvent :=
  WorkEvent.logDebug "Cleaning up working directory" ::
    deferredCleanup env output "Cleaning up working directory failed: "

/-- The action `Customize` (customize.go, lines 43-90) as one sequential flow.
Deferred calls run at the return, last deferred first: `cancelFunc` when the
derived context exists, then the clean-up of the workspace. -/
def Customize (system : Option WorkEnv) (args : CustomizeFlags) : WorkResult :=
  match system with
  | none => { err := some (GoError.leaf "error setting up initial configuration"), trace := [] }
  | some env =>
    let paths := resolveOutputPaths (env.Now 0) args
    let t0 : List WorkEvent :=
      [WorkEvent.logInfo "Customizing image started", WorkEvent.newOutput "" paths.2]
    match env.NewOutput "" paths.2 with
    | .error e =>
      { err := some e, trace := t0 ++ [WorkEvent.logError "Creating working directory failed"] }
    | .ok output =>
      let dg := digestCustomizeDefinition env args paths.1
      match dg.1 with
      | .error e =>
        { err := some e,
          trace := t0 ++ dg.2 ++
            [WorkEvent.logError "Digesting image definition from customize flags failed"] ++
            customizeCleanup env output }
      | .ok definition =>
        let t1 : List WorkEvent := t0 ++ dg.2 ++ [WorkEvent.notifyContext]
        let r := setupCustomizeRunner env args output
        match r.1 with
        | some e =>
          { err := some e,
            trace := t1 ++ r.2 ++
              [WorkEvent.logError "Setting up customization runner failed", WorkEvent.cancel] ++
              customizeCleanup env output }
        | none =>
          match env.CustomizeRun definition output with
          | some e =>
            { err := some e,
              trace := t1 ++ r.2 ++
                [WorkEvent.customizeRun definition output,
                 WorkEvent.logError "Customizing installer media failed", WorkEvent.cancel] ++
                customizeCleanup env output }
          | none =>
            { err := none,
              trace := t1 ++ r.2 ++
                [WorkEvent.customizeRun definition output, WorkEvent.cancel] ++
                customizeCleanup env output }

/-- Events of a workspace being created. -/
def WorkEvent.isNewOutput : WorkEvent → Bool
  | .newOutput _ _ => true
  | _ => false

/-- Events of the clean-up of a workspace. -/
def WorkEvent.isCleanup : WorkEvent → Bool
  | .cleanup _ => true
  | _ => false

/-- Events of the execution engine being invoked. -/
def WorkEvent.isRun : WorkEvent → Bool
  | .builderRun _ _ => true
  | .customizeRun _ _ => true
  | _ => false

/-- A system for the build and customize actions in which every collaborator
succeeds, except that the platform "bogus" is rejected. -/
def workEnv : WorkEnv :=
  { Stat := fun _ => none,
    PlatformParse := fun s =>
      if s = "bogus" then .error (GoError.leaf "invalid platform") else .ok ⟨"linux", "amd64"⟩,
    ConfigParse := fun _ => .ok "configuration",
    NewOutput := fun root configPath =>
      .ok { RootPath := if root = "" then "/tmp/work" else root, ConfigPath := configPath },
    Cleanup := fun _ => none,
    ISOStoreDir := fun o => o.RootPath ++ "/store/ISOs",
    MkdirAll := fun _ => none,
    ExtractorNew := fun _ _ => none,
    BuilderRun := fun _ _ => none,
    CustomizeRun := fun _ _ => none,
    Now := fun _ => 86400,
    TypeRAW := "raw",
    IsPrintWide := fun _ => true }

/-- Customize flags with the platform "bogus". -/
def bogusCustomizeFlags : CustomizeFlags :=
  { ConfigDir := "/config", OutputPath := "/out/image.iso", Mode := "split",
    Platform := "bogus", MediaType := "iso", Local := false }

/-- Build flags with the platform "bogus". -/
def bogusBuildFlags : BuildFlags :=
  { ConfigDir := "/config", ImageType := "raw", Platform := "bogus", OutputPath := "",
    BuildDir := "/build", Local := false }

/-- The system `workEnv` with both engines and the clean-up failing. -/
def failingWorkEnv : WorkEnv :=
  { workEnv with
    BuilderRun := fun _ _ => some (GoError.leaf "boom"),
    CustomizeRun := fun _ _ => some (GoError.leaf "boom"),
    Cleanup := fun _ => some (GoError.leaf "busy") }

/-- Build flags the collaborators accept. -/
def goodBuildFlags : BuildFlags := { bogusBuildFlags with Platform := "linux/amd64" }

/-- Customize flags the collaborators accept. -/
def goodCustomizeFlags : CustomizeFlags := { bogusCustomizeFlags with Platform := "linux/amd64" }

/-! ## `cmd/root.go`: the target of the logger -/

/-- An open file as returned by `s.FS().OpenFile`. -/
structure FileHandle where
  Name : String
deriving DecidableEq, Repr

/-- The flags of `os.OpenFile` the command uses. -/
inductive OpenFlag where
  | O_WRONLY | O_CREATE
deriving DecidableEq, Repr

/-- Where the logger writes: the output it was created with, `os.Stdout`,
`os.Stderr` or a file. -/
inductive LogOutput where
  | initial
  | stdout
  | stderr
  | file (f : FileHandle)
deriving DecidableEq, Repr

/-- The output of the logger and the package variable `logFile`. -/
structure LoggerState where
  Output : LogOutput
  logFile : Option FileHandle
deriving DecidableEq, Repr

/-- The file system of the system handle, as far as `SetLoggerTarget` uses it. -/
structure LogFS where
  /-- The method `OpenFile(name, flag, perm)`. -/
  OpenFile : String → List OpenFlag → Nat → Except GoError FileHandle
  /-- The constant `vfs.FilePerm`. -/
  FilePerm : Nat

/-- What `SetLoggerTarget` leaves behind: the state, the error and the calls of
`OpenFile` it made. -/
structure LoggerResult where
  state : LoggerState
  err : Option GoError
  opened : List (String × List OpenFlag × Nat)
deriving DecidableEq, Repr

/-- The function `SetLoggerTarget` (root.go, lines 80-100); `logPath` is the value
of `--log-file`. A Go `switch` does not fall through: the cases "" and "-"
have no effect. On a failed open the variable `logFile` takes the nil file
returned with the error. -/
def SetLoggerTarget (fs : LogFS) (st : LoggerState) (logPath : String) : LoggerResult :=
  if logPath = "" then { state := st, err := none, opened := [] }
  else if logPath = "-" then { state := st, err := none, opened := [] }
  else if logPath = "stdout" then
    { state := { st with Output := LogOutput.stdout }, err := none, opened := [] }
  else if logPath = "stderr" then
    { state := { st with Output := LogOutput.stderr }, err := none, opened := [] }
  else
    match fs.OpenFile logPath [OpenFlag.O_WRONLY, OpenFlag.O_CREATE] fs.FilePerm with
    | .error e =>
      { state := { st with logFile := none },
        err := some (GoError.wrap ("opening log file '" ++ logPath ++ "': ") e),
        opened := [(logPath, [OpenFlag.O_WRONLY, OpenFlag.O_CREATE], fs.FilePerm)] }
    | .ok f =>
      { state := { Output := LogOutput.file f, logFile := some f },
        err := none,
        opened := [(logPath, [OpenFlag.O_WRONLY, OpenFlag.O_CREATE], fs.FilePerm)] }

/-- A file system in which every file but `/proc/log` can be opened. -/
def logFS : LogFS :=
  { OpenFile := fun name _ _ =>
      if name = "/proc/log" then .error (GoError.leaf "permission denied")
      else .ok { Name := name },
    FilePerm := 420 }

/-- The logger as `sys.NewSystem` leaves it. -/
def LoggerState.start : LoggerState := { Output := LogOutput.initial, logFile := none }

namespace filepath

/-- An element `Clean` keeps: not empty, not `.`, free of separators. -/
def Kept (c : List Char) : Prop := c ≠ [] ∧ c ≠ ['.'] ∧ '/' ∉ c

/-- The shape of the stack of `Clean`, top first: kept elements only, and a `..`
element only in an unrooted path, above nothing but `..` elements. -/
def Normal (rooted : Bool) : List (List Char) → Prop
  | [] => True
  | c :: rest =>
    Kept c ∧ (c = ['.', '.'] → rooted = false ∧ ∀ x ∈ rest, x = ['.', '.']) ∧ Normal rooted rest

end filepath

/-! ## First-match updates -/

theorem find?_modifyFirst {α : Type} (p : α → Bool) (f : α → α)
    (hp : ∀ a, p a = true → p (f a) = true) (l : List α) :
    (modifyFirst p f l).find? p = (l.find? p).map f := by
  induction l with
  | nil => rfl
  | cons a as ih =>
    by_cases h : p a = true
    · simp [modifyFirst, h, hp a h]
    · simp [modifyFirst, h, ih]

theorem any_modifyFirst {α : Type} (p : α → Bool) (f : α → α)
    (hp : ∀ a, p (f a) = p a) (l : List α) :
    (modifyFirst p f l).any p = l.any p := by
  induction l with
  | nil => rfl
  | cons a as ih =>
    by_cases h : p a = true
    · simp [modifyFirst, h, hp a]
    · simp [modifyFirst, h, ih]

theorem Partition.isSystem_reset (fs : Elemental.FileSystem) (p : Partition) :
    (Partition.reset fs p).isSystem = p.isSystem := rfl

theorem Disk.hasSystem_resetSystemPartition (fs : Elemental.FileSystem) (k : Disk) :
    (Disk.resetSystemPartition fs k).hasSystem = k.hasSystem := by
  unfold Disk.hasSystem Disk.resetSystemPartition
  exact any_modifyFirst _ _ (Partition.isSystem_reset fs) _

theorem Deployment.GetSystemDisk_setSystemDiskDevice (d : Deployment) (dev : String) :
    (d.setSystemDiskDevice dev).GetSystemDisk
      = d.GetSystemDisk.map (fun k => { k with Device := dev }) := by
  unfold Deployment.GetSystemDisk Deployment.setSystemDiskDevice
  exact find?_modifyFirst Disk.hasSystem (fun k => { k with Device := dev }) (fun _ h => h) _

theorem Deployment.GetSystemPartition_setSystemDiskDevice (d : Deployment) (dev : String) :
    (d.setSystemDiskDevice dev).GetSystemPartition = d.GetSystemPartition := by
  unfold Deployment.GetSystemPartition Deployment.setSystemDiskDevice
  simp only
  rw [find?_modifyFirst Disk.hasSystem (fun k => { k with Device := dev }) (fun _ h => h)]
  cases List.find? Disk.hasSystem d.Disks <;> rfl

theorem Deployment.GetSystemDisk_resetSystemPartition (d : Deployment)
    (fs : Elemental.FileSystem) :
    (d.resetSystemPartition fs).GetSystemDisk
      = d.GetSystemDisk.map (Disk.resetSystemPartition fs) := by
  unfold Deployment.GetSystemDisk Deployment.resetSystemPartition
  exact find?_modifyFirst Disk.hasSystem (Disk.resetSystemPartition fs)
    (fun a h => by rw [Disk.hasSystem_resetSystemPartition]; exact h) _

theorem Deployment.GetSystemPartition_resetSystemPartition (d : Deployment)
    (fs : Elemental.FileSystem) :
    (d.resetSystemPartition fs).GetSystemPartition
      = d.GetSystemPartition.map (Partition.reset fs) := by
  unfold Deployment.GetSystemPartition Deployment.resetSystemPartition
  simp only
  rw [find?_modifyFirst Disk.hasSystem (Disk.resetSystemPartition fs)
    (fun a h => by rw [Disk.hasSystem_resetSystemPartition]; exact h)]
  cases List.find? Disk.hasSystem d.Disks with
  | none => rfl
  | some k =>
    simp only [Option.map_some', Option.some_bind, Disk.resetSystemPartition]
    exact find?_modifyFirst Partition.isSystem (Partition.reset fs) (fun _ h => h) _

/-! ## Frame of `setBootloader` -/

theorem setBootEntries_frame (env : Env) (d : Deployment) (e : Bool) :
    (setBootEntries env d e).SourceOS = d.SourceOS ∧
    (setBootEntries env d e).Disks = d.Disks ∧
    (setBootEntries env d e).BootConfig = d.BootConfig ∧
    (setBootEntries env d e).Security = d.Security ∧
    (setBootEntries env d e).Snapshotter = d.Snapshotter ∧
    (setBootEntries env d e).OverlayTree = d.OverlayTree ∧
    (setBootEntries env d e).CfgScript = d.CfgScript := by
  unfold setBootEntries
  split <;> simp

theorem setBootEntries_false (env : Env) (d : Deployment) :
    setBootEntries env d false = d := by
  unfold setBootEntries
  split <;> simp_all

theorem setBootloader_frame (env : Env) (d : Deployment) (b c : String) (e : Bool) :
    (setBootloader env d b c e).SourceOS = d.SourceOS ∧
    (setBootloader env d b c e).Disks = d.Disks ∧
    (setBootloader env d b c e).Security = d.Security ∧
    (setBootloader env d b c e).Snapshotter = d.Snapshotter ∧
    (setBootloader env d b c e).OverlayTree = d.OverlayTree ∧
    (setBootloader env d b c e).CfgScript = d.CfgScript := by
  obtain ⟨h1, h2, -, h4, h5, h6, h7⟩ := setBootEntries_frame env d e
  unfold setBootloader
  simp only
  split <;> exact ⟨h1, h2, h4, h5, h6, h7⟩

theorem setBootloader_BootConfig (env : Env) (d : Deployment) (b c : String) (e : Bool) :
    (setBootloader env d b c e).BootConfig = some (overlayBootConfig d.BootConfig b c) ∨
    (setBootloader env d b c e).BootConfig =
      some { overlayBootConfig d.BootConfig b c with
             KernelCmdline := env.AppendCommandLine (overlayBootConfig d.BootConfig b c).KernelCmdline } := by
  obtain ⟨-, -, h3, -⟩ := setBootEntries_frame env d e
  unfold setBootloader
  simp only [h3]
  split
  · right; rfl
  · left; rfl

theorem Deployment.GetSystemDisk_congr {d d' : Deployment} (h : d'.Disks = d.Disks) :
    d'.GetSystemDisk = d.GetSystemDisk := by
  unfold Deployment.GetSystemDisk; rw [h]

theorem Deployment.GetSystemPartition_congr {d d' : Deployment} (h : d'.Disks = d.Disks) :
    d'.GetSystemPartition = d.GetSystemPartition := by
  unfold Deployment.GetSystemPartition; rw [h]

/-! ## The field assignments of the overlay -/

theorem overlayPolicy_frame (env : Env) (x : Deployment) (flags : InstallFlags) :
    (overlayPolicy env x flags).SourceOS = x.SourceOS ∧
    (overlayPolicy env x flags).Disks = x.Disks ∧
    (overlayPolicy env x flags).Firmware = x.Firmware ∧
    (overlayPolicy env x flags).BootConfig = x.BootConfig ∧
    (overlayPolicy env x flags).Snapshotter = x.Snapshotter ∧
    (overlayPolicy env x flags).OverlayTree = x.OverlayTree := by
  unfold overlayPolicy
  simp only
  split_ifs <;> simp

theorem overlayPolicy_values (env : Env) (x : Deployment) (flags : InstallFlags) :
    (overlayPolicy env x flags).CfgScript
      = (if flags.ConfigScript ≠ "" then flags.ConfigScript else x.CfgScript) ∧
    (overlayPolicy env x flags).Security.CryptoPolicy
      = (if flags.CryptoPolicy ≠ "" ∧ env.IsValid flags.CryptoPolicy = true
          then flags.CryptoPolicy else x.Security.CryptoPolicy) := by
  unfold overlayPolicy
  simp only
  split_ifs <;> simp_all

theorem overlaySnapshotter_frame (x : Deployment) (flags : InstallFlags) :
    (overlaySnapshotter x flags).1.SourceOS = x.SourceOS ∧
    (overlaySnapshotter x flags).1.Firmware = x.Firmware ∧
    (overlaySnapshotter x flags).1.BootConfig = x.BootConfig ∧
    (overlaySnapshotter x flags).1.Security = x.Security ∧
    (overlaySnapshotter x flags).1.OverlayTree = x.OverlayTree ∧
    (overlaySnapshotter x flags).1.CfgScript = x.CfgScript ∧
    (overlaySnapshotter x flags).1.Snapshotter.Name
      = (if flags.Snapshotter ≠ "" then flags.Snapshotter else x.Snapshotter.Name) := by
  unfold overlaySnapshotter
  simp only
  split_ifs <;> (try split) <;> simp_all [Deployment.resetSystemPartition]

theorem overlaySnapshotter_GetSystemPartition (x : Deployment) (flags : InstallFlags) :
    (overlaySnapshotter x flags).1.GetSystemPartition
      = (if flags.Snapshotter = "overwrite"
          then x.GetSystemPartition.map (Partition.reset FileSystem.Ext4)
          else x.GetSystemPartition) := by
  have hp : ∀ n : String, Deployment.GetSystemPartition
      { x with Snapshotter := { x.Snapshotter with Name := n } } = x.GetSystemPartition :=
    fun n => Deployment.GetSystemPartition_congr rfl
  unfold overlaySnapshotter
  simp only
  split_ifs with h1 h2 h3
  · split
    · rw [Deployment.GetSystemPartition_resetSystemPartition, hp]
    · rename_i hn
      rw [hp] at hn
      rw [hp, hn]; rfl
  · exact hp _
  · exact absurd h3 (by rw [not_not.mp h1]; decide)
  · rfl

theorem overlaySnapshotter_GetSystemDisk (x : Deployment) (flags : InstallFlags) :
    (overlaySnapshotter x flags).1.GetSystemDisk.map Disk.Device
      = x.GetSystemDisk.map Disk.Device := by
  unfold overlaySnapshotter
  simp only
  split_ifs
  · split
    · rw [Deployment.GetSystemDisk_resetSystemPartition]
      have hp : Deployment.GetSystemDisk
          { x with Snapshotter := { x.Snapshotter with Name := flags.Snapshotter } }
            = x.GetSystemDisk := Deployment.GetSystemDisk_congr rfl
      rw [hp]
      cases x.GetSystemDisk <;> rfl
    · rfl
  · rfl
  · rfl

theorem overlaySnapshotter_trace (x : Deployment) (flags : InstallFlags) :
    (overlaySnapshotter x flags).2
      = (if flags.Snapshotter = "overwrite" then [Event.logWarn overwriteWarning] else []) := by
  unfold overlaySnapshotter
  by_cases hs : flags.Snapshotter = ""
  · have hne : flags.Snapshotter ≠ "overwrite" := by rw [hs]; decide
    simp [hs, hne]
  · by_cases ho : flags.Snapshotter = "overwrite" <;> simp [hs, ho]

/-! ## The paths through `applyInstallFlags` -/

/-- Every run of `applyInstallFlags` ends in one of three ways: the OS source URI
is rejected, the overlay URI is rejected, or the field assignments and Sanitize run. -/
theorem applyInstallFlags_paths (env : Env) (d : Deployment) (flags : InstallFlags) :
    (∃ e, flags.OperatingSystemImage ≠ "" ∧
        env.NewSrcFromURI flags.OperatingSystemImage = .error e ∧
        applyInstallFlags env d flags =
          { d := overlayTarget d flags,
            err := some (GoError.wrap
              ("failed parsing OS source URI ('" ++ flags.OperatingSystemImage ++ "'): ") e),
            trace := [Event.newSrcFromURI flags.OperatingSystemImage] }) ∨
    (∃ e x tr, flags.Overlay ≠ "" ∧ env.NewSrcFromURI flags.Overlay = .error e ∧
        SameButSources x (overlayTarget d flags) ∧ x.OverlayTree = d.OverlayTree ∧
        tr ≠ [] ∧ (∀ ev ∈ tr, ∃ u, ev = Event.newSrcFromURI u) ∧
        applyInstallFlags env d flags =
          { d := x,
            err := some (GoError.wrap
              ("failed parsing overlay source URI ('" ++ flags.Overlay ++ "'): ") e),
            trace := tr }) ∨
    (∃ x tr, SameButSources x (overlayTarget d flags) ∧
        (∀ ev ∈ tr, ∃ u, ev = Event.newSrcFromURI u) ∧
        applyInstallFlags env d flags = finishInstallFlags env x flags tr) := by
  have hT : (overlayTarget d flags).OverlayTree = d.OverlayTree := by
    unfold overlayTarget; split_ifs <;> rfl
  have hS : ∀ y : Deployment, SameButSources y y := fun y => ⟨rfl, rfl, rfl, rfl, rfl, rfl⟩
  by_cases hO : flags.OperatingSystemImage = ""
  · by_cases hV : flags.Overlay = ""
    · have h : applyInstallFlags env d flags
          = finishInstallFlags env (overlayTarget d flags) flags [] := by
        unfold applyInstallFlags applyOverlayFlag; simp [hO, hV]
      exact Or.inr (Or.inr ⟨overlayTarget d flags, [], hS _, by simp, h⟩)
    · cases hp : env.NewSrcFromURI flags.Overlay with
      | error e =>
        have h : applyInstallFlags env d flags
            = { d := overlayTarget d flags,
                err := some (GoError.wrap
                  ("failed parsing overlay source URI ('" ++ flags.Overlay ++ "'): ") e),
                trace := [Event.newSrcFromURI flags.Overlay] } := by
          unfold applyInstallFlags applyOverlayFlag; simp [hO, hV, hp]
        exact Or.inr (Or.inl ⟨e, overlayTarget d flags, [Event.newSrcFromURI flags.Overlay],
          hV, rfl, hS _, hT, by simp, by simp, h⟩)
      | ok src =>
        have h : applyInstallFlags env d flags
            = finishInstallFlags env { overlayTarget d flags with OverlayTree := some src } flags
                [Event.newSrcFromURI flags.Overlay] := by
          unfold applyInstallFlags applyOverlayFlag; simp [hO, hV, hp]
        exact Or.inr (Or.inr ⟨{ overlayTarget d flags with OverlayTree := some src },
          [Event.newSrcFromURI flags.Overlay], ⟨rfl, rfl, rfl, rfl, rfl, rfl⟩, by simp, h⟩)
  · cases hq : env.NewSrcFromURI flags.OperatingSystemImage with
    | error e =>
      have h : applyInstallFlags env d flags
          = { d := overlayTarget d flags,
              err := some (GoError.wrap
                ("failed parsing OS source URI ('" ++ flags.OperatingSystemImage ++ "'): ") e),
              trace := [Event.newSrcFromURI flags.OperatingSystemImage] } := by
        unfold applyInstallFlags; simp [hO, hq]
      exact Or.inl ⟨e, hO, rfl, h⟩
    | ok srcOS =>
      by_cases hV : flags.Overlay = ""
      · have h : applyInstallFlags env d flags
            = finishInstallFlags env { overlayTarget d flags with SourceOS := some srcOS } flags
                [Event.newSrcFromURI flags.OperatingSystemImage] := by
          unfold applyInstallFlags applyOverlayFlag; simp [hO, hV, hq]
        exact Or.inr (Or.inr ⟨{ overlayTarget d flags with SourceOS := some srcOS },
          [Event.newSrcFromURI flags.OperatingSystemImage],
          ⟨rfl, rfl, rfl, rfl, rfl, rfl⟩, by simp, h⟩)
      · cases hp : env.NewSrcFromURI flags.Overlay with
        | error e =>
          have h : applyInstallFlags env d flags
              = { d := { overlayTarget d flags with SourceOS := some srcOS },
                  err := some (GoError.wrap
                    ("failed parsing overlay source URI ('" ++ flags.Overlay ++ "'): ") e),
                  trace := [Event.newSrcFromURI flags.OperatingSystemImage,
                            Event.newSrcFromURI flags.Overlay] } := by
            unfold applyInstallFlags applyOverlayFlag; simp [hO, hV, hq, hp]
          exact Or.inr (Or.inl
            ⟨e, { overlayTarget d flags with SourceOS := some srcOS },
              [Event.newSrcFromURI flags.OperatingSystemImage, Event.newSrcFromURI flags.Overlay],
              hV, rfl, ⟨rfl, rfl, rfl, rfl, rfl, rfl⟩, hT, by simp, by simp, h⟩)
        | ok src =>
          have h : applyInstallFlags env d flags
              = finishInstallFlags env
                  { overlayTarget d flags with SourceOS := some srcOS, OverlayTree := some src }
                  flags [Event.newSrcFromURI flags.OperatingSystemImage,
                         Event.newSrcFromURI flags.Overlay] := by
            unfold applyInstallFlags applyOverlayFlag; simp [hO, hV, hq, hp]
          exact Or.inr (Or.inr
            ⟨{ overlayTarget d flags with SourceOS := some srcOS, OverlayTree := some src },
              [Event.newSrcFromURI flags.OperatingSystemImage, Event.newSrcFromURI flags.Overlay],
              ⟨rfl, rfl, rfl, rfl, rfl, rfl⟩, by simp, h⟩)

theorem finishInstallFlags_d (env : Env) (x : Deployment) (flags : InstallFlags)
    (tr : List Event) :
    (finishInstallFlags env x flags tr).d = (overlayFields env x flags).1 := by
  unfold finishInstallFlags; simp only; split <;> rfl

theorem finishInstallFlags_trace (env : Env) (x : Deployment) (flags : InstallFlags)
    (tr : List Event) :
    (finishInstallFlags env x flags tr).trace
      = tr ++ (overlayFields env x flags).2 ++ [Event.sanitize (overlayFields env x flags).1] := by
  unfold finishInstallFlags; simp only; split <;> rfl

theorem finishInstallFlags_err (env : Env) (x : Deployment) (flags : InstallFlags)
    (tr : List Event) :
    (finishInstallFlags env x flags tr).err
      = (env.Sanitize (overlayFields env x flags).1).map
          (GoError.wrap "inconsistent deployment setup found: ") := by
  unfold finishInstallFlags; simp only; split <;> simp_all

theorem overlayFields_trace (env : Env) (x : Deployment) (flags : InstallFlags) :
    (overlayFields env x flags).2
      = (if flags.Snapshotter = "overwrite" then [Event.logWarn overwriteWarning] else []) := by
  unfold overlayFields; exact overlaySnapshotter_trace _ _

/-- The descriptor handed to Sanitize is the one the overlay leaves behind, and
Sanitize decides the error. -/
theorem applyInstallFlags_of_sanitize (env : Env) (d : Deployment) (flags : InstallFlags)
    (d' : Deployment) (h : Event.sanitize d' ∈ (applyInstallFlags env d flags).trace) :
    ∃ x, SameButSources x (overlayTarget d flags) ∧
      d' = (overlayFields env x flags).1 ∧
      (applyInstallFlags env d flags).d = d' ∧
      (applyInstallFlags env d flags).err
        = (env.Sanitize d').map (GoError.wrap "inconsistent deployment setup found: ") ∧
      ∀ ev ∈ (overlayFields env x flags).2, ev ∈ (applyInstallFlags env d flags).trace := by
  rcases applyInstallFlags_paths env d flags with
    ⟨e, -, -, heq⟩ | ⟨e, x, tr, -, -, -, -, -, htr, heq⟩ | ⟨x, tr, hx, htr, heq⟩
  · rw [heq] at h; simp at h
  · rw [heq] at h
    obtain ⟨u, hu⟩ := htr _ h
    cases hu
  · rw [heq, finishInstallFlags_trace] at h
    have hd : d' = (overlayFields env x flags).1 := by
      simp only [List.mem_append, List.mem_singleton] at h
      rcases h with (h | h) | h
      · obtain ⟨u, hu⟩ := htr _ h
        cases hu
      · rw [overlayFields_trace] at h
        split_ifs at h <;> simp at h
      · exact Event.sanitize.inj h
    refine ⟨x, hx, hd, ?_, ?_, ?_⟩
    · rw [heq, finishInstallFlags_d, hd]
    · rw [heq, finishInstallFlags_err, hd]
    · intro ev hev
      rw [heq, finishInstallFlags_trace]
      simp [hev]

/-- When no error is returned, Sanitize was called on the returned descriptor. -/
theorem applyInstallFlags_ok (env : Env) (d : Deployment) (flags : InstallFlags)
    (h : (applyInstallFlags env d flags).err = none) :
    ∃ x, SameButSources x (overlayTarget d flags) ∧
      (applyInstallFlags env d flags).d = (overlayFields env x flags).1 ∧
      env.Sanitize (applyInstallFlags env d flags).d = none := by
  rcases applyInstallFlags_paths env d flags with
    ⟨e, -, -, heq⟩ | ⟨e, x, tr, -, -, -, -, -, -, heq⟩ | ⟨x, tr, hx, -, heq⟩
  · rw [heq] at h; simp at h
  · rw [heq] at h; simp at h
  · refine ⟨x, hx, by rw [heq, finishInstallFlags_d], ?_⟩
    rw [heq, finishInstallFlags_err] at h
    rw [heq, finishInstallFlags_d]
    simpa using h

theorem overlayTarget_frame (d : Deployment) (flags : InstallFlags) :
    (overlayTarget d flags).SourceOS = d.SourceOS ∧
    (overlayTarget d flags).Firmware = d.Firmware ∧
    (overlayTarget d flags).BootConfig = d.BootConfig ∧
    (overlayTarget d flags).Security = d.Security ∧
    (overlayTarget d flags).Snapshotter = d.Snapshotter ∧
    (overlayTarget d flags).OverlayTree = d.OverlayTree ∧
    (overlayTarget d flags).CfgScript = d.CfgScript ∧
    (overlayTarget d flags).GetSystemPartition = d.GetSystemPartition ∧
    (overlayTarget d flags).GetSystemDisk.map Disk.Device
      = (if flags.Target ≠ "" then d.GetSystemDisk.map (fun _ => flags.Target)
          else d.GetSystemDisk.map Disk.Device) := by
  unfold overlayTarget
  by_cases hT : flags.Target = ""
  · simp [hT]
  · cases hk : d.GetSystemDisk with
    | none => simp [hT, hk]
    | some k =>
      simp only [ne_eq, hT, not_false_eq_true, hk, Option.isSome_some, and_self, if_true]
      refine ⟨rfl, rfl, rfl, rfl, rfl, rfl, rfl,
        Deployment.GetSystemPartition_setSystemDiskDevice _ _, ?_⟩
      rw [Deployment.GetSystemDisk_setSystemDiskDevice, hk]
      rfl

/-- The values the overlay leaves in the descriptor handed to Sanitize, in terms
of the descriptor `x` it starts from once the source URIs are settled. -/
theorem overlayFields_values (env : Env) (x : Deployment) (flags : InstallFlags) :
    (overlayFields env x flags).1.SourceOS = x.SourceOS ∧
    (overlayFields env x flags).1.OverlayTree = x.OverlayTree ∧
    (overlayFields env x flags).1.CfgScript
      = (if flags.ConfigScript ≠ "" then flags.ConfigScript else x.CfgScript) ∧
    (overlayFields env x flags).1.Security.CryptoPolicy
      = (if flags.CryptoPolicy ≠ "" ∧ env.IsValid flags.CryptoPolicy = true
          then flags.CryptoPolicy else x.Security.CryptoPolicy) ∧
    (overlayFields env x flags).1.Snapshotter.Name
      = (if flags.Snapshotter ≠ "" then flags.Snapshotter else x.Snapshotter.Name) ∧
    (overlayFields env x flags).1.GetSystemPartition
      = (if flags.Snapshotter = "overwrite"
          then x.GetSystemPartition.map (Partition.reset FileSystem.Ext4)
          else x.GetSystemPartition) ∧
    (overlayFields env x flags).1.GetSystemDisk.map Disk.Device
      = x.GetSystemDisk.map Disk.Device ∧
    ((overlayFields env x flags).1.BootConfig
        = some (overlayBootConfig x.BootConfig flags.Bootloader flags.KernelCmdline) ∨
     (overlayFields env x flags).1.BootConfig
        = some { overlayBootConfig x.BootConfig flags.Bootloader flags.KernelCmdline with
                 KernelCmdline := env.AppendCommandLine
                   (overlayBootConfig x.BootConfig flags.Bootloader flags.KernelCmdline).KernelCmdline }) := by
  obtain ⟨p1, p2, -, p4, p5, p6⟩ := overlayPolicy_frame env x flags
  obtain ⟨v1, v2⟩ := overlayPolicy_values env x flags
  obtain ⟨b1, b2, b3, b4, b5, b6⟩ := setBootloader_frame env (overlayPolicy env x flags)
    flags.Bootloader flags.KernelCmdline flags.CreateBootEntry
  have bb := setBootloader_BootConfig env (overlayPolicy env x flags)
    flags.Bootloader flags.KernelCmdline flags.CreateBootEntry
  obtain ⟨s1, -, s3, s4, s5, s6, s7⟩ := overlaySnapshotter_frame
    (setBootloader env (overlayPolicy env x flags)
      flags.Bootloader flags.KernelCmdline flags.CreateBootEntry) flags
  have g1 := overlaySnapshotter_GetSystemPartition
    (setBootloader env (overlayPolicy env x flags)
      flags.Bootloader flags.KernelCmdline flags.CreateBootEntry) flags
  have g2 := overlaySnapshotter_GetSystemDisk
    (setBootloader env (overlayPolicy env x flags)
      flags.Bootloader flags.KernelCmdline flags.CreateBootEntry) flags
  have hD : (setBootloader env (overlayPolicy env x flags)
      flags.Bootloader flags.KernelCmdline flags.CreateBootEntry).Disks = x.Disks := b2.trans p2
  rw [Deployment.GetSystemPartition_congr hD] at g1
  rw [Deployment.GetSystemDisk_congr hD] at g2
  unfold overlayFields
  refine ⟨s1.trans (b1.trans p1), s5.trans (b5.trans p6), ?_, ?_, ?_, g1, g2, ?_⟩
  · rw [s6, b6, v1]
  · rw [s4, b3, v2]
  · rw [s7, b4, p5]
  · rw [s3, ← p4]; exact bb

/-! ## The flag overlay: empty flags, flags that win, the overwrite snapshotter -/

/-- C1 (as the code has it): for flags whose override fields are all empty, the
overlay reaches Sanitize and leaves every field of the descriptor other than
`BootConfig` as it was; `BootConfig` is allocated when nil, its `Bootloader` is
assigned the empty flag value (only the kind "none" leaves it alone), and its
`KernelCmdline` keeps its value, passed through `fips.AppendCommandLine` when
the descriptor is FIPS-enabled. -/
theorem applyInstallFlags_empty_flags (env : Env) (d : Deployment) (flags : InstallFlags)
    (h : flags.Target = "" ∧ flags.OperatingSystemImage = "" ∧ flags.Overlay = "" ∧
      flags.ConfigScript = "" ∧ flags.CryptoPolicy = "" ∧ flags.Bootloader = "" ∧
      flags.KernelCmdline = "" ∧ flags.Snapshotter = "" ∧ flags.CreateBootEntry = false) :
    (applyInstallFlags env d flags).d.SourceOS = d.SourceOS ∧
    (applyInstallFlags env d flags).d.Disks = d.Disks ∧
    (applyInstallFlags env d flags).d.Firmware = d.Firmware ∧
    (applyInstallFlags env d flags).d.Security = d.Security ∧
    (applyInstallFlags env d flags).d.Snapshotter = d.Snapshotter ∧
    (applyInstallFlags env d flags).d.OverlayTree = d.OverlayTree ∧
    (applyInstallFlags env d flags).d.CfgScript = d.CfgScript ∧
    (applyInstallFlags env d flags).d.BootConfig
      = some { Bootloader := "",
               KernelCmdline :=
                 if env.IsFipsEnabled
                    { d with BootConfig :=
                               some ⟨"", (d.BootConfig.map BootConfig.KernelCmdline).getD ""⟩ }
                 then env.AppendCommandLine ((d.BootConfig.map BootConfig.KernelCmdline).getD "")
                 else (d.BootConfig.map BootConfig.KernelCmdline).getD "" } ∧
    (applyInstallFlags env d flags).trace = [Event.sanitize (applyInstallFlags env d flags).d] := by
  obtain ⟨hT, hO, hV, hC, hP, hB, hK, hS, hE⟩ := h
  have hn : ("" : String) ≠ BootNone := by decide
  have hbc : overlayBootConfig d.BootConfig "" ""
      = { Bootloader := "",
          KernelCmdline := (d.BootConfig.map BootConfig.KernelCmdline).getD "" } := by
    unfold overlayBootConfig
    cases d.BootConfig <;> simp [hn]
  have heq : applyInstallFlags env d flags = finishInstallFlags env d flags [] := by
    unfold applyInstallFlags applyOverlayFlag overlayTarget; simp [hT, hO, hV]
  have hf : (overlayFields env d flags).1
      = setBootloader env d "" "" false := by
    unfold overlayFields overlaySnapshotter overlayPolicy
    simp [hC, hP, hB, hK, hS, hE]
  have hf2 : (overlayFields env d flags).2 = [] := by
    rw [overlayFields_trace]; simp [hS]
  rw [heq, finishInstallFlags_trace, finishInstallFlags_d, hf, hf2]
  unfold setBootloader
  simp only [setBootEntries_false, hbc]
  split_ifs <;> simp

/-- C1, witness: the zero flag record on the sample descriptor. -/
theorem applyInstallFlags_empty_flags_witness :
    (applyInstallFlags testEnv sampleDeployment InstallFlags.zero).d.Disks
      = sampleDeployment.Disks ∧
    (applyInstallFlags testEnv sampleDeployment InstallFlags.zero).d.Snapshotter
      = sampleDeployment.Snapshotter :=
  have h := applyInstallFlags_empty_flags testEnv sampleDeployment InstallFlags.zero
    ⟨rfl, rfl, rfl, rfl, rfl, rfl, rfl, rfl, rfl⟩
  ⟨h.2.1, h.2.2.2.2.1⟩

/-- C1, as stated, fails: with every override field empty the bootloader kind
"grub" of the descriptor is replaced by the empty string, and a nil boot
configuration is replaced by an allocated one. -/
theorem applyInstallFlags_empty_flags_not_identity :
    sampleDeployment.BootConfig = some { Bootloader := "grub", KernelCmdline := "quiet" } ∧
    (applyInstallFlags testEnv sampleDeployment InstallFlags.zero).d.BootConfig
      = some { Bootloader := "", KernelCmdline := "quiet" } ∧
    (applyInstallFlags testEnv sampleDeployment InstallFlags.zero).err = none ∧
    (applyInstallFlags testEnv sampleDeployment InstallFlags.zero).d ≠ sampleDeployment ∧
    Deployment.zero.BootConfig = none ∧
    (applyInstallFlags testEnv Deployment.zero InstallFlags.zero).d.BootConfig
      = some { Bootloader := "", KernelCmdline := "" } := by
  decide

theorem overlayBootConfig_Bootloader (old : Option BootConfig) (b c : String) :
    (overlayBootConfig old b c).Bootloader
      = (if b ≠ BootNone then b
          else match old with
            | some bc => bc.Bootloader
            | none => "") := by
  unfold overlayBootConfig
  cases old <;> simp only <;> split_ifs <;> rfl

theorem overlayBootConfig_KernelCmdline (old : Option BootConfig) (b c : String) :
    (overlayBootConfig old b c).KernelCmdline
      = (if c ≠ "" then c
          else match old with
            | some bc => bc.KernelCmdline
            | none => "") := by
  unfold overlayBootConfig
  cases old <;> simp only <;> split_ifs <;> rfl

theorem setBootloader_BootConfig_eq (env : Env) (d : Deployment) (b c : String) (e : Bool) :
    (setBootloader env d b c e).BootConfig
      = some { Bootloader := (overlayBootConfig d.BootConfig b c).Bootloader,
               KernelCmdline :=
                 if env.IsFipsEnabled
                   { setBootEntries env d e with
                     BootConfig := some (overlayBootConfig d.BootConfig b c) }
                 then env.AppendCommandLine (overlayBootConfig d.BootConfig b c).KernelCmdline
                 else (overlayBootConfig d.BootConfig b c).KernelCmdline } := by
  obtain ⟨-, -, h3, -⟩ := setBootEntries_frame env d e
  unfold setBootloader
  simp only [h3]
  split_ifs <;> rfl

theorem Deployment.eq_of_fields {a b : Deployment} (h1 : a.SourceOS = b.SourceOS)
    (h2 : a.Disks = b.Disks) (h3 : a.Firmware = b.Firmware) (h4 : a.BootConfig = b.BootConfig)
    (h5 : a.Security = b.Security) (h6 : a.Snapshotter = b.Snapshotter)
    (h7 : a.OverlayTree = b.OverlayTree) (h8 : a.CfgScript = b.CfgScript) : a = b := by
  cases a; cases b; simp_all

theorem setBootloader_Firmware (env : Env) (d : Deployment) (b c : String) (e : Bool) :
    (setBootloader env d b c e).Firmware = (setBootEntries env d e).Firmware := by
  unfold setBootloader
  simp only
  split <;> rfl

/-- The descriptor `setBootloader` evaluates `IsFipsEnabled` on, in terms of the
descriptor the overlay leaves: the statements after that point assign the kernel
command line, the snapshotter and the system partition only. -/
theorem overlayFields_fips_point (env : Env) (d x : Deployment) (flags : InstallFlags)
    (hx : SameButSources x (overlayTarget d flags)) :
    ({ setBootEntries env (overlayPolicy env x flags) flags.CreateBootEntry with
       BootConfig := some (overlayBootConfig (overlayPolicy env x flags).BootConfig
         flags.Bootloader flags.KernelCmdline) } : Deployment)
      = { (overlayFields env x flags).1 with
          Disks := (overlayTarget d flags).Disks,
          Snapshotter := d.Snapshotter,
          BootConfig := some (overlayBootConfig d.BootConfig flags.Bootloader
            flags.KernelCmdline) } := by
  obtain ⟨xD, -, xB, -, xN, -⟩ := hx
  obtain ⟨-, -, tB, -, tN, -⟩ := overlayTarget_frame d flags
  obtain ⟨-, pD, -, pB, pN, -⟩ := overlayPolicy_frame env x flags
  obtain ⟨eO, eD, -, eS, eN, eT, eC⟩ := setBootEntries_frame env (overlayPolicy env x flags)
    flags.CreateBootEntry
  obtain ⟨bO, -, bS, -, bT, bC⟩ := setBootloader_frame env (overlayPolicy env x flags)
    flags.Bootloader flags.KernelCmdline flags.CreateBootEntry
  obtain ⟨sO, sF, -, sS, sT, sC, -⟩ := overlaySnapshotter_frame
    (setBootloader env (overlayPolicy env x flags)
      flags.Bootloader flags.KernelCmdline flags.CreateBootEntry) flags
  have bF := setBootloader_Firmware env (overlayPolicy env x flags)
    flags.Bootloader flags.KernelCmdline flags.CreateBootEntry
  apply Deployment.eq_of_fields
  · show (setBootEntries env (overlayPolicy env x flags) flags.CreateBootEntry).SourceOS
      = (overlayFields env x flags).1.SourceOS
    unfold overlayFields; rw [sO, bO, eO]
  · show (setBootEntries env (overlayPolicy env x flags) flags.CreateBootEntry).Disks
      = (overlayTarget d flags).Disks
    rw [eD, pD, xD]
  · show (setBootEntries env (overlayPolicy env x flags) flags.CreateBootEntry).Firmware
      = (overlayFields env x flags).1.Firmware
    unfold overlayFields; rw [sF, bF]
  · show some (overlayBootConfig (overlayPolicy env x flags).BootConfig
        flags.Bootloader flags.KernelCmdline)
      = some (overlayBootConfig d.BootConfig flags.Bootloader flags.KernelCmdline)
    rw [pB, xB, tB]
  · show (setBootEntries env (overlayPolicy env x flags) flags.CreateBootEntry).Security
      = (overlayFields env x flags).1.Security
    unfold overlayFields; rw [sS, bS, eS]
  · show (setBootEntries env (overlayPolicy env x flags) flags.CreateBootEntry).Snapshotter
      = d.Snapshotter
    rw [eN, pN, xN, tN]
  · show (setBootEntries env (overlayPolicy env x flags) flags.CreateBootEntry).OverlayTree
      = (overlayFields env x flags).1.OverlayTree
    unfold overlayFields; rw [sT, bT, eT]
  · show (setBootEntries env (overlayPolicy env x flags) flags.CreateBootEntry).CfgScript
      = (overlayFields env x flags).1.CfgScript
    unfold overlayFields; rw [sC, bC, eC]

theorem overlayFields_BootConfig (env : Env) (d x : Deployment) (flags : InstallFlags)
    (hx : SameButSources x (overlayTarget d flags)) :
    (overlayFields env x flags).1.BootConfig
      = some { Bootloader :=
                 (overlayBootConfig d.BootConfig flags.Bootloader flags.KernelCmdline).Bootloader,
               KernelCmdline :=
                 if env.IsFipsEnabled
                   { (overlayFields env x flags).1 with
                     Disks := (overlayTarget d flags).Disks,
                     Snapshotter := d.Snapshotter,
                     BootConfig := some (overlayBootConfig d.BootConfig flags.Bootloader
                       flags.KernelCmdline) }
                 then env.AppendCommandLine
                   (overlayBootConfig d.BootConfig flags.Bootloader flags.KernelCmdline).KernelCmdline
                 else
                   (overlayBootConfig d.BootConfig flags.Bootloader
                     flags.KernelCmdline).KernelCmdline } := by
  have hp := overlayFields_fips_point env d x flags hx
  obtain ⟨-, -, xB, -⟩ := hx
  obtain ⟨-, -, tB, -⟩ := overlayTarget_frame d flags
  obtain ⟨-, -, -, pB, -⟩ := overlayPolicy_frame env x flags
  obtain ⟨-, -, sB, -⟩ := overlaySnapshotter_frame
    (setBootloader env (overlayPolicy env x flags)
      flags.Bootloader flags.KernelCmdline flags.CreateBootEntry) flags
  have hb : (overlayFields env x flags).1.BootConfig
      = (setBootloader env (overlayPolicy env x flags)
          flags.Bootloader flags.KernelCmdline flags.CreateBootEntry).BootConfig := by
    unfold overlayFields; rw [sB]
  rw [← hp, hb, setBootloader_BootConfig_eq, pB, xB, tB]

/-- C2 (as the code has it): when `applyInstallFlags` returns no error, a non-empty
target is the device of the system disk (when there is one), a non-empty
configuration script and snapshotter name are assigned as given, a non-empty
crypto policy is assigned when it is valid, a non-empty bootloader kind is
assigned unless it is "none", and a non-empty kernel command line is assigned,
passed through `fips.AppendCommandLine` exactly when `IsFipsEnabled` holds of
the descriptor as it stands at that point of `setBootloader`, which is the
resulting descriptor before the snapshotter is applied and before the FIPS
parameters are appended. When `IsFipsEnabled` reads the security section only,
that is exactly when the resulting descriptor is FIPS-enabled. A crypto policy
that is not valid and the bootloader kind "none" leave the descriptor's value
in place. -/
theorem applyInstallFlags_flags_win (env : Env) (d : Deployment) (flags : InstallFlags)
    (h : (applyInstallFlags env d flags).err = none) :
    (flags.Target ≠ "" →
      (applyInstallFlags env d flags).d.GetSystemDisk.map Disk.Device
        = d.GetSystemDisk.map (fun _ => flags.Target)) ∧
    (flags.ConfigScript ≠ "" →
      (applyInstallFlags env d flags).d.CfgScript = flags.ConfigScript) ∧
    (flags.CryptoPolicy ≠ "" → env.IsValid flags.CryptoPolicy = true →
      (applyInstallFlags env d flags).d.Security.CryptoPolicy = flags.CryptoPolicy) ∧
    (flags.Bootloader ≠ "" → flags.Bootloader ≠ BootNone →
      ∃ bc, (applyInstallFlags env d flags).d.BootConfig = some bc ∧
        bc.Bootloader = flags.Bootloader) ∧
    (flags.KernelCmdline ≠ "" →
      ∃ bc, (applyInstallFlags env d flags).d.BootConfig = some bc ∧
        bc.KernelCmdline
          = (if env.IsFipsEnabled
                { (applyInstallFlags env d flags).d with
                  Disks := (overlayTarget d flags).Disks,
                  Snapshotter := d.Snapshotter,
                  BootConfig := some (overlayBootConfig d.BootConfig flags.Bootloader
                    flags.KernelCmdline) }
              then env.AppendCommandLine flags.KernelCmdline
              else flags.KernelCmdline)) ∧
    ((∀ x y : Deployment, x.Security = y.Security → env.IsFipsEnabled x = env.IsFipsEnabled y) →
      flags.KernelCmdline ≠ "" →
      ∃ bc, (applyInstallFlags env d flags).d.BootConfig = some bc ∧
        bc.KernelCmdline
          = (if env.IsFipsEnabled (applyInstallFlags env d flags).d
              then env.AppendCommandLine flags.KernelCmdline
              else flags.KernelCmdline)) ∧
    (flags.Snapshotter ≠ "" →
      (applyInstallFlags env d flags).d.Snapshotter.Name = flags.Snapshotter) ∧
    (flags.CryptoPolicy ≠ "" → env.IsValid flags.CryptoPolicy = false →
      (applyInstallFlags env d flags).d.Security.CryptoPolicy = d.Security.CryptoPolicy) ∧
    (flags.Bootloader = BootNone →
      ∃ bc, (applyInstallFlags env d flags).d.BootConfig = some bc ∧
        bc.Bootloader = (d.BootConfig.map BootConfig.Bootloader).getD "") := by
  obtain ⟨x, hx, hd, -⟩ := applyInstallFlags_ok env d flags h
  have hbc := overlayFields_BootConfig env d x flags hx
  obtain ⟨xD, -, xB, xS, xN, xC⟩ := hx
  obtain ⟨-, -, -, -, -, -, -, -, tD⟩ := overlayTarget_frame d flags
  obtain ⟨-, -, vC, vP, vN, -, vD, vB⟩ := overlayFields_values env x flags
  have hk : flags.KernelCmdline ≠ "" →
      (overlayBootConfig d.BootConfig flags.Bootloader flags.KernelCmdline).KernelCmdline
        = flags.KernelCmdline := by
    intro hK
    rw [overlayBootConfig_KernelCmdline, if_pos hK]
  rw [hd]
  refine ⟨?_, ?_, ?_, ?_, ?_, ?_, ?_, ?_, ?_⟩
  · intro hT
    rw [vD, Deployment.GetSystemDisk_congr xD, tD, if_pos hT]
  · intro hC
    rw [vC, if_pos hC]
  · intro hP hv
    rw [vP, if_pos ⟨hP, hv⟩]
  · intro _ hB
    have hb : (overlayBootConfig x.BootConfig flags.Bootloader flags.KernelCmdline).Bootloader
        = flags.Bootloader := by
      unfold overlayBootConfig
      simp only [ne_eq, hB, not_false_eq_true, if_true]
      split_ifs <;> rfl
    rcases vB with vB | vB
    · exact ⟨_, vB, hb⟩
    · exact ⟨_, vB, hb⟩
  · intro hK
    refine ⟨_, hbc, ?_⟩
    simp only [hk hK]
  · intro hF hK
    refine ⟨_, hbc, ?_⟩
    have hfe : env.IsFipsEnabled
        { (overlayFields env x flags).1 with
          Disks := (overlayTarget d flags).Disks,
          Snapshotter := d.Snapshotter,
          BootConfig := some (overlayBootConfig d.BootConfig flags.Bootloader
            flags.KernelCmdline) }
        = env.IsFipsEnabled (overlayFields env x flags).1 := hF _ _ rfl
    simp only [hk hK, hfe]
  · intro hN
    rw [vN, if_pos hN]
  · intro _ hv
    obtain ⟨-, -, -, tS, -⟩ := overlayTarget_frame d flags
    rw [vP, xS, tS, hv]
    simp
  · intro hB
    refine ⟨_, hbc, ?_⟩
    rw [overlayBootConfig_Bootloader, hB]
    cases d.BootConfig <;> simp

/-- C2, witness: every override field set on the sample descriptor; the crypto
policy flag "fips" makes the descriptor FIPS-enabled, so the command line is
the flag followed by the FIPS parameter. -/
theorem applyInstallFlags_flags_win_witness :
    (applyInstallFlags testEnv sampleDeployment fullFlags).err = none ∧
    (applyInstallFlags testEnv sampleDeployment fullFlags).d.CfgScript = "/configDir/config.sh" ∧
    (applyInstallFlags testEnv sampleDeployment fullFlags).d.Snapshotter.Name = "overwrite" ∧
    (applyInstallFlags testEnv sampleDeployment fullFlags).d.BootConfig
      = some { Bootloader := "grub", KernelCmdline := "console=ttyS0 fips=1" } :=
  have h := applyInstallFlags_flags_win testEnv sampleDeployment fullFlags (by decide)
  ⟨by decide, h.2.1 (by decide), h.2.2.2.2.2.2.1 (by decide), by decide⟩

/-- C2, as stated, fails: the non-empty bootloader kind "none" and the non-empty
crypto policy "bogus" are not assigned although no error is returned; the
descriptor keeps "grub" and "default". -/
theorem applyInstallFlags_flag_not_assigned :
    (applyInstallFlags testEnv sampleDeployment
      { InstallFlags.zero with Bootloader := "none", CryptoPolicy := "bogus" }).err = none ∧
    (applyInstallFlags testEnv sampleDeployment
      { InstallFlags.zero with Bootloader := "none", CryptoPolicy := "bogus" }).d.BootConfig
        = some { Bootloader := "grub", KernelCmdline := "quiet" } ∧
    (applyInstallFlags testEnv sampleDeployment
      { InstallFlags.zero with Bootloader := "none", CryptoPolicy := "bogus" }).d.Security.CryptoPolicy
        = "default" := by
  decide

theorem applyInstallFlags_no_warning (env : Env) (d : Deployment) (flags : InstallFlags)
    (hs : flags.Snapshotter ≠ "overwrite") :
    ∀ msg, Event.logWarn msg ∉ (applyInstallFlags env d flags).trace := by
  intro msg hm
  rcases applyInstallFlags_paths env d flags with
    ⟨e, -, -, heq⟩ | ⟨e, x, tr, -, -, -, -, -, htr, heq⟩ | ⟨x, tr, -, htr, heq⟩
  · rw [heq] at hm
    simp at hm
  · rw [heq] at hm
    obtain ⟨u, hu⟩ := htr _ hm
    cases hu
  · rw [heq, finishInstallFlags_trace, overlayFields_trace, if_neg hs] at hm
    simp only [List.append_nil, List.mem_append, List.mem_singleton] at hm
    rcases hm with hm | hm
    · obtain ⟨u, hu⟩ := htr _ hm
      cases hu
    · cases hm

/-- C3 (as the code has it): it is the snapshotter flag that selects. When the
flag is "overwrite", the descriptor handed to Sanitize has the snapshotter name
"overwrite", its system partition is the one of the descriptor before the call
with the filesystem forced to `Ext4` and the read-write volume list nil, and
the warning has been logged. With any other flag, the empty one included, the
system partition is the one of the descriptor before the call and no warning
is logged, also when the descriptor names "overwrite" itself, which an empty
flag leaves in place. -/
theorem applyInstallFlags_overwrite (env : Env) (d : Deployment) (flags : InstallFlags)
    (d' : Deployment) (h : Event.sanitize d' ∈ (applyInstallFlags env d flags).trace) :
    (flags.Snapshotter = "overwrite" →
      d'.Snapshotter.Name = "overwrite" ∧
      d'.GetSystemPartition = d.GetSystemPartition.map (Partition.reset FileSystem.Ext4) ∧
      (∀ p, d'.GetSystemPartition = some p →
        p.FileSystem = FileSystem.Ext4 ∧ p.RWVolumes = []) ∧
      Event.logWarn overwriteWarning ∈ (applyInstallFlags env d flags).trace ∧
      (applyInstallFlags env d flags).d = d') ∧
    (flags.Snapshotter ≠ "overwrite" →
      d'.Snapshotter.Name
        = (if flags.Snapshotter ≠ "" then flags.Snapshotter else d.Snapshotter.Name) ∧
      d'.GetSystemPartition = d.GetSystemPartition ∧
      (∀ msg, Event.logWarn msg ∉ (applyInstallFlags env d flags).trace) ∧
      (applyInstallFlags env d flags).d = d') := by
  obtain ⟨x, hx, hd, hres, -, htr⟩ := applyInstallFlags_of_sanitize env d flags d' h
  obtain ⟨xD, -, -, -, xN, -⟩ := hx
  obtain ⟨-, -, -, -, tN, -, -, tP, -⟩ := overlayTarget_frame d flags
  obtain ⟨-, -, -, -, vN, vP, -, -⟩ := overlayFields_values env x flags
  refine ⟨?_, ?_⟩
  · intro hs
    have hne : flags.Snapshotter ≠ "" := by rw [hs]; decide
    rw [if_pos hne] at vN
    rw [if_pos hs, Deployment.GetSystemPartition_congr xD, tP] at vP
    have hP : d'.GetSystemPartition
        = d.GetSystemPartition.map (Partition.reset FileSystem.Ext4) := by rw [hd]; exact vP
    refine ⟨by rw [hd, vN, hs], hP, ?_, ?_, hres⟩
    · intro p hp
      rw [hP] at hp
      cases hq : d.GetSystemPartition with
      | none => rw [hq] at hp; cases hp
      | some q =>
        rw [hq] at hp
        cases hp
        exact ⟨rfl, rfl⟩
    · apply htr
      rw [overlayFields_trace, if_pos hs]
      exact List.mem_singleton.mpr rfl
  · intro hs
    rw [if_neg hs, Deployment.GetSystemPartition_congr xD, tP] at vP
    refine ⟨?_, by rw [hd]; exact vP, applyInstallFlags_no_warning env d flags hs, hres⟩
    rw [hd, vN, xN, tN]

/-- C3, witness: the overwrite snapshotter selected by the flag on the sample
descriptor, whose system partition is btrfs with two read-write volumes. -/
theorem applyInstallFlags_overwrite_witness :
    (applyInstallFlags testEnv sampleDeployment fullFlags).d.GetSystemPartition
      = sampleDeployment.GetSystemPartition.map (Partition.reset FileSystem.Ext4) ∧
    Event.logWarn overwriteWarning ∈ (applyInstallFlags testEnv sampleDeployment fullFlags).trace :=
  have h := (applyInstallFlags_overwrite testEnv sampleDeployment fullFlags
    (applyInstallFlags testEnv sampleDeployment fullFlags).d (by decide)).1 rfl
  ⟨h.2.1, h.2.2.2.1⟩

/-- C3, as stated, fails: on a descriptor that names the snapshotter "overwrite"
and with the snapshotter flag empty, the overlay reaches Sanitize without an
error and the deployment has the overwrite snapshotter, yet the system
partition is still btrfs with its two read-write volumes and no warning has
been logged. -/
theorem applyInstallFlags_overwrite_not_forced :
    overwriteDeployment.Snapshotter.Name = "overwrite" ∧
    (applyInstallFlags testEnv overwriteDeployment InstallFlags.zero).err = none ∧
    Event.sanitize (applyInstallFlags testEnv overwriteDeployment InstallFlags.zero).d
      ∈ (applyInstallFlags testEnv overwriteDeployment InstallFlags.zero).trace ∧
    (applyInstallFlags testEnv overwriteDeployment InstallFlags.zero).d.Snapshotter.Name
      = "overwrite" ∧
    (applyInstallFlags testEnv overwriteDeployment InstallFlags.zero).d.GetSystemPartition
      = some { Label := "SYSTEM", Role := PartRole.System, FileSystem := FileSystem.Btrfs,
               RWVolumes := [{ Path := "/var" }, { Path := "/etc" }] } ∧
    (applyInstallFlags testEnv overwriteDeployment InstallFlags.zero).trace
      = [Event.sanitize (applyInstallFlags testEnv overwriteDeployment InstallFlags.zero).d] := by
  decide

/-! ## Messages -/

theorem contains_append_left {s sub : String} (t : String) (h : Contains s sub) :
    Contains (s ++ t) sub := by
  unfold Contains at *
  rw [String.data_append]
  exact h.trans (List.prefix_append _ _).isInfix

theorem contains_append_right {t sub : String} (s : String) (h : Contains t sub) :
    Contains (s ++ t) sub := by
  unfold Contains at *
  rw [String.data_append]
  exact h.trans (List.suffix_append _ _).isInfix

theorem contains_self (s : String) : Contains s s := List.infix_refl _

theorem GoError.Is_self (e : GoError) : e.Is e = true := by
  cases e <;> simp [GoError.Is]

theorem GoError.Is_wrap (pre : String) {outer e : GoError} (h : outer.Is e = true) :
    (GoError.wrap pre outer).Is e = true := by
  simp [GoError.Is, h]

/-! ## Events of the overlay and of the loader -/

theorem applyInstallFlags_trace_isOverlay (env : Env) (d : Deployment) (flags : InstallFlags) :
    ∀ ev ∈ (applyInstallFlags env d flags).trace, ev.isOverlay = true := by
  intro ev hev
  rcases applyInstallFlags_paths env d flags with
    ⟨e, -, -, heq⟩ | ⟨e, x, tr, -, -, -, -, -, htr, heq⟩ | ⟨x, tr, hx, htr, heq⟩
  · rw [heq] at hev
    simp only [List.mem_singleton] at hev
    rw [hev]; rfl
  · rw [heq] at hev
    obtain ⟨u, hu⟩ := htr _ hev
    rw [hu]; rfl
  · rw [heq, finishInstallFlags_trace, overlayFields_trace] at hev
    simp only [List.mem_append, List.mem_singleton] at hev
    rcases hev with (h | h) | h
    · obtain ⟨u, hu⟩ := htr _ h
      rw [hu]; rfl
    · split_ifs at h
      · rw [List.mem_singleton.mp h]; rfl
      · cases h
    · rw [h]; rfl

theorem applyInstallFlags_trace_ne_nil (env : Env) (d : Deployment) (flags : InstallFlags) :
    (applyInstallFlags env d flags).trace ≠ [] := by
  rcases applyInstallFlags_paths env d flags with
    ⟨e, -, -, heq⟩ | ⟨e, x, tr, -, -, -, -, hne, -, heq⟩ | ⟨x, tr, -, -, heq⟩
  · rw [heq]; simp
  · rw [heq]; exact hne
  · rw [heq, finishInstallFlags_trace]; simp

theorem loadDescriptionFile_trace (env : Env) (file : String) (d : Deployment) :
    (loadDescriptionFile env file d).trace = [Event.readFile file] ∨
    ((loadDescriptionFile env file d).err = none ∧
     (loadDescriptionFile env file d).trace
       = [Event.readFile file,
          Event.logInfo ("Loaded deployment description file: " ++ file)]) := by
  unfold loadDescriptionFile
  split
  · left; rfl
  · split
    · left; rfl
    · right; exact ⟨rfl, rfl⟩

theorem loadDescriptionFile_trace_isLoad (env : Env) (file : String) (d : Deployment) :
    ∀ ev ∈ (loadDescriptionFile env file d).trace, ev.isLoad = true := by
  intro ev hev
  rcases loadDescriptionFile_trace env file d with h | ⟨-, h⟩ <;> rw [h] at hev
  · rw [List.mem_singleton.mp hev]; rfl
  · simp only [List.mem_cons, List.mem_singleton, List.not_mem_nil, or_false] at hev
    rcases hev with h | h <;> rw [h] <;> rfl

theorem loadDescriptionFile_readFile (env : Env) (file : String) (d : Deployment) (p : String)
    (h : Event.readFile p ∈ (loadDescriptionFile env file d).trace) : p = file := by
  rcases loadDescriptionFile_trace env file d with h' | ⟨-, h'⟩ <;> rw [h'] at h
  · simpa using h
  · simpa using h

theorem loadDescriptionFile_err (env : Env) (file : String) (d : Deployment) :
    (loadDescriptionFile env file d).err
      = (match env.ReadFile file with
          | .error e => some (GoError.wrap ("could not read description file '" ++ file ++ "': ") e)
          | .ok data => (env.Unmarshal data d).2.map (GoError.wrap "could not unmarshal config file: ")) := by
  unfold loadDescriptionFile
  split
  · rfl
  · split <;> simp_all

theorem defineDeployment_trace (env : Env) (d : Deployment) (flags : InstallFlags)
    (tr : List Event) :
    (defineDeployment env d flags tr).trace = tr ++ (applyInstallFlags env d flags).trace := by
  unfold defineDeployment; simp only; split <;> rfl

theorem defineDeployment_res (env : Env) (d : Deployment) (flags : InstallFlags)
    (tr : List Event) :
    (defineDeployment env d flags tr).res
      = (match (applyInstallFlags env d flags).err with
          | some e => .error (GoError.wrap "defining the deployment details: " e)
          | none => .ok (applyInstallFlags env d flags).d) := by
  unfold defineDeployment; simp only; split <;> simp_all

/-! ## `digestInstallSetup`: which description is loaded -/

/-- C4: the precedence of `digestInstallSetup`. (1) With a non-empty
`flags.Description` that file is the only one read, over the defaults; a failure
of the loader is the result, unchanged. (2) Otherwise, on live media with a file
at `installer.InstallDesc`, that file is the only one read and a failure of the
loader is the result. (3) Otherwise no file is read and the result is the flag
overlay applied to the default descriptor. -/
theorem digestInstallSetup_precedence (env : Env) (flags : InstallFlags) :
    (flags.Description ≠ "" →
      (∀ p, Event.readFile p ∈ (digestInstallSetup env flags).trace → p = flags.Description) ∧
      Event.readFile flags.Description ∈ (digestInstallSetup env flags).trace ∧
      (∀ e, (loadDescriptionFile env flags.Description env.DefaultDeployment).err = some e →
        (digestInstallSetup env flags).res = .error e) ∧
      ((loadDescriptionFile env flags.Description env.DefaultDeployment).err = none →
        (digestInstallSetup env flags).res
          = (defineDeployment env
              (loadDescriptionFile env flags.Description env.DefaultDeployment).d flags []).res)) ∧
    (flags.Description = "" → env.IsLiveMedia = true → env.Exists env.InstallDesc = true →
      (∀ p, Event.readFile p ∈ (digestInstallSetup env flags).trace → p = env.InstallDesc) ∧
      Event.readFile env.InstallDesc ∈ (digestInstallSetup env flags).trace ∧
      (∀ e, (loadDescriptionFile env env.InstallDesc env.DefaultDeployment).err = some e →
        (digestInstallSetup env flags).res = .error e) ∧
      ((loadDescriptionFile env env.InstallDesc env.DefaultDeployment).err = none →
        (digestInstallSetup env flags).res
          = (defineDeployment env
              (loadDescriptionFile env env.InstallDesc env.DefaultDeployment).d flags []).res)) ∧
    (flags.Description = "" → (env.IsLiveMedia = false ∨ env.Exists env.InstallDesc = false) →
      (∀ p, Event.readFile p ∉ (digestInstallSetup env flags).trace) ∧
      (digestInstallSetup env flags).res
        = (defineDeployment env env.DefaultDeployment flags []).res) := by
  have hov : ∀ (x : Deployment) (p : String),
      Event.readFile p ∉ (applyInstallFlags env x flags).trace := by
    intro x p hp
    have := applyInstallFlags_trace_isOverlay env x flags _ hp
    cases this
  have hload : ∀ file : String,
      Event.readFile file ∈ (loadDescriptionFile env file env.DefaultDeployment).trace := by
    intro file
    rcases loadDescriptionFile_trace env file env.DefaultDeployment with h | ⟨-, h⟩ <;>
      rw [h] <;> simp
  refine ⟨?_, ?_, ?_⟩
  · intro hD
    have heq : digestInstallSetup env flags
        = (match (loadDescriptionFile env flags.Description env.DefaultDeployment).err with
            | some e =>
              { res := .error e,
                trace := (loadDescriptionFile env flags.Description env.DefaultDeployment).trace }
            | none =>
              defineDeployment env
                (loadDescriptionFile env flags.Description env.DefaultDeployment).d flags
                (loadDescriptionFile env flags.Description env.DefaultDeployment).trace) := by
      unfold digestInstallSetup; simp [hD]
    cases hl : (loadDescriptionFile env flags.Description env.DefaultDeployment).err with
    | some e0 =>
      rw [hl] at heq
      rw [heq]
      refine ⟨fun p hp => loadDescriptionFile_readFile env _ _ p hp, hload _, ?_, ?_⟩
      · intro e he; cases he; rfl
      · intro h; cases h
    | none =>
      rw [hl] at heq
      rw [heq]
      simp only [defineDeployment_trace, defineDeployment_res, List.mem_append]
      refine ⟨?_, Or.inl (hload _), ?_, fun _ => trivial⟩
      · rintro p (hp | hp)
        · exact loadDescriptionFile_readFile env _ _ p hp
        · exact absurd hp (hov _ _)
      · intro e he; cases he
  · intro hD hL hE
    have heq : digestInstallSetup env flags
        = (match (loadDescriptionFile env env.InstallDesc env.DefaultDeployment).err with
            | some e =>
              { res := .error e,
                trace := Event.stat env.InstallDesc ::
                  (loadDescriptionFile env env.InstallDesc env.DefaultDeployment).trace }
            | none =>
              defineDeployment env
                (loadDescriptionFile env env.InstallDesc env.DefaultDeployment).d flags
                (Event.stat env.InstallDesc ::
                  (loadDescriptionFile env env.InstallDesc env.DefaultDeployment).trace)) := by
      unfold digestInstallSetup; simp [hD, hL, hE]
    cases hl : (loadDescriptionFile env env.InstallDesc env.DefaultDeployment).err with
    | some e0 =>
      rw [hl] at heq
      rw [heq]
      refine ⟨?_, List.mem_cons_of_mem _ (hload _), ?_, ?_⟩
      · intro p hp
        rcases List.mem_cons.mp hp with h | h
        · cases h
        · exact loadDescriptionFile_readFile env _ _ p h
      · intro e he; cases he; rfl
      · intro h; cases h
    | none =>
      rw [hl] at heq
      rw [heq]
      simp only [defineDeployment_trace, defineDeployment_res, List.mem_append]
      refine ⟨?_, Or.inl (List.mem_cons_of_mem _ (hload _)), ?_, fun _ => trivial⟩
      · rintro p (hp | hp)
        · rcases List.mem_cons.mp hp with h | h
          · cases h
          · exact loadDescriptionFile_readFile env _ _ p h
        · exact absurd hp (hov _ _)
      · intro e he; cases he
  · intro hD hN
    have heq : digestInstallSetup env flags
          = defineDeployment env env.DefaultDeployment flags [] ∨
        digestInstallSetup env flags
          = defineDeployment env env.DefaultDeployment flags [Event.stat env.InstallDesc] := by
      unfold digestInstallSetup
      rcases hN with hN | hN
      · left; simp [hD, hN]
      · by_cases hL : env.IsLiveMedia = true
        · right; simp [hD, hN, hL]
        · left; simp [hD, hL]
    rcases heq with heq | heq <;> rw [heq] <;>
      simp only [defineDeployment_trace, defineDeployment_res, List.mem_append] <;>
      refine ⟨?_, trivial⟩ <;> rintro p (hp | hp)
    · cases hp
    · exact hov _ _ hp
    · simp at hp
    · exact hov _ _ hp

/-- C4, witness: the description file of the test "fails to start installing if the
configuration file can't be read"; the loader's error is the result. -/
theorem digestInstallSetup_precedence_witness :
    (digestInstallSetup testEnv { InstallFlags.zero with Description := "doesntexist" }).res
      = .error (GoError.wrap "could not read description file 'doesntexist': "
          (GoError.leaf "ReadFile doesntexist: file does not exist")) :=
  (digestInstallSetup_precedence testEnv
    { InstallFlags.zero with Description := "doesntexist" }).1 (by decide) |>.2.2.1 _ (by decide)

/-! ## `reset.go`: the recovery precondition and the reset target -/

/-- C5: outside the recovery system `digestResetSetup` returns no descriptor and
the error "reset command requires booting from recovery system", and nothing
has happened before: no description file was read, no block device queried, no
flag applied (every run of the overlay leaves an event). -/
theorem digestResetSetup_requires_recovery (env : Env) (flags : InstallFlags)
    (h : env.IsRecovery = false) :
    (digestResetSetup env flags).res
      = .error (GoError.leaf "reset command requires booting from recovery system") ∧
    Contains (GoError.leaf "reset command requires booting from recovery system").Error
      "recovery system" ∧
    (digestResetSetup env flags).trace = [] ∧
    (∀ d, (applyInstallFlags env d flags).trace ≠ []) := by
  have heq : digestResetSetup env flags
      = { res := .error (GoError.leaf "reset command requires booting from recovery system"),
          trace := [] } := by
    unfold digestResetSetup; simp [h]
  rw [heq]
  exact ⟨rfl, by decide, rfl, fun d => applyInstallFlags_trace_ne_nil env d flags⟩

/-- C5, witness: the test system without the recovery mark, flags otherwise valid. -/
theorem digestResetSetup_requires_recovery_witness :
    (digestResetSetup { testEnv with IsRecovery := false } fullFlags).res
      = .error (GoError.leaf "reset command requires booting from recovery system") ∧
    (digestResetSetup { testEnv with IsRecovery := false } fullFlags).trace = [] :=
  have h := digestResetSetup_requires_recovery { testEnv with IsRecovery := false } fullFlags rfl
  ⟨h.1, h.2.2.1⟩

theorem map_modifyFirst {α β : Type} (p : α → Bool) (f : α → α) (g : α → β)
    (hg : ∀ a, g (f a) = g a) (l : List α) :
    (modifyFirst p f l).map g = l.map g := by
  induction l with
  | nil => rfl
  | cons a as ih =>
    by_cases h : p a = true
    · simp [modifyFirst, h, hg a]
    · simp [modifyFirst, h, ih]

theorem mem_modifyFirst_of_not {α : Type} (p : α → Bool) (f : α → α) (l : List α) (a : α)
    (ha : a ∈ l) (hp : p a = false) : a ∈ modifyFirst p f l := by
  induction l with
  | nil => cases ha
  | cons b bs ih =>
    by_cases h : p b = true
    · rcases List.mem_cons.mp ha with rfl | hm
      · rw [hp] at h; cases h
      · simp [modifyFirst, h, hm]
    · rcases List.mem_cons.mp ha with rfl | hm
      · simp [modifyFirst, h]
      · simp [modifyFirst, h, ih hm]

theorem modifyFirst_split {α : Type} (p : α → Bool) (f : α → α) (l : List α) (k : α)
    (h : l.find? p = some k) :
    ∃ pre post, l = pre ++ k :: post ∧ (∀ x ∈ pre, p x = false) ∧ p k = true ∧
      modifyFirst p f l = pre ++ f k :: post := by
  induction l with
  | nil => cases h
  | cons a as ih =>
    by_cases ha : p a = true
    · rw [List.find?_cons_of_pos _ ha] at h
      cases h
      exact ⟨[], as, rfl, by simp, ha, by simp [modifyFirst, ha]⟩
    · rw [List.find?_cons_of_neg _ ha] at h
      obtain ⟨pre, post, h1, h2, h3, h4⟩ := ih h
      refine ⟨a :: pre, post, by rw [h1]; rfl, ?_, h3, ?_⟩
      · intro x hx
        rcases List.mem_cons.mp hx with rfl | hx
        · simpa using ha
        · exact h2 x hx
      · simp [modifyFirst, ha, h4]

/-- C6: `setResetTarget`. (a) When the lookup of the partition mounted at
`installer.LiveMountPoint` fails, the error contains "live mount point not
found" and the descriptor is unchanged. (b) Otherwise, without a system disk,
the error contains "no system partition found" and the descriptor is unchanged.
(c) Otherwise no error is returned, the device of the system disk is the parent
disk of the partition found, and nothing else changes: the disk list is the one
before with that single assignment made on the first disk holding a system
partition, every disk before and after it as it was, and the other fields are
as before. `digestResetSetup` reports an error of `setResetTarget` behind the
prefix "failed to define target disk: ". -/
theorem setResetTarget_spec (env : Env) (d : Deployment) :
    (∀ e, env.GetPartitionByMountPoint env.LiveMountPoint 1 = .error e →
      (setResetTarget env d).err
        = some (GoError.wrap "partition for the live mount point not found: " e) ∧
      Contains (GoError.wrap "partition for the live mount point not found: " e).Error
        "live mount point not found" ∧
      (setResetTarget env d).d = d) ∧
    (∀ part, env.GetPartitionByMountPoint env.LiveMountPoint 1 = .ok part →
      d.GetSystemDisk = none →
      (setResetTarget env d).err
        = some (GoError.leaf "no system partition found in deployment") ∧
      Contains (GoError.leaf "no system partition found in deployment").Error
        "no system partition found" ∧
      (setResetTarget env d).d = d) ∧
    (∀ part, env.GetPartitionByMountPoint env.LiveMountPoint 1 = .ok part →
      d.GetSystemDisk.isSome = true →
      (setResetTarget env d).err = none ∧
      (setResetTarget env d).d.GetSystemDisk
        = d.GetSystemDisk.map (fun k => { k with Device := part.Disk }) ∧
      (setResetTarget env d).d.Disks.map Disk.Partitions = d.Disks.map Disk.Partitions ∧
      (∀ k ∈ d.Disks, k.hasSystem = false → k ∈ (setResetTarget env d).d.Disks) ∧
      (∃ pre k post, d.Disks = pre ++ k :: post ∧ (∀ x ∈ pre, x.hasSystem = false) ∧
        k.hasSystem = true ∧ d.GetSystemDisk = some k ∧
        (setResetTarget env d).d.Disks = pre ++ { k with Device := part.Disk } :: post) ∧
      (setResetTarget env d).d.SourceOS = d.SourceOS ∧
      (setResetTarget env d).d.Firmware = d.Firmware ∧
      (setResetTarget env d).d.BootConfig = d.BootConfig ∧
      (setResetTarget env d).d.Security = d.Security ∧
      (setResetTarget env d).d.Snapshotter = d.Snapshotter ∧
      (setResetTarget env d).d.OverlayTree = d.OverlayTree ∧
      (setResetTarget env d).d.CfgScript = d.CfgScript) ∧
    (∀ flags e, env.IsRecovery = true → d = (loadDescriptionFile env
          (if flags.Description ≠ "" then flags.Description else env.InstallDesc)
          Deployment.zero).d →
      (loadDescriptionFile env
          (if flags.Description ≠ "" then flags.Description else env.InstallDesc)
          Deployment.zero).err = none →
      (setResetTarget env d).err = some e →
      (digestResetSetup env flags).res
        = .error (GoError.wrap "failed to define target disk: " e)) := by
  refine ⟨?_, ?_, ?_, ?_⟩
  · intro e he
    have heq : setResetTarget env d
        = { d := d,
            err := some (GoError.wrap "partition for the live mount point not found: " e),
            trace := [Event.getPartitionByMountPoint env.LiveMountPoint] } := by
      unfold setResetTarget; simp [he]
    rw [heq]
    exact ⟨rfl, contains_append_left _ (by decide), rfl⟩
  · intro part hp hn
    have heq : setResetTarget env d
        = { d := d, err := some (GoError.leaf "no system partition found in deployment"),
            trace := [Event.getPartitionByMountPoint env.LiveMountPoint] } := by
      unfold setResetTarget; simp [hp, hn]
    rw [heq]
    exact ⟨rfl, by decide, rfl⟩
  · intro part hp hs
    obtain ⟨k, hk⟩ := Option.isSome_iff_exists.mp hs
    have heq : setResetTarget env d
        = { d := d.setSystemDiskDevice part.Disk, err := none,
            trace := [Event.getPartitionByMountPoint env.LiveMountPoint] } := by
      unfold setResetTarget; simp [hp, hk]
    rw [heq]
    refine ⟨rfl, Deployment.GetSystemDisk_setSystemDiskDevice _ _, ?_, ?_, ?_,
      rfl, rfl, rfl, rfl, rfl, rfl, rfl⟩
    · exact map_modifyFirst Disk.hasSystem (fun k => { k with Device := part.Disk })
        Disk.Partitions (fun _ => rfl) d.Disks
    · intro k0 hk0 hns
      exact mem_modifyFirst_of_not _ _ _ _ hk0 hns
    · obtain ⟨pre, post, h1, h2, h3, h4⟩ :=
        modifyFirst_split Disk.hasSystem (fun k => { k with Device := part.Disk }) d.Disks k hk
      exact ⟨pre, k, post, h1, h2, h3, hk, h4⟩
  · intro flags e hR hd hl he
    unfold digestResetSetup
    simp only [hR, not_true_eq_false, if_false]
    rw [hl]
    simp only
    rw [← hd, he]

/-- C6, witness: the live medium of the test system is mounted from `/dev/device`,
which becomes the device of the first disk with a system partition; the second
such disk keeps its device. -/
theorem setResetTarget_spec_witness :
    (setResetTarget testEnv twoSystemDisks).err = none ∧
    (setResetTarget testEnv twoSystemDisks).d.GetSystemDisk
      = twoSystemDisks.GetSystemDisk.map (fun k => { k with Device := "/dev/device" }) ∧
    (setResetTarget testEnv twoSystemDisks).d.Disks.map Disk.Device
      = ["/dev/device", "/dev/sdb"] :=
  have h := (setResetTarget_spec testEnv twoSystemDisks).2.2.1
    { Path := "/dev/device2", Disk := "/dev/device" } rfl (by decide)
  ⟨h.1, h.2.1, by decide⟩

theorem loadDescriptionFile_trace_ok (env : Env) (file : String) (d : Deployment)
    (h : (loadDescriptionFile env file d).err = none) :
    (loadDescriptionFile env file d).trace
      = [Event.readFile file,
         Event.logInfo ("Loaded deployment description file: " ++ file)] := by
  unfold loadDescriptionFile at h ⊢
  cases hr : env.ReadFile file with
  | error e => rw [hr] at h; cases h
  | ok data =>
    rw [hr] at h
    simp only at h ⊢
    rcases hu : env.Unmarshal data d with ⟨d1, _ | e⟩
    · rfl
    · rw [hu] at h; cases h

/-- C7: in the recovery system `digestResetSetup` always reads one description
file, `flags.Description` when non-empty and `installer.InstallDesc` otherwise,
before anything else; a failure of the loader, a missing file at the default
path included, is the result; on success the lookup of the reset target comes
next and the flag overlay last, applied to the descriptor whose system disk
already carries the device found. -/
theorem digestResetSetup_order (env : Env) (flags : InstallFlags) (file : String)
    (hR : env.IsRecovery = true)
    (hf : file = if flags.Description ≠ "" then flags.Description else env.InstallDesc) :
    (∃ rest, (digestResetSetup env flags).trace = Event.readFile file :: rest) ∧
    (∀ p, Event.readFile p ∈ (digestResetSetup env flags).trace → p = file) ∧
    (∀ e, (loadDescriptionFile env file Deployment.zero).err = some e →
      (digestResetSetup env flags).res = .error e) ∧
    (∀ e, env.ReadFile file = .error e →
      (digestResetSetup env flags).res
        = .error (GoError.wrap ("could not read description file '" ++ file ++ "': ") e)) ∧
    ((loadDescriptionFile env file Deployment.zero).err = none →
      ∀ part, env.GetPartitionByMountPoint env.LiveMountPoint 1 = .ok part →
      (loadDescriptionFile env file Deployment.zero).d.GetSystemDisk.isSome = true →
      (digestResetSetup env flags).trace
        = [Event.readFile file,
           Event.logInfo ("Loaded deployment description file: " ++ file),
           Event.getPartitionByMountPoint env.LiveMountPoint] ++
          (applyInstallFlags env
            ((loadDescriptionFile env file Deployment.zero).d.setSystemDiskDevice part.Disk)
            flags).trace ∧
      (digestResetSetup env flags).res
        = (defineDeployment env
            ((loadDescriptionFile env file Deployment.zero).d.setSystemDiskDevice part.Disk)
            flags []).res ∧
      ((loadDescriptionFile env file Deployment.zero).d.setSystemDiskDevice
          part.Disk).GetSystemDisk.map Disk.Device = some part.Disk) := by
  have hov : ∀ (x : Deployment) (p : String),
      Event.readFile p ∉ (applyInstallFlags env x flags).trace := by
    intro x p hp
    have := applyInstallFlags_trace_isOverlay env x flags _ hp
    cases this
  have heq : digestResetSetup env flags
      = (match (loadDescriptionFile env file Deployment.zero).err with
          | some e =>
            { res := .error e, trace := (loadDescriptionFile env file Deployment.zero).trace }
          | none =>
            match (setResetTarget env (loadDescriptionFile env file Deployment.zero).d).err with
            | some e =>
              { res := .error (GoError.wrap "failed to define target disk: " e),
                trace := (loadDescriptionFile env file Deployment.zero).trace ++
                  (setResetTarget env (loadDescriptionFile env file Deployment.zero).d).trace }
            | none =>
              defineDeployment env
                (setResetTarget env (loadDescriptionFile env file Deployment.zero).d).d flags
                ((loadDescriptionFile env file Deployment.zero).trace ++
                  (setResetTarget env (loadDescriptionFile env file Deployment.zero).d).trace)) := by
    unfold digestResetSetup
    simp only [hR, not_true_eq_false, if_false, ← hf]
  have htt : ∀ x : Deployment, (setResetTarget env x).trace
      = [Event.getPartitionByMountPoint env.LiveMountPoint] := by
    intro x
    unfold setResetTarget
    split
    · rfl
    · split <;> rfl
  have hlt := loadDescriptionFile_trace env file Deployment.zero
  have hlr := loadDescriptionFile_readFile env file Deployment.zero
  have hle := loadDescriptionFile_err env file Deployment.zero
  refine ⟨?_, ?_, ?_, ?_, ?_⟩
  · rw [heq]
    cases hl : (loadDescriptionFile env file Deployment.zero).err with
    | some e0 =>
      rcases hlt with h | ⟨h, -⟩
      · exact ⟨[], h⟩
      · rw [hl] at h; cases h
    | none =>
      simp only
      rcases hlt with h | ⟨-, h⟩ <;>
        cases (setResetTarget env (loadDescriptionFile env file Deployment.zero).d).err <;>
        simp only [defineDeployment_trace, h, List.cons_append, List.nil_append] <;>
        exact ⟨_, rfl⟩
  · intro p hp
    rw [heq] at hp
    cases hl : (loadDescriptionFile env file Deployment.zero).err with
    | some e0 =>
      rw [hl] at hp
      exact hlr p hp
    | none =>
      rw [hl] at hp
      simp only at hp
      cases ht : (setResetTarget env (loadDescriptionFile env file Deployment.zero).d).err with
      | some e1 =>
        rw [ht] at hp
        simp only [htt, List.mem_append, List.mem_singleton] at hp
        rcases hp with hp | hp
        · exact hlr p hp
        · cases hp
      | none =>
        rw [ht] at hp
        simp only [defineDeployment_trace, htt, List.mem_append, List.mem_singleton] at hp
        rcases hp with (hp | hp) | hp
        · exact hlr p hp
        · cases hp
        · exact absurd hp (hov _ _)
  · intro e he
    rw [heq, he]
  · intro e he
    rw [he] at hle
    rw [heq, hle]
  · intro hl part hp hs
    rw [hl] at heq
    simp only at heq
    obtain ⟨k, hk⟩ := Option.isSome_iff_exists.mp hs
    have ht : setResetTarget env (loadDescriptionFile env file Deployment.zero).d
        = { d := (loadDescriptionFile env file Deployment.zero).d.setSystemDiskDevice part.Disk,
            err := none,
            trace := [Event.getPartitionByMountPoint env.LiveMountPoint] } := by
      unfold setResetTarget; simp [hp, hk]
    rw [ht] at heq
    simp only at heq
    have hlt2 := loadDescriptionFile_trace_ok env file Deployment.zero hl
    rw [heq]
    refine ⟨?_, ?_, ?_⟩
    · rw [defineDeployment_trace, hlt2]; rfl
    · simp only [defineDeployment_res]
    · rw [Deployment.GetSystemDisk_setSystemDiskDevice, hk]; rfl

/-- C7, witness: the recovery system of the test fixtures with the default
description file; the events come in the order load, target, overlay. -/
theorem digestResetSetup_order_witness :
    (∃ rest, (digestResetSetup testEnv InstallFlags.zero).trace
      = Event.readFile "/configDir/install.yaml" :: rest) ∧
    (∀ p, Event.readFile p ∈ (digestResetSetup testEnv InstallFlags.zero).trace →
      p = "/configDir/install.yaml") :=
  have h := digestResetSetup_order testEnv InstallFlags.zero "/configDir/install.yaml" rfl rfl
  ⟨h.1, h.2.1⟩

/-! ## Sanitize failures -/

theorem Event.not_isEngine_of_isLoad {ev : Event} (h : ev.isLoad = true) :
    ev.isEngine = false := by
  cases ev <;> first | rfl | cases h

theorem Event.not_isEngine_of_isOverlay {ev : Event} (h : ev.isOverlay = true) :
    ev.isEngine = false := by
  cases ev <;> first | rfl | cases h

/-- Every run of `digestInstallSetup` either fails in the loader or hands a
descriptor to the closing step. -/
theorem digestInstallSetup_paths (env : Env) (flags : InstallFlags) :
    (∃ e tr, digestInstallSetup env flags = { res := .error e, trace := tr } ∧
      ∀ ev ∈ tr, ev.isLoad = true) ∨
    (∃ x tr, digestInstallSetup env flags = defineDeployment env x flags tr ∧
      ∀ ev ∈ tr, ev.isLoad = true) := by
  have hstat : ∀ (file : String) (x : Deployment),
      ∀ ev ∈ Event.stat env.InstallDesc :: (loadDescriptionFile env file x).trace,
        ev.isLoad = true := by
    intro file x ev hev
    rcases List.mem_cons.mp hev with h | h
    · rw [h]; rfl
    · exact loadDescriptionFile_trace_isLoad env file x ev h
  unfold digestInstallSetup
  simp only
  split_ifs with hD hL hE
  · cases hl : (loadDescriptionFile env flags.Description env.DefaultDeployment).err with
    | some e => exact Or.inl ⟨e, _, rfl, loadDescriptionFile_trace_isLoad env _ _⟩
    | none => exact Or.inr ⟨_, _, rfl, loadDescriptionFile_trace_isLoad env _ _⟩
  · cases hl : (loadDescriptionFile env env.InstallDesc env.DefaultDeployment).err with
    | some e => exact Or.inl ⟨e, _, rfl, hstat _ _⟩
    | none => exact Or.inr ⟨_, _, rfl, hstat _ _⟩
  · refine Or.inr ⟨_, _, rfl, ?_⟩
    intro ev hev
    rw [List.mem_singleton.mp hev]; rfl
  · exact Or.inr ⟨_, [], rfl, by simp⟩

theorem digestInstallSetup_trace_not_isEngine (env : Env) (flags : InstallFlags) :
    ∀ ev ∈ (digestInstallSetup env flags).trace, ev.isEngine = false := by
  intro ev hev
  rcases digestInstallSetup_paths env flags with ⟨e, tr, heq, htr⟩ | ⟨x, tr, heq, htr⟩
  · rw [heq] at hev
    exact Event.not_isEngine_of_isLoad (htr ev hev)
  · rw [heq, defineDeployment_trace] at hev
    rcases List.mem_append.mp hev with h | h
    · exact Event.not_isEngine_of_isLoad (htr ev h)
    · exact Event.not_isEngine_of_isOverlay (applyInstallFlags_trace_isOverlay env x flags ev h)

theorem digestInstallSetup_of_sanitize (env : Env) (flags : InstallFlags) (d' : Deployment)
    (h : Event.sanitize d' ∈ (digestInstallSetup env flags).trace) :
    (digestInstallSetup env flags).res
      = (match env.Sanitize d' with
          | some e => .error (GoError.wrap "defining the deployment details: "
              (GoError.wrap "inconsistent deployment setup found: " e))
          | none => .ok d') := by
  rcases digestInstallSetup_paths env flags with ⟨e, tr, heq, htr⟩ | ⟨x, tr, heq, htr⟩
  · rw [heq] at h
    have := htr _ h
    cases this
  · rw [heq, defineDeployment_trace] at h
    rcases List.mem_append.mp h with h | h
    · have := htr _ h
      cases this
    · obtain ⟨-, -, -, hd, he, -⟩ := applyInstallFlags_of_sanitize env x flags d' h
      rw [heq, defineDeployment_res, he, hd]
      cases env.Sanitize d' <;> rfl

theorem initInstaller_trace (env : Env) (d : Deployment) :
    ∀ ev ∈ (initInstaller env d).2, ∀ x, ev ≠ Event.sanitize x := by
  intro ev hev x hx
  unfold initInstaller at hev
  simp only at hev
  split at hev
  · simp [hx] at hev
  · split at hev <;> simp [hx] at hev

/-- A Sanitize event in the trace of `Install` stems from `digestInstallSetup`. -/
theorem Install_sanitize_mem (env : Env) (flags : InstallFlags) (d' : Deployment)
    (h : Event.sanitize d' ∈ (Install (some env) flags).trace) :
    Event.sanitize d' ∈ (digestInstallSetup env flags).trace := by
  unfold Install at h
  simp only at h
  split at h
  · simpa using h
  · have hi := initInstaller_trace env
    split at h
    · simp at h
      rcases h with h | h
      · exact h
      · exact absurd rfl (hi _ _ h d')
    · split at h
      all_goals
        simp at h
        rcases h with h | h
        · exact h
        · exact absurd rfl (hi _ _ h d')

theorem Install_of_error (env : Env) (flags : InstallFlags) (e : GoError)
    (h : (digestInstallSetup env flags).res = .error e) :
    Install (some env) flags
      = { err := some e,
          trace := [Event.logInfo "Starting install action",
                    Event.logDebug "Install action called with args: %+v"] ++
            (digestInstallSetup env flags).trace ++
            [Event.logError "Failed to collect installation setup"] } := by
  unfold Install
  simp only [h]

/-- C8: when Sanitize rejects the descriptor handed to it, `applyInstallFlags`,
`digestInstallSetup` and `Install` each return an error whose message contains
"inconsistent deployment", and the trace of `Install` holds no event of the
engine: no derived context, no bootloader or snapshotter set-up, no installer
constructed, no call of `installer.Install`. -/
theorem sanitize_failure_aborts (env : Env) (flags : InstallFlags) (d' : Deployment)
    (e : GoError) (hS : env.Sanitize d' = some e) :
    (∀ d, Event.sanitize d' ∈ (applyInstallFlags env d flags).trace →
      ∃ err, (applyInstallFlags env d flags).err = some err ∧
        Contains err.Error "inconsistent deployment") ∧
    (Event.sanitize d' ∈ (digestInstallSetup env flags).trace →
      ∃ err, (digestInstallSetup env flags).res = .error err ∧
        Contains err.Error "inconsistent deployment") ∧
    (Event.sanitize d' ∈ (Install (some env) flags).trace →
      ∃ err, (Install (some env) flags).err = some err ∧
        Contains err.Error "inconsistent deployment" ∧
        (∀ ev ∈ (Install (some env) flags).trace, ev.isEngine = false) ∧
        Event.installNew ∉ (Install (some env) flags).trace ∧
        (∀ x, Event.installerInstall x ∉ (Install (some env) flags).trace)) := by
  have hc1 : Contains (GoError.wrap "inconsistent deployment setup found: " e).Error
      "inconsistent deployment" := contains_append_left _ (by decide)
  have hc2 : Contains (GoError.wrap "defining the deployment details: "
      (GoError.wrap "inconsistent deployment setup found: " e)).Error
      "inconsistent deployment" := contains_append_right _ hc1
  have hdig : Event.sanitize d' ∈ (digestInstallSetup env flags).trace →
      (digestInstallSetup env flags).res
        = .error (GoError.wrap "defining the deployment details: "
            (GoError.wrap "inconsistent deployment setup found: " e)) := by
    intro h
    rw [digestInstallSetup_of_sanitize env flags d' h, hS]
  refine ⟨?_, ?_, ?_⟩
  · intro d h
    obtain ⟨-, -, -, -, he, -⟩ := applyInstallFlags_of_sanitize env d flags d' h
    rw [hS] at he
    exact ⟨_, he, hc1⟩
  · intro h
    exact ⟨_, hdig h, hc2⟩
  · intro h
    have heq := Install_of_error env flags _ (hdig (Install_sanitize_mem env flags d' h))
    have hne : ∀ ev ∈ (Install (some env) flags).trace, ev.isEngine = false := by
      intro ev hev
      rw [heq] at hev
      simp only [List.mem_append, List.mem_cons, List.mem_singleton, List.not_mem_nil,
        or_false] at hev
      rcases hev with ((h1 | h1) | h1) | h1
      · rw [h1]; rfl
      · rw [h1]; rfl
      · exact digestInstallSetup_trace_not_isEngine env flags ev h1
      · rw [h1]; rfl
    refine ⟨_, by rw [heq], hc2, hne, ?_, ?_⟩
    · intro hm
      have := hne _ hm
      cases this
    · intro x hm
      have := hne _ hm
      cases this

/-- C8, witness: the `badConfig` description of the test "fails if the setup is
inconsistent", which has no system partition. -/
theorem sanitize_failure_aborts_witness :
    ∃ err, (Install (some testEnv) badConfigFlags).err = some err ∧
      Contains err.Error "inconsistent deployment" :=
  have h := (sanitize_failure_aborts testEnv badConfigFlags
    (applyInstallFlags testEnv
      (loadDescriptionFile testEnv "/configDir/bad_config.yaml" sampleDeployment).d
      badConfigFlags).d
    (GoError.leaf "no system partition defined") (by decide)).2.2 (by decide)
  h.elim fun err he => ⟨err, he.1, he.2.1⟩

/-- Every run of `digestResetSetup` either fails before the closing step or hands
a descriptor to it. -/
theorem digestResetSetup_paths (env : Env) (flags : InstallFlags) :
    (∃ e tr, digestResetSetup env flags = { res := .error e, trace := tr } ∧
      ∀ ev ∈ tr, ev.isOverlay = false) ∨
    (∃ x tr, digestResetSetup env flags = defineDeployment env x flags tr ∧
      ∀ ev ∈ tr, ev.isOverlay = false) := by
  have hload : ∀ (file : String) (x : Deployment),
      ∀ ev ∈ (loadDescriptionFile env file x).trace, ev.isOverlay = false := by
    intro file x ev hev
    have := loadDescriptionFile_trace_isLoad env file x ev hev
    cases ev <;> first | rfl | cases this
  have htt : ∀ x : Deployment, (setResetTarget env x).trace
      = [Event.getPartitionByMountPoint env.LiveMountPoint] := by
    intro x
    unfold setResetTarget
    split
    · rfl
    · split <;> rfl
  have hboth : ∀ (file : String) (x y : Deployment),
      ∀ ev ∈ (loadDescriptionFile env file x).trace ++ (setResetTarget env y).trace,
        ev.isOverlay = false := by
    intro file x y ev hev
    rcases List.mem_append.mp hev with h | h
    · exact hload _ _ _ h
    · rw [htt, List.mem_singleton] at h
      rw [h]; rfl
  unfold digestResetSetup
  by_cases hR : env.IsRecovery = true
  · simp only [hR, not_true_eq_false, if_false]
    split
    · exact Or.inl ⟨_, _, rfl, hload _ _⟩
    · split
      · exact Or.inl ⟨_, _, rfl, hboth _ _ _⟩
      · exact Or.inr ⟨_, _, rfl, hboth _ _ _⟩
  · simp only [hR, not_false_eq_true, if_true]
    exact Or.inl ⟨_, [], rfl, by simp⟩

theorem digestResetSetup_of_sanitize (env : Env) (flags : InstallFlags) (d' : Deployment)
    (h : Event.sanitize d' ∈ (digestResetSetup env flags).trace) :
    (digestResetSetup env flags).res
      = (match env.Sanitize d' with
          | some e => .error (GoError.wrap "defining the deployment details: "
              (GoError.wrap "inconsistent deployment setup found: " e))
          | none => .ok d') := by
  rcases digestResetSetup_paths env flags with ⟨e, tr, heq, htr⟩ | ⟨x, tr, heq, htr⟩
  · rw [heq] at h
    have := htr _ h
    cases this
  · rw [heq, defineDeployment_trace] at h
    rcases List.mem_append.mp h with h | h
    · have := htr _ h
      cases this
    · obtain ⟨-, -, -, hd, he, -⟩ := applyInstallFlags_of_sanitize env x flags d' h
      rw [heq, defineDeployment_res, he, hd]
      cases env.Sanitize d' <;> rfl

/-- C9 (as the code has it): when Sanitize fails with `e` on the descriptor handed
to it, `applyInstallFlags` returns `e` wrapped behind "inconsistent deployment
setup found: ", and `digestInstallSetup` and `digestResetSetup` wrap that once
more behind "defining the deployment details: "; the returned error unwraps to
`e` and its message ends with the message of `e`. -/
theorem sanitize_error_wrapped (env : Env) (flags : InstallFlags) (d' : Deployment)
    (e : GoError) (hS : env.Sanitize d' = some e) :
    (∀ d, Event.sanitize d' ∈ (applyInstallFlags env d flags).trace →
      (applyInstallFlags env d flags).err
        = some (GoError.wrap "inconsistent deployment setup found: " e)) ∧
    (Event.sanitize d' ∈ (digestInstallSetup env flags).trace →
      (digestInstallSetup env flags).res
        = .error (GoError.wrap "defining the deployment details: "
            (GoError.wrap "inconsistent deployment setup found: " e))) ∧
    (Event.sanitize d' ∈ (digestResetSetup env flags).trace →
      (digestResetSetup env flags).res
        = .error (GoError.wrap "defining the deployment details: "
            (GoError.wrap "inconsistent deployment setup found: " e))) ∧
    (GoError.wrap "defining the deployment details: "
      (GoError.wrap "inconsistent deployment setup found: " e)).Is e = true ∧
    (GoError.wrap "defining the deployment details: "
      (GoError.wrap "inconsistent deployment setup found: " e)).Error
      = "defining the deployment details: " ++
          ("inconsistent deployment setup found: " ++ e.Error) := by
  refine ⟨?_, ?_, ?_, ?_, rfl⟩
  · intro d h
    obtain ⟨-, -, -, -, he, -⟩ := applyInstallFlags_of_sanitize env d flags d' h
    rw [he, hS]; rfl
  · intro h
    rw [digestInstallSetup_of_sanitize env flags d' h, hS]
  · intro h
    rw [digestResetSetup_of_sanitize env flags d' h, hS]
  · exact GoError.Is_wrap _ (GoError.Is_wrap _ (GoError.Is_self e))

/-- C9, witness: the descriptor without a system partition, rejected by Sanitize. -/
theorem sanitize_error_wrapped_witness :
    (applyInstallFlags testEnv badDeployment InstallFlags.zero).err
      = some (GoError.wrap "inconsistent deployment setup found: "
          (GoError.leaf "no system partition defined")) :=
  (sanitize_error_wrapped testEnv InstallFlags.zero
    (applyInstallFlags testEnv badDeployment InstallFlags.zero).d
    (GoError.leaf "no system partition defined") (by decide)).1 badDeployment (by decide)

/-- C9, as stated, fails: Sanitize rejects the descriptor without a system
partition with one error and the resolver returns another, with another
message. -/
theorem sanitize_error_not_returned_as_is :
    testEnv.Sanitize (applyInstallFlags testEnv badDeployment InstallFlags.zero).d
      = some (GoError.leaf "no system partition defined") ∧
    Event.sanitize (applyInstallFlags testEnv badDeployment InstallFlags.zero).d
      ∈ (applyInstallFlags testEnv badDeployment InstallFlags.zero).trace ∧
    (applyInstallFlags testEnv badDeployment InstallFlags.zero).err
      ≠ some (GoError.leaf "no system partition defined") ∧
    (applyInstallFlags testEnv badDeployment InstallFlags.zero).err.map GoError.Error
      = some "inconsistent deployment setup found: no system partition defined" ∧
    (digestInstallSetup testEnv badConfigFlags).res
      = .error (GoError.wrap "defining the deployment details: "
          (GoError.wrap "inconsistent deployment setup found: "
            (GoError.leaf "no system partition defined"))) := by
  refine ⟨by decide, by decide, by decide, by decide, ?_⟩
  rfl

/-! ## Source URIs -/

/-- C10: a rejected OS source URI ends `applyInstallFlags` at once. The error wraps
the parser's error and names the OS source URI, Sanitize is not called, and
`SourceOS`, `OverlayTree` and every field assigned later in the overlay keep
their values; this holds whatever the overlay URI is, so with both URIs invalid
the OS source URI error is the one reported. The same holds for a rejected
overlay URI, once the OS source URI is empty or accepted, with `OverlayTree`
and the fields assigned later. -/
theorem source_uri_failure_aborts (env : Env) (d : Deployment) (flags : InstallFlags)
    (e : GoError) :
    (flags.OperatingSystemImage ≠ "" →
      env.NewSrcFromURI flags.OperatingSystemImage = .error e →
      (applyInstallFlags env d flags).err
        = some (GoError.wrap
            ("failed parsing OS source URI ('" ++ flags.OperatingSystemImage ++ "'): ") e) ∧
      Contains (GoError.wrap
            ("failed parsing OS source URI ('" ++ flags.OperatingSystemImage ++ "'): ") e).Error
        "OS source URI" ∧
      Contains (GoError.wrap
            ("failed parsing OS source URI ('" ++ flags.OperatingSystemImage ++ "'): ") e).Error
        flags.OperatingSystemImage ∧
      (GoError.wrap
            ("failed parsing OS source URI ('" ++ flags.OperatingSystemImage ++ "'): ") e).Is e
        = true ∧
      (∀ x, Event.sanitize x ∉ (applyInstallFlags env d flags).trace) ∧
      (applyInstallFlags env d flags).d.SourceOS = d.SourceOS ∧
      (applyInstallFlags env d flags).d.OverlayTree = d.OverlayTree ∧
      (applyInstallFlags env d flags).d.CfgScript = d.CfgScript ∧
      (applyInstallFlags env d flags).d.Security = d.Security ∧
      (applyInstallFlags env d flags).d.Firmware = d.Firmware ∧
      (applyInstallFlags env d flags).d.BootConfig = d.BootConfig ∧
      (applyInstallFlags env d flags).d.Snapshotter = d.Snapshotter ∧
      (applyInstallFlags env d flags).d.GetSystemPartition = d.GetSystemPartition) ∧
    (flags.Overlay ≠ "" →
      (flags.OperatingSystemImage = "" ∨
        ∃ src, env.NewSrcFromURI flags.OperatingSystemImage = .ok src) →
      env.NewSrcFromURI flags.Overlay = .error e →
      (applyInstallFlags env d flags).err
        = some (GoError.wrap
            ("failed parsing overlay source URI ('" ++ flags.Overlay ++ "'): ") e) ∧
      Contains (GoError.wrap
            ("failed parsing overlay source URI ('" ++ flags.Overlay ++ "'): ") e).Error
        flags.Overlay ∧
      (GoError.wrap
            ("failed parsing overlay source URI ('" ++ flags.Overlay ++ "'): ") e).Is e = true ∧
      (∀ x, Event.sanitize x ∉ (applyInstallFlags env d flags).trace) ∧
      (applyInstallFlags env d flags).d.OverlayTree = d.OverlayTree ∧
      (applyInstallFlags env d flags).d.CfgScript = d.CfgScript ∧
      (applyInstallFlags env d flags).d.Security = d.Security ∧
      (applyInstallFlags env d flags).d.Firmware = d.Firmware ∧
      (applyInstallFlags env d flags).d.BootConfig = d.BootConfig ∧
      (applyInstallFlags env d flags).d.Snapshotter = d.Snapshotter ∧
      (applyInstallFlags env d flags).d.GetSystemPartition = d.GetSystemPartition) := by
  obtain ⟨t1, t2, t3, t4, t5, t6, t7, t8, -⟩ := overlayTarget_frame d flags
  refine ⟨?_, ?_⟩
  · intro hO hp
    have heq : applyInstallFlags env d flags
        = { d := overlayTarget d flags,
            err := some (GoError.wrap
              ("failed parsing OS source URI ('" ++ flags.OperatingSystemImage ++ "'): ") e),
            trace := [Event.newSrcFromURI flags.OperatingSystemImage] } := by
      unfold applyInstallFlags; simp [hO, hp]
    rw [heq]
    refine ⟨rfl, ?_, ?_, GoError.Is_wrap _ (GoError.Is_self e), ?_,
      t1, t6, t7, t4, t2, t3, t5, t8⟩
    · exact contains_append_left _ (contains_append_left _ (contains_append_left _ (by decide)))
    · exact contains_append_left _ (contains_append_left _ (contains_append_right _
        (contains_self _)))
    · intro x hx
      simp at hx
  · intro hV hO hp
    have heq : ∃ x tr, SameButSources x (overlayTarget d flags) ∧
        x.OverlayTree = (overlayTarget d flags).OverlayTree ∧
        (∀ ev ∈ tr, ∃ u, ev = Event.newSrcFromURI u) ∧
        applyInstallFlags env d flags
          = { d := x,
              err := some (GoError.wrap
                ("failed parsing overlay source URI ('" ++ flags.Overlay ++ "'): ") e),
              trace := tr } := by
      by_cases hO' : flags.OperatingSystemImage = ""
      · refine ⟨overlayTarget d flags, [Event.newSrcFromURI flags.Overlay],
          ⟨rfl, rfl, rfl, rfl, rfl, rfl⟩, rfl, by simp, ?_⟩
        unfold applyInstallFlags applyOverlayFlag
        simp [hO', hV, hp]
      · rcases hO with hO | ⟨src, hO⟩
        · exact absurd hO hO'
        · refine ⟨{ overlayTarget d flags with SourceOS := some src },
            [Event.newSrcFromURI flags.OperatingSystemImage, Event.newSrcFromURI flags.Overlay],
            ⟨rfl, rfl, rfl, rfl, rfl, rfl⟩, rfl, by simp, ?_⟩
          unfold applyInstallFlags applyOverlayFlag
          simp [hO', hO, hV, hp]
    obtain ⟨x, tr, ⟨xD, xF, xB, xS, xN, xC⟩, xO, htr, heq⟩ := heq
    rw [heq]
    refine ⟨rfl, ?_, GoError.Is_wrap _ (GoError.Is_self e), ?_,
      xO.trans t6, xC.trans t7, xS.trans t4, xF.trans t2, xB.trans t3, xN.trans t5,
      (Deployment.GetSystemPartition_congr xD).trans t8⟩
    · exact contains_append_left _ (contains_append_left _ (contains_append_right _
        (contains_self _)))
    · intro y hy
      obtain ⟨u, hu⟩ := htr _ hy
      cases hu

/-- C10, witness: the URI of the test "fails if the given OS uri is not valid". -/
theorem source_uri_failure_aborts_witness :
    (applyInstallFlags testEnv sampleDeployment badUriFlags).err
      = some (GoError.wrap "failed parsing OS source URI ('https://example.com/my/image'): "
          (GoError.leaf "image source type not supported")) ∧
    (∀ x, Event.sanitize x ∉ (applyInstallFlags testEnv sampleDeployment badUriFlags).trace) :=
  have h := (source_uri_failure_aborts testEnv sampleDeployment badUriFlags
    (GoError.leaf "image source type not supported")).1 (by decide) rfl
  ⟨h.1, h.2.2.2.2.1⟩

/-! ## The crypto policy, the kernel command line and the bootloader kind -/

/-- C15: a non-empty crypto policy that is not valid is ignored without an error:
the overlay runs exactly as if the flag were empty, and the descriptor handed
to Sanitize keeps the policy it had. A valid one is assigned. -/
theorem applyInstallFlags_crypto_policy (env : Env) (d : Deployment) (flags : InstallFlags) :
    (flags.CryptoPolicy ≠ "" → env.IsValid flags.CryptoPolicy = false →
      applyInstallFlags env d flags = applyInstallFlags env d { flags with CryptoPolicy := "" } ∧
      ∀ d', Event.sanitize d' ∈ (applyInstallFlags env d flags).trace →
        d'.Security.CryptoPolicy = d.Security.CryptoPolicy) ∧
    (flags.CryptoPolicy ≠ "" → env.IsValid flags.CryptoPolicy = true →
      ∀ d', Event.sanitize d' ∈ (applyInstallFlags env d flags).trace →
        d'.Security.CryptoPolicy = flags.CryptoPolicy) := by
  have key : ∀ d', Event.sanitize d' ∈ (applyInstallFlags env d flags).trace →
      d'.Security.CryptoPolicy
        = (if flags.CryptoPolicy ≠ "" ∧ env.IsValid flags.CryptoPolicy = true
            then flags.CryptoPolicy else d.Security.CryptoPolicy) := by
    intro d' h
    obtain ⟨x, ⟨-, -, -, xS, -, -⟩, hd, -⟩ := applyInstallFlags_of_sanitize env d flags d' h
    obtain ⟨-, -, -, tS, -⟩ := overlayTarget_frame d flags
    obtain ⟨-, -, -, vP, -⟩ := overlayFields_values env x flags
    rw [hd, vP, xS, tS]
  refine ⟨?_, ?_⟩
  · intro hne hv
    refine ⟨?_, ?_⟩
    · unfold applyInstallFlags applyOverlayFlag finishInstallFlags overlayFields overlayPolicy
        overlaySnapshotter overlayTarget
      simp [hne, hv]
    · intro d' h
      rw [key d' h, hv]
      simp
  · intro hne hv d' h
    rw [key d' h, if_pos ⟨hne, hv⟩]

/-- C15, witness: the policy "bogus" on the sample descriptor. -/
theorem applyInstallFlags_crypto_policy_witness :
    applyInstallFlags testEnv sampleDeployment { InstallFlags.zero with CryptoPolicy := "bogus" }
      = applyInstallFlags testEnv sampleDeployment
          { { InstallFlags.zero with CryptoPolicy := "bogus" } with CryptoPolicy := "" } :=
  ((applyInstallFlags_crypto_policy testEnv sampleDeployment
    { InstallFlags.zero with CryptoPolicy := "bogus" }).1 (by decide) (by decide)).1

/-- C16: after `setBootloader` the kernel command line is `base`, the command line
flag when non-empty and the previous command line otherwise (empty when the
boot configuration was nil), passed through `fips.AppendCommandLine` exactly
when `IsFipsEnabled` holds of the descriptor as it stands at that point. When
`IsFipsEnabled` reads the security section only, that is the descriptor the
overlay hands to Sanitize, whose crypto policy already carries the flag. -/
theorem setBootloader_kernel_cmdline (env : Env) (d : Deployment) (b c : String) (e : Bool) :
    (∃ bc, (setBootloader env d b c e).BootConfig = some bc ∧
      bc.KernelCmdline
        = (if env.IsFipsEnabled
              { setBootEntries env d e with
                BootConfig := some (overlayBootConfig d.BootConfig b c) }
            then env.AppendCommandLine
              (if c ≠ "" then c else (d.BootConfig.map BootConfig.KernelCmdline).getD "")
            else (if c ≠ "" then c else (d.BootConfig.map BootConfig.KernelCmdline).getD ""))) ∧
    ((∀ x y : Deployment, x.Security = y.Security → env.IsFipsEnabled x = env.IsFipsEnabled y) →
      ∀ (d0 : Deployment) (flags : InstallFlags) (d' : Deployment),
        Event.sanitize d' ∈ (applyInstallFlags env d0 flags).trace →
        ∃ bc, d'.BootConfig = some bc ∧
          bc.KernelCmdline
            = (if env.IsFipsEnabled d'
                then env.AppendCommandLine
                  (if flags.KernelCmdline ≠ "" then flags.KernelCmdline
                    else (d0.BootConfig.map BootConfig.KernelCmdline).getD "")
                else (if flags.KernelCmdline ≠ "" then flags.KernelCmdline
                    else (d0.BootConfig.map BootConfig.KernelCmdline).getD ""))) := by
  have hk : ∀ (old : Option BootConfig) (b c : String),
      (overlayBootConfig old b c).KernelCmdline
        = (if c ≠ "" then c else (old.map BootConfig.KernelCmdline).getD "") := by
    intro old b c
    rw [overlayBootConfig_KernelCmdline]
    cases old <;> rfl
  refine ⟨⟨_, setBootloader_BootConfig_eq env d b c e, ?_⟩, ?_⟩
  · simp only [hk]
  · intro hF d0 flags d' h
    obtain ⟨x, ⟨-, -, xB, -, -, -⟩, hd, -⟩ := applyInstallFlags_of_sanitize env d0 flags d' h
    obtain ⟨-, -, tB, -⟩ := overlayTarget_frame d0 flags
    obtain ⟨-, -, -, pB, -, -⟩ := overlayPolicy_frame env x flags
    obtain ⟨-, -, bS, -⟩ := setBootloader_frame env (overlayPolicy env x flags)
      flags.Bootloader flags.KernelCmdline flags.CreateBootEntry
    obtain ⟨-, -, sB, sS, -⟩ := overlaySnapshotter_frame
      (setBootloader env (overlayPolicy env x flags)
        flags.Bootloader flags.KernelCmdline flags.CreateBootEntry) flags
    obtain ⟨-, -, -, eS, -⟩ := setBootEntries_frame env (overlayPolicy env x flags)
      flags.CreateBootEntry
    have hsec : d'.Security = (overlayPolicy env x flags).Security := by
      rw [hd]; unfold overlayFields; rw [sS, bS]
    have hfips : env.IsFipsEnabled
        { setBootEntries env (overlayPolicy env x flags) flags.CreateBootEntry with
          BootConfig := some (overlayBootConfig (overlayPolicy env x flags).BootConfig
            flags.Bootloader flags.KernelCmdline) } = env.IsFipsEnabled d' :=
      hF _ _ (by rw [hsec]; exact eS)
    have hbc : d'.BootConfig = (setBootloader env (overlayPolicy env x flags)
        flags.Bootloader flags.KernelCmdline flags.CreateBootEntry).BootConfig := by
      rw [hd]; unfold overlayFields; rw [sB]
    refine ⟨_, hbc.trans (setBootloader_BootConfig_eq env _ _ _ _), ?_⟩
    simp only [hfips]
    simp only [hk, pB, xB, tB]

/-- C16, witness: the FIPS policy and a command line flag on the sample descriptor
give the flag followed by the FIPS parameter. -/
theorem setBootloader_kernel_cmdline_witness :
    ∃ bc, (applyInstallFlags testEnv sampleDeployment fullFlags).d.BootConfig = some bc ∧
      bc.KernelCmdline
        = (if testEnv.IsFipsEnabled (applyInstallFlags testEnv sampleDeployment fullFlags).d
            then testEnv.AppendCommandLine
              (if fullFlags.KernelCmdline ≠ "" then fullFlags.KernelCmdline
                else (sampleDeployment.BootConfig.map BootConfig.KernelCmdline).getD "")
            else (if fullFlags.KernelCmdline ≠ "" then fullFlags.KernelCmdline
                else (sampleDeployment.BootConfig.map BootConfig.KernelCmdline).getD "")) :=
  (setBootloader_kernel_cmdline testEnv sampleDeployment "" "" false).2
    (fun x y h => by
      show decide (x.Security.CryptoPolicy = "fips") = decide (y.Security.CryptoPolicy = "fips")
      rw [h])
    sampleDeployment fullFlags (applyInstallFlags testEnv sampleDeployment fullFlags).d
    (by decide)

/-- C17: `setBootloader` with the kind "none" leaves the bootloader kind as it was,
the zero value when the boot configuration was nil; every other kind is
assigned. -/
theorem setBootloader_none_keeps (env : Env) (d : Deployment) (c : String) (e : Bool) :
    (∃ bc, (setBootloader env d BootNone c e).BootConfig = some bc ∧
      bc.Bootloader = (d.BootConfig.map BootConfig.Bootloader).getD "") ∧
    (∀ kind, kind ≠ BootNone →
      ∃ bc, (setBootloader env d kind c e).BootConfig = some bc ∧ bc.Bootloader = kind) := by
  refine ⟨⟨_, setBootloader_BootConfig_eq env d BootNone c e, ?_⟩, ?_⟩
  · simp only [overlayBootConfig_Bootloader, ne_eq, not_true_eq_false, if_false]
    cases d.BootConfig <;> rfl
  · intro kind hk
    refine ⟨_, setBootloader_BootConfig_eq env d kind c e, ?_⟩
    simp only [overlayBootConfig_Bootloader, ne_eq, hk, not_false_eq_true, if_true]

/-- C17, witness: the kinds "none" and "grub" on a descriptor set to "systemd-boot". -/
theorem setBootloader_none_keeps_witness :
    (∃ bc, (setBootloader testEnv
        { sampleDeployment with BootConfig := some ⟨"systemd-boot", "quiet"⟩ }
        BootNone "" false).BootConfig = some bc ∧
      bc.Bootloader = "systemd-boot") ∧
    (∃ bc, (setBootloader testEnv
        { sampleDeployment with BootConfig := some ⟨"systemd-boot", "quiet"⟩ }
        "grub" "" false).BootConfig = some bc ∧
      bc.Bootloader = "grub") :=
  ⟨(setBootloader_none_keeps testEnv
      { sampleDeployment with BootConfig := some ⟨"systemd-boot", "quiet"⟩ } "" false).1,
   (setBootloader_none_keeps testEnv
      { sampleDeployment with BootConfig := some ⟨"systemd-boot", "quiet"⟩ } "" false).2
      "grub" (by decide)⟩

/-! ## The defaults of the reset command -/

theorem digestResetSetup_ok (env : Env) (flags : InstallFlags) (d' : Deployment)
    (h : (digestResetSetup env flags).res = .ok d') :
    ∃ x, (applyInstallFlags env x flags).err = none ∧ (applyInstallFlags env x flags).d = d' ∧
      Event.sanitize d' ∈ (applyInstallFlags env x flags).trace := by
  rcases digestResetSetup_paths env flags with ⟨e, tr, heq, -⟩ | ⟨x, tr, heq, -⟩
  · rw [heq] at h; cases h
  · rw [heq, defineDeployment_res] at h
    cases he : (applyInstallFlags env x flags).err with
    | some e => rw [he] at h; cases h
    | none =>
      rw [he] at h
      simp only [Except.ok.injEq] at h
      refine ⟨x, he, h, ?_⟩
      rcases applyInstallFlags_paths env x flags with
        ⟨e, -, -, hq⟩ | ⟨e, y, tr', -, -, -, -, -, -, hq⟩ | ⟨y, tr', -, -, hq⟩
      · rw [hq] at he; cases he
      · rw [hq] at he; cases he
      · rw [← h, hq, finishInstallFlags_trace, finishInstallFlags_d]
        simp

/-- C20: the reset command run without `--bootloader` and `--snapshotter` carries
the registered defaults "grub" and "snapper"; with them the descriptor the
overlay hands to Sanitize, and the one `digestResetSetup` returns, has the
bootloader kind "grub" and the snapshotter name "snapper", whatever the
descriptor loaded from the description file held. -/
theorem reset_defaults_override (env : Env) (flags : InstallFlags)
    (hB : flags.Bootloader = resetDefaults.Bootloader)
    (hS : flags.Snapshotter = resetDefaults.Snapshotter) :
    resetDefaults.Bootloader = "grub" ∧ resetDefaults.Snapshotter = "snapper" ∧
    (∀ d d', Event.sanitize d' ∈ (applyInstallFlags env d flags).trace →
      (∃ bc, d'.BootConfig = some bc ∧ bc.Bootloader = "grub") ∧
      d'.Snapshotter.Name = "snapper") ∧
    (∀ d', (digestResetSetup env flags).res = .ok d' →
      (∃ bc, d'.BootConfig = some bc ∧ bc.Bootloader = "grub") ∧
      d'.Snapshotter.Name = "snapper") := by
  have hB' : flags.Bootloader = "grub" := hB
  have hS' : flags.Snapshotter = "snapper" := hS
  have key : ∀ d d', Event.sanitize d' ∈ (applyInstallFlags env d flags).trace →
      (∃ bc, d'.BootConfig = some bc ∧ bc.Bootloader = "grub") ∧
      d'.Snapshotter.Name = "snapper" := by
    intro d d' h
    obtain ⟨x, -, hd, -⟩ := applyInstallFlags_of_sanitize env d flags d' h
    obtain ⟨-, -, -, -, vN, -, -, vB⟩ := overlayFields_values env x flags
    have hb : (overlayBootConfig x.BootConfig flags.Bootloader flags.KernelCmdline).Bootloader
        = "grub" := by
      rw [overlayBootConfig_Bootloader, hB']
      simp [BootNone]
    refine ⟨?_, ?_⟩
    · rw [hd]
      rcases vB with vB | vB
      · exact ⟨_, vB, hb⟩
      · exact ⟨_, vB, hb⟩
    · rw [hd, vN, hS']
      simp
  refine ⟨rfl, rfl, key, ?_⟩
  intro d' h
  obtain ⟨x, -, -, hm⟩ := digestResetSetup_ok env flags d' h
  exact key x d' hm

/-- C20, witness: the reset command without options on the test system, whose
description file is overlaid on a descriptor set to "systemd-boot" and
"overwrite". -/
theorem reset_defaults_override_witness :
    (∃ bc, (applyInstallFlags testEnv
        { sampleDeployment with
          BootConfig := some ⟨"systemd-boot", "quiet"⟩,
          Snapshotter := ⟨"overwrite"⟩ } resetDefaults).d.BootConfig = some bc ∧
      bc.Bootloader = "grub") ∧
    (applyInstallFlags testEnv
        { sampleDeployment with
          BootConfig := some ⟨"systemd-boot", "quiet"⟩,
          Snapshotter := ⟨"overwrite"⟩ } resetDefaults).d.Snapshotter.Name = "snapper" :=
  (reset_defaults_override testEnv resetDefaults rfl rfl).2.2.1
    { sampleDeployment with
      BootConfig := some ⟨"systemd-boot", "quiet"⟩,
      Snapshotter := ⟨"overwrite"⟩ }
    _ (by decide)

/-! ## `Build` and `Customize`: the workspace -/

theorem validateArgs_trace (env : WorkEnv) (args : BuildFlags) :
    ∀ ev ∈ (validateArgs env args).2, ev.isNewOutput = false ∧ ev.isRun = false ∧
      ev.isCleanup = false := by
  intro ev hev
  unfold validateArgs at hev
  split at hev
  · simp at hev; rw [hev]; exact ⟨rfl, rfl, rfl⟩
  · split at hev
    · simp at hev; rw [hev]; exact ⟨rfl, rfl, rfl⟩
    · split at hev <;> simp at hev <;> rcases hev with h | h <;> rw [h] <;> exact ⟨rfl, rfl, rfl⟩

theorem validateArgs_rejected (env : WorkEnv) (args : BuildFlags) (e : GoError)
    (h : env.PlatformParse args.Platform = .error e) :
    ∃ err, (validateArgs env args).1 = some err := by
  unfold validateArgs
  split
  · exact ⟨_, rfl⟩
  · split
    · exact ⟨_, rfl⟩
    · rw [h]; exact ⟨_, rfl⟩

/-- The build action stops in `validateArgs` when the platform is rejected: no
workspace is created and the engine is not invoked. -/
theorem Build_rejected_platform (env : WorkEnv) (args : BuildFlags) (e : GoError)
    (h : env.PlatformParse args.Platform = .error e) :
    (∃ err, (Build (some env) args).err = some err) ∧
    ∀ ev ∈ (Build (some env) args).trace, ev.isNewOutput = false ∧ ev.isRun = false := by
  obtain ⟨err, herr⟩ := validateArgs_rejected env args e h
  have heq : Build (some env) args
      = { err := some err,
          trace := [WorkEvent.notifyContext,
              WorkEvent.logWarn "Warning: build is deprecated. Switch to customize going forward."]
            ++ (validateArgs env args).2 ++
            [WorkEvent.logError "Input args are invalid", WorkEvent.cancel] } := by
    unfold Build; simp only [herr]
  rw [heq]
  refine ⟨⟨err, rfl⟩, ?_⟩
  intro ev hev
  simp only [List.mem_append, List.mem_cons, List.mem_singleton, List.not_mem_nil,
    or_false] at hev
  rcases hev with ((h1 | h1) | h1) | (h1 | h1)
  · rw [h1]; exact ⟨rfl, rfl⟩
  · rw [h1]; exact ⟨rfl, rfl⟩
  · exact ⟨(validateArgs_trace env args ev h1).1, (validateArgs_trace env args ev h1).2.1⟩
  · rw [h1]; exact ⟨rfl, rfl⟩
  · rw [h1]; exact ⟨rfl, rfl⟩

/-- C11, the code at the failing input: with the platform "bogus", which
`platform.Parse` rejects, `Build` returns from `validateArgs` with no workspace
created, while `Customize` has called `config.NewOutput` before the platform is
parsed: the workspace is created, the action fails with "error parsing platform
bogus" and the deferred clean-up removes the workspace. Neither invokes the
engine. -/
theorem Customize_creates_workspace_before_platform :
    workEnv.PlatformParse "bogus" = .error (GoError.leaf "invalid platform") ∧
    (Build (some workEnv) bogusBuildFlags).err
      = some (GoError.leaf "malformed platform \"bogus\"") ∧
    (∀ ev ∈ (Build (some workEnv) bogusBuildFlags).trace,
      ev.isNewOutput = false ∧ ev.isRun = false) ∧
    (Customize (some workEnv) bogusCustomizeFlags).err
      = some (GoError.leaf "error parsing platform bogus") ∧
    (Customize (some workEnv) bogusCustomizeFlags).trace
      = [WorkEvent.logInfo "Customizing image started",
         WorkEvent.newOutput "" "/out/image-config",
         WorkEvent.platformParse "bogus",
         WorkEvent.logError "Digesting image definition from customize flags failed",
         WorkEvent.logDebug "Cleaning up working directory",
         WorkEvent.cleanup { RootPath := "/tmp/work", ConfigPath := "/out/image-config" }] ∧
    (∀ ev ∈ (Customize (some workEnv) bogusCustomizeFlags).trace, ev.isRun = false) := by
  refine ⟨rfl, by decide, by decide, by decide, by decide, by decide⟩

theorem deferredCleanup_filter (env : WorkEnv) (output : Output) (msg : String) :
    (deferredCleanup env output msg).filter WorkEvent.isCleanup = [WorkEvent.cleanup output] ∧
    (∃ post, deferredCleanup env output msg = WorkEvent.cleanup output :: post ∧
      ∀ ev ∈ post, ev.isRun = false ∧ ev.isCleanup = false) := by
  unfold deferredCleanup
  cases env.Cleanup output with
  | none => exact ⟨rfl, [], rfl, by simp⟩
  | some e =>
    refine ⟨rfl, _, rfl, ?_⟩
    intro ev hev
    rw [List.mem_singleton.mp hev]
    exact ⟨rfl, rfl⟩

theorem deferredCleanup_isRun (env : WorkEnv) (output : Output) (msg : String) :
    ∀ ev ∈ deferredCleanup env output msg, ev.isRun = false ∧ ev.isNewOutput = false := by
  intro ev hev
  unfold deferredCleanup at hev
  split at hev
  · simp at hev
    rcases hev with h | h <;> rw [h] <;> exact ⟨rfl, rfl⟩
  · simp at hev
    rw [hev]; exact ⟨rfl, rfl⟩

theorem customizeCleanup_isRun (env : WorkEnv) (output : Output) :
    ∀ ev ∈ customizeCleanup env output, ev.isRun = false ∧ ev.isNewOutput = false := by
  intro ev hev
  unfold customizeCleanup at hev
  rcases List.mem_cons.mp hev with h | h
  · rw [h]; exact ⟨rfl, rfl⟩
  · exact deferredCleanup_isRun env output _ ev h

/-- The customize action calls `config.NewOutput` first, whatever the platform: with
a rejected platform the workspace has been asked for, the engine is not invoked
and an error is returned. -/
theorem Customize_rejected_platform (env : WorkEnv) (args : CustomizeFlags) (e : GoError)
    (h : env.PlatformParse args.Platform = .error e) :
    WorkEvent.newOutput "" (resolveOutputPaths (env.Now 0) args).2
      ∈ (Customize (some env) args).trace ∧
    (∃ err, (Customize (some env) args).err = some err) ∧
    ∀ ev ∈ (Customize (some env) args).trace, ev.isRun = false := by
  have hd : ∀ p, digestCustomizeDefinition env args p
      = (.error (GoError.leaf ("error parsing platform " ++ args.Platform)),
         [WorkEvent.platformParse args.Platform]) := by
    intro p
    unfold digestCustomizeDefinition digestDefinition
    rw [h]
  unfold Customize
  simp only [hd]
  cases env.NewOutput "" (resolveOutputPaths (env.Now 0) args).2 with
  | error e1 =>
    refine ⟨by simp, ⟨_, rfl⟩, ?_⟩
    intro ev hev
    simp at hev
    rcases hev with h1 | h1 | h1 <;> rw [h1] <;> rfl
  | ok output =>
    refine ⟨by simp, ⟨_, rfl⟩, ?_⟩
    intro ev hev
    simp only [List.mem_append, List.mem_cons, List.mem_singleton, List.not_mem_nil,
      or_false] at hev
    rcases hev with (((h1 | h1) | h1) | h1) | h1
    · rw [h1]; rfl
    · rw [h1]; rfl
    · rw [h1]; rfl
    · rw [h1]; rfl
    · exact (customizeCleanup_isRun env output ev h1).1

theorem digestDefinition_trace (env : WorkEnv) (a b c p : String) :
    ∀ ev ∈ (digestDefinition env a b c p).2, ev.isCleanup = false ∧ ev.isRun = false := by
  intro ev hev
  unfold digestDefinition at hev
  split at hev
  · simp at hev; rw [hev]; exact ⟨rfl, rfl⟩
  · split at hev <;> simp at hev <;> rcases hev with h | h <;> rw [h] <;> exact ⟨rfl, rfl⟩

theorem setupCustomizeRunner_trace (env : WorkEnv) (args : CustomizeFlags) (output : Output) :
    ∀ ev ∈ (setupCustomizeRunner env args output).2, ev.isCleanup = false ∧ ev.isRun = false := by
  intro ev hev
  unfold setupCustomizeRunner at hev
  split at hev
  · simp at hev; rw [hev]; exact ⟨rfl, rfl⟩
  · split at hev <;> simp at hev <;> rcases hev with h | h <;> rw [h] <;> exact ⟨rfl, rfl⟩

theorem Build_err (env : WorkEnv) (args : BuildFlags) :
    (Build (some env) args).err
      = (match (validateArgs env args).1 with
          | some e => some e
          | none =>
            match (parseImageDefinition env args).1 with
            | .error e => some e
            | .ok definition =>
              match env.NewOutput (filepath.Join args.BuildDir (buildName (env.Now 1))) "" with
              | .error e => some e
              | .ok output => env.BuilderRun definition output) := by
  unfold Build
  simp only
  cases (validateArgs env args).1 with
  | some e => rfl
  | none =>
    simp only
    cases (parseImageDefinition env args).1 with
    | error e => rfl
    | ok definition =>
      simp only
      cases env.NewOutput (filepath.Join args.BuildDir (buildName (env.Now 1))) "" with
      | error e => rfl
      | ok output =>
        simp only
        cases h : env.BuilderRun definition output <;> rfl

theorem Customize_err (env : WorkEnv) (args : CustomizeFlags) :
    (Customize (some env) args).err
      = (match env.NewOutput "" (resolveOutputPaths (env.Now 0) args).2 with
          | .error e => some e
          | .ok output =>
            match (digestCustomizeDefinition env args (resolveOutputPaths (env.Now 0) args).1).1 with
            | .error e => some e
            | .ok definition =>
              match (setupCustomizeRunner env args output).1 with
              | some e => some e
              | none => env.CustomizeRun definition output) := by
  unfold Customize
  simp only
  cases env.NewOutput "" (resolveOutputPaths (env.Now 0) args).2 with
  | error e => rfl
  | ok output =>
    simp only
    cases (digestCustomizeDefinition env args (resolveOutputPaths (env.Now 0) args).1).1 with
    | error e => rfl
    | ok definition =>
      simp only
      cases (setupCustomizeRunner env args output).1 with
      | some e => rfl
      | none =>
        simp only
        cases h : env.CustomizeRun definition output <;> rfl

theorem Build_trace_ok (env : WorkEnv) (args : BuildFlags) (definition : Definition)
    (output : Output) (hv : (validateArgs env args).1 = none)
    (hp : (parseImageDefinition env args).1 = .ok definition)
    (ho : env.NewOutput (filepath.Join args.BuildDir (buildName (env.Now 1))) "" = .ok output) :
    ∃ pre, (Build (some env) args).trace
        = pre ++ (deferredCleanup env output "Cleaning up build directory failed: " ++
            [WorkEvent.cancel]) ∧
      WorkEvent.builderRun definition output ∈ pre ∧
      pre.filter WorkEvent.isCleanup = [] := by
  have hvt : (validateArgs env args).2.filter WorkEvent.isCleanup = [] := by
    rw [List.filter_eq_nil_iff]
    intro ev hev
    rw [(validateArgs_trace env args ev hev).2.2]; simp
  have hpt : (parseImageDefinition env args).2.filter WorkEvent.isCleanup = [] := by
    rw [List.filter_eq_nil_iff]
    intro ev hev
    unfold parseImageDefinition at hev
    rw [(digestDefinition_trace env _ _ _ _ ev hev).1]; simp
  unfold Build
  simp only [hv, hp, ho]
  cases env.BuilderRun definition output with
  | some e =>
    refine ⟨_, List.append_assoc _ _ _, by simp, ?_⟩
    simp [List.filter_append, hvt, hpt, WorkEvent.isCleanup]
  | none =>
    refine ⟨_, List.append_assoc _ _ _, by simp, ?_⟩
    simp [List.filter_append, hvt, hpt, WorkEvent.isCleanup]

theorem Customize_trace_ok (env : WorkEnv) (args : CustomizeFlags) (output : Output)
    (ho : env.NewOutput "" (resolveOutputPaths (env.Now 0) args).2 = .ok output) :
    ∃ pre, (Customize (some env) args).trace
        = pre ++ (WorkEvent.logDebug "Cleaning up working directory" ::
            deferredCleanup env output "Cleaning up working directory failed: ") ∧
      pre.filter WorkEvent.isCleanup = [] := by
  have hdt : ∀ p, (digestCustomizeDefinition env args p).2.filter WorkEvent.isCleanup = [] := by
    intro p
    rw [List.filter_eq_nil_iff]
    intro ev hev
    unfold digestCustomizeDefinition at hev
    rw [(digestDefinition_trace env _ _ _ _ ev hev).1]; simp
  have hst : (setupCustomizeRunner env args output).2.filter WorkEvent.isCleanup = [] := by
    rw [List.filter_eq_nil_iff]
    intro ev hev
    rw [(setupCustomizeRunner_trace env args output ev hev).1]; simp
  unfold Customize
  simp only [ho]
  cases (digestCustomizeDefinition env args (resolveOutputPaths (env.Now 0) args).1).1 with
  | error e =>
    refine ⟨_, rfl, ?_⟩
    simp [List.filter_append, hdt, WorkEvent.isCleanup]
  | ok definition =>
    simp only
    cases (setupCustomizeRunner env args output).1 with
    | some e =>
      refine ⟨_, rfl, ?_⟩
      simp [List.filter_append, hdt, hst, WorkEvent.isCleanup]
    | none =>
      simp only
      cases env.CustomizeRun definition output with
      | some e =>
        refine ⟨_, rfl, ?_⟩
        simp [List.filter_append, hdt, hst, WorkEvent.isCleanup]
      | none =>
        refine ⟨_, rfl, ?_⟩
        simp [List.filter_append, hdt, hst, WorkEvent.isCleanup]

theorem deferredCleanup_cases (env : WorkEnv) (output : Output) (msg : String) :
    (∀ rmErr, env.Cleanup output = some rmErr →
      deferredCleanup env output msg
        = [WorkEvent.cleanup output, WorkEvent.logError (msg ++ rmErr.Error)]) ∧
    (env.Cleanup output = none → deferredCleanup env output msg = [WorkEvent.cleanup output]) := by
  unfold deferredCleanup
  refine ⟨?_, ?_⟩
  · intro rmErr h; rw [h]
  · intro h; rw [h]

theorem Build_trace_cleanup (env : WorkEnv) (args : BuildFlags) (definition : Definition)
    (output : Output) (hv : (validateArgs env args).1 = none)
    (hp : (parseImageDefinition env args).1 = .ok definition)
    (ho : env.NewOutput (filepath.Join args.BuildDir (buildName (env.Now 1))) "" = .ok output) :
    ∃ pre, WorkEvent.builderRun definition output ∈ pre ∧
      pre.filter WorkEvent.isCleanup = [] ∧
      ∀ cl : Output → Option GoError,
        (Build (some { env with Cleanup := cl }) args).trace
          = pre ++ (deferredCleanup { env with Cleanup := cl } output
              "Cleaning up build directory failed: " ++ [WorkEvent.cancel]) := by
  have hvt : (validateArgs env args).2.filter WorkEvent.isCleanup = [] := by
    rw [List.filter_eq_nil_iff]
    intro ev hev
    rw [(validateArgs_trace env args ev hev).2.2]; simp
  have hpt : (parseImageDefinition env args).2.filter WorkEvent.isCleanup = [] := by
    rw [List.filter_eq_nil_iff]
    intro ev hev
    unfold parseImageDefinition at hev
    rw [(digestDefinition_trace env _ _ _ _ ev hev).1]; simp
  have key : ∀ cl : Output → Option GoError,
      (Build (some { env with Cleanup := cl }) args).trace
        = (match env.BuilderRun definition output with
            | some _ =>
              [WorkEvent.notifyContext,
                WorkEvent.logWarn "Warning: build is deprecated. Switch to customize going forward."]
              ++ (validateArgs env args).2 ++ [WorkEvent.logInfo "Reading image configuration"]
              ++ (parseImageDefinition env args).2 ++
              [WorkEvent.logInfo "Validated image configuration",
               WorkEvent.newOutput (filepath.Join args.BuildDir (buildName (env.Now 1))) ""] ++
              [WorkEvent.logInfo ("Starting build process for " ++ definition.Platform.OS ++ "/" ++
                 definition.Platform.Arch ++ " " ++ definition.ImageType ++ " image"),
               WorkEvent.builderRun definition output] ++
              [WorkEvent.logError "Build process failed"]
            | none =>
              [WorkEvent.notifyContext,
                WorkEvent.logWarn "Warning: build is deprecated. Switch to customize going forward."]
              ++ (validateArgs env args).2 ++ [WorkEvent.logInfo "Reading image configuration"]
              ++ (parseImageDefinition env args).2 ++
              [WorkEvent.logInfo "Validated image configuration",
               WorkEvent.newOutput (filepath.Join args.BuildDir (buildName (env.Now 1))) ""] ++
              [WorkEvent.logInfo ("Starting build process for " ++ definition.Platform.OS ++ "/" ++
                 definition.Platform.Arch ++ " " ++ definition.ImageType ++ " image"),
               WorkEvent.builderRun definition output] ++
              [WorkEvent.logInfo "Build process complete"])
          ++ (deferredCleanup { env with Cleanup := cl } output
              "Cleaning up build directory failed: " ++ [WorkEvent.cancel]) := by
    intro cl
    have hv' : (validateArgs { env with Cleanup := cl } args).1 = none := hv
    have hp' : (parseImageDefinition { env with Cleanup := cl } args).1 = .ok definition := hp
    have e1 : validateArgs { env with Cleanup := cl } args = validateArgs env args := rfl
    have e2 : parseImageDefinition { env with Cleanup := cl } args
        = parseImageDefinition env args := rfl
    unfold Build
    simp only [e1, e2, hv, hp, ho]
    cases env.BuilderRun definition output <;> simp only [List.append_assoc]
  refine ⟨_, ?_, ?_, key⟩
  · cases env.BuilderRun definition output <;> simp
  · cases env.BuilderRun definition output <;>
      simp [List.filter_append, hvt, hpt, WorkEvent.isCleanup]
theorem Customize_trace_cleanup (env : WorkEnv) (args : CustomizeFlags) (output : Output)
    (ho : env.NewOutput "" (resolveOutputPaths (env.Now 0) args).2 = .ok output) :
    ∃ pre, pre.filter WorkEvent.isCleanup = [] ∧
      (∀ definition,
        (digestCustomizeDefinition env args (resolveOutputPaths (env.Now 0) args).1).1
          = .ok definition →
        (setupCustomizeRunner env args output).1 = none →
        WorkEvent.customizeRun definition output ∈ pre) ∧
      ∀ cl : Output → Option GoError,
        (Customize (some { env with Cleanup := cl }) args).trace
          = pre ++ deferredCleanup { env with Cleanup := cl } output
              "Cleaning up working directory failed: " := by
  have hdt : ∀ p, (digestCustomizeDefinition env args p).2.filter WorkEvent.isCleanup = [] := by
    intro p
    rw [List.filter_eq_nil_iff]
    intro ev hev
    unfold digestCustomizeDefinition at hev
    rw [(digestDefinition_trace env _ _ _ _ ev hev).1]; simp
  have hst : (setupCustomizeRunner env args output).2.filter WorkEvent.isCleanup = [] := by
    rw [List.filter_eq_nil_iff]
    intro ev hev
    rw [(setupCustomizeRunner_trace env args output ev hev).1]; simp
  have e1 : ∀ (cl : Output → Option GoError) p,
      digestCustomizeDefinition { env with Cleanup := cl } args p
        = digestCustomizeDefinition env args p := fun _ _ => rfl
  have e2 : ∀ cl : Output → Option GoError,
      setupCustomizeRunner { env with Cleanup := cl } args output
        = setupCustomizeRunner env args output := fun _ => rfl
  cases hd : (digestCustomizeDefinition env args (resolveOutputPaths (env.Now 0) args).1).1 with
  | error e =>
    refine ⟨[WorkEvent.logInfo "Customizing image started",
        WorkEvent.newOutput "" (resolveOutputPaths (env.Now 0) args).2] ++
        (digestCustomizeDefinition env args (resolveOutputPaths (env.Now 0) args).1).2 ++
        [WorkEvent.logError "Digesting image definition from customize flags failed",
         WorkEvent.logDebug "Cleaning up working directory"], ?_, ?_, ?_⟩
    · simp [List.filter_append, hdt, WorkEvent.isCleanup]
    · intro definition h; cases h
    · intro cl
      unfold Customize customizeCleanup
      simp only [e1, e2, hd, ho, List.append_assoc, List.cons_append, List.nil_append]
  | ok definition =>
    cases hs : (setupCustomizeRunner env args output).1 with
    | some e =>
      refine ⟨[WorkEvent.logInfo "Customizing image started",
          WorkEvent.newOutput "" (resolveOutputPaths (env.Now 0) args).2] ++
          (digestCustomizeDefinition env args (resolveOutputPaths (env.Now 0) args).1).2 ++
          [WorkEvent.notifyContext] ++ (setupCustomizeRunner env args output).2 ++
          [WorkEvent.logError "Setting up customization runner failed", WorkEvent.cancel,
           WorkEvent.logDebug "Cleaning up working directory"], ?_, ?_, ?_⟩
      · simp [List.filter_append, hdt, hst, WorkEvent.isCleanup]
      · intro definition0 _ h; cases h
      · intro cl
        unfold Customize customizeCleanup
        simp only [e1, e2, hd, hs, ho, List.append_assoc, List.cons_append, List.nil_append]
    | none =>
      cases hr : env.CustomizeRun definition output with
      | some e =>
        refine ⟨[WorkEvent.logInfo "Customizing image started",
            WorkEvent.newOutput "" (resolveOutputPaths (env.Now 0) args).2] ++
            (digestCustomizeDefinition env args (resolveOutputPaths (env.Now 0) args).1).2 ++
            [WorkEvent.notifyContext] ++ (setupCustomizeRunner env args output).2 ++
            [WorkEvent.customizeRun definition output,
             WorkEvent.logError "Customizing installer media failed", WorkEvent.cancel,
             WorkEvent.logDebug "Cleaning up working directory"], ?_, ?_, ?_⟩
        · simp [List.filter_append, hdt, hst, WorkEvent.isCleanup]
        · intro definition0 h _
          cases h
          simp
        · intro cl
          unfold Customize customizeCleanup
          simp only [e1, e2, hd, hs, hr, ho, List.append_assoc, List.cons_append,
            List.nil_append]
      | none =>
        refine ⟨[WorkEvent.logInfo "Customizing image started",
            WorkEvent.newOutput "" (resolveOutputPaths (env.Now 0) args).2] ++
            (digestCustomizeDefinition env args (resolveOutputPaths (env.Now 0) args).1).2 ++
            [WorkEvent.notifyContext] ++ (setupCustomizeRunner env args output).2 ++
            [WorkEvent.customizeRun definition output, WorkEvent.cancel,
             WorkEvent.logDebug "Cleaning up working directory"], ?_, ?_, ?_⟩
        · simp [List.filter_append, hdt, hst, WorkEvent.isCleanup]
        · intro definition0 h _
          cases h
          simp
        · intro cl
          unfold Customize customizeCleanup
          simp only [e1, e2, hd, hs, hr, ho, List.append_assoc, List.cons_append,
            List.nil_append]

/-- C14: once `config.NewOutput` has succeeded, the trace of `Build` and of
`Customize` holds exactly one clean-up event, on the workspace created; no
engine call follows it and the engine call, when made, precedes it. A failure
of `Cleanup` is logged and nothing more: whatever `Cleanup` returns, the events
before the clean-up are the same, and after it comes the logged error
"Cleaning up ... failed: " with the message of the failure when it fails, and
nothing when it succeeds (then `cancelFunc` in `Build`). The error returned is
the one of the first failing step, the engine's result otherwise, and is the
same whatever `Cleanup` returns. -/
theorem cleanup_exactly_once (env : WorkEnv) :
    (∀ (args : BuildFlags) (definition : Definition) (output : Output),
      (validateArgs env args).1 = none →
      (parseImageDefinition env args).1 = .ok definition →
      env.NewOutput (filepath.Join args.BuildDir (buildName (env.Now 1))) "" = .ok output →
      (Build (some env) args).trace.filter WorkEvent.isCleanup = [WorkEvent.cleanup output] ∧
      (∃ pre post, (Build (some env) args).trace = pre ++ WorkEvent.cleanup output :: post ∧
        WorkEvent.builderRun definition output ∈ pre ∧ ∀ ev ∈ post, ev.isRun = false) ∧
      (∃ pre, WorkEvent.builderRun definition output ∈ pre ∧
        pre.filter WorkEvent.isCleanup = [] ∧
        (∀ rmErr, env.Cleanup output = some rmErr →
          (Build (some env) args).trace
            = pre ++ [WorkEvent.cleanup output,
                WorkEvent.logError ("Cleaning up build directory failed: " ++ rmErr.Error),
                WorkEvent.cancel]) ∧
        (env.Cleanup output = none →
          (Build (some env) args).trace = pre ++ [WorkEvent.cleanup output, WorkEvent.cancel]) ∧
        ∀ cl : Output → Option GoError,
          (∀ rmErr, cl output = some rmErr →
            (Build (some { env with Cleanup := cl }) args).trace
              = pre ++ [WorkEvent.cleanup output,
                  WorkEvent.logError ("Cleaning up build directory failed: " ++ rmErr.Error),
                  WorkEvent.cancel]) ∧
          (cl output = none →
            (Build (some { env with Cleanup := cl }) args).trace
              = pre ++ [WorkEvent.cleanup output, WorkEvent.cancel])) ∧
      (Build (some env) args).err = env.BuilderRun definition output ∧
      ∀ cl, (Build (some { env with Cleanup := cl }) args).err = (Build (some env) args).err) ∧
    (∀ (args : CustomizeFlags) (output : Output),
      env.NewOutput "" (resolveOutputPaths (env.Now 0) args).2 = .ok output →
      (Customize (some env) args).trace.filter WorkEvent.isCleanup
        = [WorkEvent.cleanup output] ∧
      (∃ pre post, (Customize (some env) args).trace = pre ++ WorkEvent.cleanup output :: post ∧
        ∀ ev ∈ post, ev.isRun = false) ∧
      (∃ pre, pre.filter WorkEvent.isCleanup = [] ∧
        (∀ definition,
          (digestCustomizeDefinition env args (resolveOutputPaths (env.Now 0) args).1).1
            = .ok definition →
          (setupCustomizeRunner env args output).1 = none →
          WorkEvent.customizeRun definition output ∈ pre) ∧
        (∀ rmErr, env.Cleanup output = some rmErr →
          (Customize (some env) args).trace
            = pre ++ [WorkEvent.cleanup output,
                WorkEvent.logError ("Cleaning up working directory failed: " ++ rmErr.Error)]) ∧
        (env.Cleanup output = none →
          (Customize (some env) args).trace = pre ++ [WorkEvent.cleanup output]) ∧
        ∀ cl : Output → Option GoError,
          (∀ rmErr, cl output = some rmErr →
            (Customize (some { env with Cleanup := cl }) args).trace
              = pre ++ [WorkEvent.cleanup output,
                  WorkEvent.logError
                    ("Cleaning up working directory failed: " ++ rmErr.Error)]) ∧
          (cl output = none →
            (Customize (some { env with Cleanup := cl }) args).trace
              = pre ++ [WorkEvent.cleanup output])) ∧
      (Customize (some env) args).err
        = (match (digestCustomizeDefinition env args
                    (resolveOutputPaths (env.Now 0) args).1).1 with
            | .error e => some e
            | .ok definition =>
              match (setupCustomizeRunner env args output).1 with
              | some e => some e
              | none => env.CustomizeRun definition output) ∧
      ∀ cl, (Customize (some { env with Cleanup := cl }) args).err
        = (Customize (some env) args).err) := by
  refine ⟨?_, ?_⟩
  · intro args definition output hv hp ho
    obtain ⟨hf, post, hpost, hrun⟩ :=
      deferredCleanup_filter env output "Cleaning up build directory failed: "
    obtain ⟨pre, htr, hmem, hpre⟩ := Build_trace_ok env args definition output hv hp ho
    obtain ⟨pre2, hmem2, hpre2, hcl⟩ := Build_trace_cleanup env args definition output hv hp ho
    have hcl2 : ∀ cl : Output → Option GoError,
        (∀ rmErr, cl output = some rmErr →
          (Build (some { env with Cleanup := cl }) args).trace
            = pre2 ++ [WorkEvent.cleanup output,
                WorkEvent.logError ("Cleaning up build directory failed: " ++ rmErr.Error),
                WorkEvent.cancel]) ∧
        (cl output = none →
          (Build (some { env with Cleanup := cl }) args).trace
            = pre2 ++ [WorkEvent.cleanup output, WorkEvent.cancel]) := by
      intro cl
      obtain ⟨c1, c2⟩ := deferredCleanup_cases { env with Cleanup := cl } output
        "Cleaning up build directory failed: "
      refine ⟨?_, ?_⟩
      · intro rmErr h
        rw [hcl cl, c1 rmErr h]; rfl
      · intro h
        rw [hcl cl, c2 h]; rfl
    refine ⟨?_, ⟨pre, post ++ [WorkEvent.cancel], ?_, hmem, ?_⟩,
      ⟨pre2, hmem2, hpre2, (hcl2 env.Cleanup).1, (hcl2 env.Cleanup).2, hcl2⟩, ?_, ?_⟩
    · rw [htr, List.filter_append, List.filter_append, hpre, hf]
      rfl
    · rw [htr, hpost]; rfl
    · intro ev hev
      rcases List.mem_append.mp hev with h | h
      · exact (hrun ev h).1
      · rw [List.mem_singleton.mp h]; rfl
    · rw [Build_err, hv]
      simp only [hp, ho]
    · intro cl
      rw [Build_err, Build_err]
      rfl
  · intro args output ho
    obtain ⟨hf, post, hpost, hrun⟩ :=
      deferredCleanup_filter env output "Cleaning up working directory failed: "
    obtain ⟨pre, htr, hpre⟩ := Customize_trace_ok env args output ho
    obtain ⟨pre2, hpre2, hmem2, hcl⟩ := Customize_trace_cleanup env args output ho
    have hcl2 : ∀ cl : Output → Option GoError,
        (∀ rmErr, cl output = some rmErr →
          (Customize (some { env with Cleanup := cl }) args).trace
            = pre2 ++ [WorkEvent.cleanup output,
                WorkEvent.logError ("Cleaning up working directory failed: " ++ rmErr.Error)]) ∧
        (cl output = none →
          (Customize (some { env with Cleanup := cl }) args).trace
            = pre2 ++ [WorkEvent.cleanup output]) := by
      intro cl
      obtain ⟨c1, c2⟩ := deferredCleanup_cases { env with Cleanup := cl } output
        "Cleaning up working directory failed: "
      refine ⟨?_, ?_⟩
      · intro rmErr h
        rw [hcl cl, c1 rmErr h]
      · intro h
        rw [hcl cl, c2 h]
    refine ⟨?_, ⟨pre ++ [WorkEvent.logDebug "Cleaning up working directory"], post, ?_, ?_⟩,
      ⟨pre2, hpre2, hmem2, (hcl2 env.Cleanup).1, (hcl2 env.Cleanup).2, hcl2⟩, ?_, ?_⟩
    · rw [htr, List.filter_append, hpre, List.filter_cons, hf]
      rfl
    · rw [htr, hpost]; simp
    · intro ev hev
      exact (hrun ev hev).1
    · rw [Customize_err, ho]
    · intro cl
      rw [Customize_err, Customize_err]
      rfl

/-- C14, witness: a build and a customization in which the engine and the clean-up
both fail; the engine's error is returned, the workspace is cleaned once and
the failure of the clean-up is the logged error that follows. -/
theorem cleanup_exactly_once_witness :
    (Build (some failingWorkEnv) goodBuildFlags).err = some (GoError.leaf "boom") ∧
    (Customize (some failingWorkEnv) goodCustomizeFlags).trace.filter WorkEvent.isCleanup
      = [WorkEvent.cleanup { RootPath := "/tmp/work", ConfigPath := "/out/image-config" }] ∧
    (∃ pre, (Customize (some failingWorkEnv) goodCustomizeFlags).trace
      = pre ++ [WorkEvent.cleanup { RootPath := "/tmp/work", ConfigPath := "/out/image-config" },
          WorkEvent.logError "Cleaning up working directory failed: busy"]) :=
  ⟨((cleanup_exactly_once failingWorkEnv).1 goodBuildFlags
      { ImageType := "raw", Platform := ⟨"linux", "amd64"⟩,
        OutputImageName := "/build/image-0000-01-02T00-00-00.raw",
        Configuration := "configuration" }
      { RootPath := "/build/build-0000-01-02T00-00-00", ConfigPath := "" }
      (by decide) rfl rfl).2.2.2.1,
   ((cleanup_exactly_once failingWorkEnv).2 goodCustomizeFlags
      { RootPath := "/tmp/work", ConfigPath := "/out/image-config" } rfl).1,
   (((cleanup_exactly_once failingWorkEnv).2 goodCustomizeFlags
      { RootPath := "/tmp/work", ConfigPath := "/out/image-config" } rfl).2.2.1).elim
     fun pre h => ⟨pre, h.2.2.1 (GoError.leaf "busy") rfl⟩⟩

/-! ## The target of the logger -/

/-- C19 (as the code has it): "stdout" and "stderr" select the standard streams,
the empty value changes nothing, and every value other than "", "-", "stdout"
and "stderr" is a file path: the file is opened once, write-only with create,
and becomes the output of the logger; when the open fails the error is the
one of the open behind "opening log file '<path>': " and the output of the
logger is unchanged. -/
theorem SetLoggerTarget_spec (fs : LogFS) (st : LoggerState) (logPath : String) :
    (logPath = "stdout" →
      SetLoggerTarget fs st logPath
        = { state := { st with Output := LogOutput.stdout }, err := none, opened := [] }) ∧
    (logPath = "stderr" →
      SetLoggerTarget fs st logPath
        = { state := { st with Output := LogOutput.stderr }, err := none, opened := [] }) ∧
    (logPath = "" →
      SetLoggerTarget fs st logPath = { state := st, err := none, opened := [] }) ∧
    (logPath ≠ "" → logPath ≠ "-" → logPath ≠ "stdout" → logPath ≠ "stderr" →
      (SetLoggerTarget fs st logPath).opened
        = [(logPath, [OpenFlag.O_WRONLY, OpenFlag.O_CREATE], fs.FilePerm)] ∧
      (∀ f, fs.OpenFile logPath [OpenFlag.O_WRONLY, OpenFlag.O_CREATE] fs.FilePerm = .ok f →
        (SetLoggerTarget fs st logPath).err = none ∧
        (SetLoggerTarget fs st logPath).state
          = { Output := LogOutput.file f, logFile := some f }) ∧
      (∀ e, fs.OpenFile logPath [OpenFlag.O_WRONLY, OpenFlag.O_CREATE] fs.FilePerm = .error e →
        (SetLoggerTarget fs st logPath).err
          = some (GoError.wrap ("opening log file '" ++ logPath ++ "': ") e) ∧
        (SetLoggerTarget fs st logPath).state.Output = st.Output)) := by
  refine ⟨?_, ?_, ?_, ?_⟩
  · intro h; subst h; rfl
  · intro h; subst h; rfl
  · intro h; subst h; rfl
  · intro h1 h2 h3 h4
    unfold SetLoggerTarget
    simp only [h1, h2, h3, h4, if_false]
    cases fs.OpenFile logPath [OpenFlag.O_WRONLY, OpenFlag.O_CREATE] fs.FilePerm with
    | error e =>
      refine ⟨rfl, ?_, ?_⟩
      · intro f hf; cases hf
      · intro e' he; cases he; exact ⟨rfl, rfl⟩
    | ok f =>
      refine ⟨rfl, ?_, ?_⟩
      · intro f' hf; cases hf; exact ⟨rfl, rfl⟩
      · intro e he; cases he

/-- C19, witness: a log file that opens and one that does not. -/
theorem SetLoggerTarget_spec_witness :
    (SetLoggerTarget logFS LoggerState.start "/var/log/elemental.log").state
      = { Output := LogOutput.file { Name := "/var/log/elemental.log" },
          logFile := some { Name := "/var/log/elemental.log" } } ∧
    (SetLoggerTarget logFS LoggerState.start "/proc/log").err
      = some (GoError.wrap "opening log file '/proc/log': " (GoError.leaf "permission denied")) :=
  ⟨(((SetLoggerTarget_spec logFS LoggerState.start "/var/log/elemental.log").2.2.2
      (by decide) (by decide) (by decide) (by decide)).2.1 _ rfl).2,
   (((SetLoggerTarget_spec logFS LoggerState.start "/proc/log").2.2.2
      (by decide) (by decide) (by decide) (by decide)).2.2 _ rfl).1⟩

/-- C19, as stated, fails: the value "-" is none of "", "stdout" and "stderr", and
it is not treated as a file path: no file is opened and the output of the
logger stays as it was, although the file "-" could be opened. -/
theorem SetLoggerTarget_dash_is_not_a_path :
    logFS.OpenFile "-" [OpenFlag.O_WRONLY, OpenFlag.O_CREATE] logFS.FilePerm
      = .ok { Name := "-" } ∧
    (SetLoggerTarget logFS LoggerState.start "-").opened = [] ∧
    (SetLoggerTarget logFS LoggerState.start "-").state = LoggerState.start ∧
    (SetLoggerTarget logFS LoggerState.start "-").state.Output
      ≠ LogOutput.file { Name := "-" } := by
  refine ⟨rfl, by decide, by decide, by decide⟩

/-! ## Timestamps sort as the instants do -/

/-- The day after a date of the calendar is a date of the calendar. -/
theorem Date.next_valid (a : Date) (hm : 1 ≤ a.month ∧ a.month ≤ 12)
    (hd : 1 ≤ a.day ∧ a.day ≤ daysIn a.year a.month) :
    (1 ≤ a.next.month ∧ a.next.month ≤ 12) ∧
    (1 ≤ a.next.day ∧ a.next.day ≤ daysIn a.next.year a.next.month) := by
  have h28 : ∀ y m, 28 ≤ daysIn y m := by
    intro y m
    unfold daysIn
    split_ifs <;> omega
  unfold Date.next
  split_ifs with h1 h2
  · exact ⟨hm, by simp only; omega⟩
  · refine ⟨by simp only; omega, ?_⟩
    simp only
    have := h28 a.year (a.month + 1)
    omega
  · refine ⟨by simp only; omega, ?_⟩
    simp only
    have := h28 (a.year + 1) 1
    omega

theorem daysIn_le (y m : Nat) : daysIn y m ≤ 31 := by
  unfold daysIn
  split_ifs <;> omega

theorem dateOfDay_valid (n : Nat) :
    (1 ≤ (dateOfDay n).month ∧ (dateOfDay n).month ≤ 12) ∧
    (1 ≤ (dateOfDay n).day ∧
      (dateOfDay n).day ≤ daysIn (dateOfDay n).year (dateOfDay n).month) := by
  induction n with
  | zero => exact ⟨⟨by decide, by decide⟩, by decide, by decide⟩
  | succ n ih => exact Date.next_valid _ ih.1 ih.2

/-- A date comes before another: by year, then month, then day. -/
theorem Date.lt_next (a : Date) :
    a.year < a.next.year ∨ (a.year = a.next.year ∧
      (a.month < a.next.month ∨ (a.month = a.next.month ∧ a.day < a.next.day))) := by
  unfold Date.next
  split_ifs with h1 h2
  · right; exact ⟨rfl, Or.inr ⟨rfl, by simp only; omega⟩⟩
  · right; exact ⟨rfl, Or.inl (by simp only; omega)⟩
  · left; simp only; omega

theorem dateOfDay_lt (n m : Nat) (h : n < m) :
    (dateOfDay n).year < (dateOfDay m).year ∨ ((dateOfDay n).year = (dateOfDay m).year ∧
      ((dateOfDay n).month < (dateOfDay m).month ∨
        ((dateOfDay n).month = (dateOfDay m).month ∧ (dateOfDay n).day < (dateOfDay m).day))) := by
  induction m with
  | zero => omega
  | succ m ih =>
    have hs := Date.lt_next (dateOfDay m)
    have heq : dateOfDay (m + 1) = (dateOfDay m).next := rfl
    rw [heq]
    rcases Nat.lt_succ_iff_lt_or_eq.mp h with hlt | rfl
    · have := ih hlt
      omega
    · exact hs

theorem digit_lt (x y : Nat) (hx : x < 10) (hy : y < 10) (h : x < y) : digit x < digit y := by
  have key : ∀ a : Fin 10, ∀ b : Fin 10, a < b → digit a.val < digit b.val := by decide
  exact key ⟨x, hx⟩ ⟨y, hy⟩ h

theorem digit_mod (x : Nat) : digit (x % 10) = digit x := by
  unfold digit
  rw [Nat.mod_mod]

/-- Blocks of equal length decide the order of what they begin. -/
theorem lex_append_of_length_eq {a a' : List Char} (b b' : List Char)
    (hl : a.length = a'.length) (h : List.Lex (· < ·) a a') :
    List.Lex (· < ·) (a ++ b) (a' ++ b') := by
  induction h with
  | nil => simp at hl
  | cons _ ih =>
    simp only [List.length_cons, Nat.add_right_cancel_iff] at hl
    exact List.Lex.cons (ih hl)
  | rel hr => exact List.Lex.rel hr

theorem pad2_lt (x y : Nat) (hy : y < 100) (h : x < y) : List.Lex (· < ·) (pad2 x) (pad2 y) := by
  unfold pad2
  by_cases h1 : x / 10 < y / 10
  · exact List.Lex.rel (digit_lt _ _ (by omega) (by omega) h1)
  · have h2 : x / 10 = y / 10 := by omega
    rw [h2]
    apply List.Lex.cons
    rw [← digit_mod x, ← digit_mod y]
    exact List.Lex.rel (digit_lt _ _ (by omega) (by omega) (by omega))

theorem pad4_lt (x y : Nat) (hy : y < 10000) (h : x < y) : List.Lex (· < ·) (pad4 x) (pad4 y) := by
  have hx : x < 10000 := by omega
  unfold pad4
  simp only [hx, hy, if_true]
  rw [← digit_mod (x / 100), ← digit_mod (x / 10), ← digit_mod x,
    ← digit_mod (y / 100), ← digit_mod (y / 10), ← digit_mod y]
  by_cases h1 : x / 1000 < y / 1000
  · exact List.Lex.rel (digit_lt _ _ (by omega) (by omega) h1)
  · have e1 : x / 1000 = y / 1000 := by omega
    rw [e1]
    apply List.Lex.cons
    by_cases h2 : x / 100 % 10 < y / 100 % 10
    · exact List.Lex.rel (digit_lt _ _ (by omega) (by omega) h2)
    · have e2 : x / 100 % 10 = y / 100 % 10 := by omega
      rw [e2]
      apply List.Lex.cons
      by_cases h3 : x / 10 % 10 < y / 10 % 10
      · exact List.Lex.rel (digit_lt _ _ (by omega) (by omega) h3)
      · have e3 : x / 10 % 10 = y / 10 % 10 := by omega
        rw [e3]
        apply List.Lex.cons
        exact List.Lex.rel (digit_lt _ _ (by omega) (by omega) (by omega))

theorem pad4_length (x : Nat) (hx : x < 10000) : (pad4 x).length = 4 := by
  unfold pad4; simp [hx]

theorem timestampChars_length (t : Nat) (hy : (dateOfDay (t / 86400)).year < 10000) :
    (timestampChars t).length = 19 := by
  unfold timestampChars
  simp [pad4_length _ hy, pad2]
/-- The characters of the timestamp, field by field. -/
theorem timestampChars_eq (t : Nat) :
    timestampChars t
      = pad4 (dateOfDay (t / 86400)).year ++ ('-' :: (pad2 (dateOfDay (t / 86400)).month ++
          ('-' :: (pad2 (dateOfDay (t / 86400)).day ++
          ('T' :: (pad2 (t % 86400 / 3600) ++ ('-' :: (pad2 (t % 3600 / 60) ++
          ('-' :: pad2 (t % 60)))))))))) := by
  unfold timestampChars
  simp only [List.append_assoc, List.cons_append]

theorem timestampChars_lt (t1 t2 : Nat) (h : t1 < t2)
    (hy : (dateOfDay (t2 / 86400)).year ≤ 9999) :
    List.Lex (· < ·) (timestampChars t1) (timestampChars t2) := by
  have p2 : ∀ x : Nat, (pad2 x).length = 2 := fun _ => rfl
  have hv1 := dateOfDay_valid (t1 / 86400)
  have hv2 := dateOfDay_valid (t2 / 86400)
  have hd1 := daysIn_le (dateOfDay (t1 / 86400)).year (dateOfDay (t1 / 86400)).month
  have hd2 := daysIn_le (dateOfDay (t2 / 86400)).year (dateOfDay (t2 / 86400)).month
  rw [timestampChars_eq, timestampChars_eq]
  by_cases hday : t1 / 86400 < t2 / 86400
  · rcases dateOfDay_lt _ _ hday with hY | ⟨hY, hM | ⟨hM, hD⟩⟩
    · exact lex_append_of_length_eq _ _
        (by rw [pad4_length _ (by omega), pad4_length _ (by omega)])
        (pad4_lt _ _ (by omega) hY)
    · rw [hY]
      apply List.Lex.append_left
      apply List.Lex.cons
      exact lex_append_of_length_eq _ _ (by rw [p2, p2]) (pad2_lt _ _ (by omega) hM)
    · rw [hY, hM]
      apply List.Lex.append_left
      apply List.Lex.cons
      apply List.Lex.append_left
      apply List.Lex.cons
      exact lex_append_of_length_eq _ _ (by rw [p2, p2]) (pad2_lt _ _ (by omega) hD)
  · have hq : t1 / 86400 = t2 / 86400 := by omega
    rw [hq]
    apply List.Lex.append_left
    apply List.Lex.cons
    apply List.Lex.append_left
    apply List.Lex.cons
    apply List.Lex.append_left
    apply List.Lex.cons
    by_cases hh : t1 % 86400 / 3600 < t2 % 86400 / 3600
    · exact lex_append_of_length_eq _ _ (by rw [p2, p2]) (pad2_lt _ _ (by omega) hh)
    · have eh : t1 % 86400 / 3600 = t2 % 86400 / 3600 := by omega
      rw [eh]
      apply List.Lex.append_left
      apply List.Lex.cons
      by_cases hm : t1 % 3600 / 60 < t2 % 3600 / 60
      · exact lex_append_of_length_eq _ _ (by rw [p2, p2]) (pad2_lt _ _ (by omega) hm)
      · have em : t1 % 3600 / 60 = t2 % 3600 / 60 := by omega
        rw [em]
        apply List.Lex.append_left
        apply List.Lex.cons
        exact pad2_lt _ _ (by omega) (by omega)

theorem formatTimestamp_lt (t1 t2 : Nat) (h : t1 < t2)
    (hy : (dateOfDay (t2 / 86400)).year ≤ 9999) :
    formatTimestamp t1 < formatTimestamp t2 :=
  String.lt_iff_toList_lt.mpr (timestampChars_lt t1 t2 h hy)

theorem dateOfDay_year_mono (n m : Nat) (h : n ≤ m) :
    (dateOfDay n).year ≤ (dateOfDay m).year := by
  rcases Nat.lt_or_eq_of_le h with hlt | rfl
  · have := dateOfDay_lt n m hlt
    omega
  · exact le_rfl

/-- Names built around a timestamp sort as the timestamps do. -/
theorem wrapped_lt (pre post : String) (t1 t2 : Nat) (h : t1 < t2)
    (hy : (dateOfDay (t2 / 86400)).year ≤ 9999) :
    pre ++ formatTimestamp t1 ++ post < pre ++ formatTimestamp t2 ++ post := by
  have hy1 : (dateOfDay (t1 / 86400)).year ≤ 9999 :=
    le_trans (dateOfDay_year_mono _ _ (Nat.div_le_div_right (le_of_lt h))) hy
  rw [String.lt_iff_toList_lt]
  show List.Lex (· < ·) ((pre ++ formatTimestamp t1 ++ post).data)
    ((pre ++ formatTimestamp t2 ++ post).data)
  simp only [String.data_append, List.append_assoc]
  apply List.Lex.append_left
  exact lex_append_of_length_eq _ _
    (by
      show (timestampChars t1).length = (timestampChars t2).length
      rw [timestampChars_length _ (by omega), timestampChars_length _ (by omega)])
    (timestampChars_lt t1 t2 h hy)

/-- C13: the timestamp is the UTC time in the layout "2006-01-02T15-04-05", a
year of four digits and five fields of two, zero padded, 19 characters in all;
for instants up to the year 9999 a later instant has a greater timestamp in
lexicographic order, so timestamps, the names `image-<timestamp>.<type>` for a
fixed type and the names `build-<timestamp>` sort as the instants do. -/
theorem formatTimestamp_monotone (t1 t2 : Nat) (h : t1 ≤ t2)
    (hy : (dateOfDay (t2 / 86400)).year ≤ 9999) :
    (formatTimestamp t2).data
      = pad4 (dateOfDay (t2 / 86400)).year ++ ('-' :: (pad2 (dateOfDay (t2 / 86400)).month ++
          ('-' :: (pad2 (dateOfDay (t2 / 86400)).day ++
          ('T' :: (pad2 (t2 % 86400 / 3600) ++ ('-' :: (pad2 (t2 % 3600 / 60) ++
          ('-' :: pad2 (t2 % 60)))))))))) ∧
    (formatTimestamp t2).length = 19 ∧
    formatTimestamp t1 ≤ formatTimestamp t2 ∧
    (t1 < t2 → formatTimestamp t1 < formatTimestamp t2) ∧
    (∀ mediaType, imageName t1 mediaType ≤ imageName t2 mediaType) ∧
    (t1 < t2 → ∀ mediaType, imageName t1 mediaType < imageName t2 mediaType) ∧
    buildName t1 ≤ buildName t2 ∧
    (t1 < t2 → buildName t1 < buildName t2) := by
  have hb : ∀ t, buildName t = "build-" ++ formatTimestamp t ++ "" := by
    intro t
    unfold buildName
    rw [String.append_empty]
  refine ⟨timestampChars_eq t2, ?_, ?_, fun hlt => formatTimestamp_lt t1 t2 hlt hy, ?_,
    fun hlt ty => wrapped_lt "image-" ("." ++ ty) t1 t2 hlt hy |> fun hw => ?_, ?_, ?_⟩
  · show (timestampChars t2).length = 19
    exact timestampChars_length _ (by omega)
  · rcases Nat.lt_or_eq_of_le h with hlt | rfl
    · exact le_of_lt (formatTimestamp_lt t1 t2 hlt hy)
    · exact le_rfl
  · intro ty
    rcases Nat.lt_or_eq_of_le h with hlt | rfl
    · have hw := wrapped_lt "image-" ("." ++ ty) t1 t2 hlt hy
      unfold imageName
      rw [String.append_assoc _ "." ty, String.append_assoc _ "." ty]
      exact le_of_lt hw
    · exact le_rfl
  · unfold imageName
    rw [String.append_assoc _ "." ty, String.append_assoc _ "." ty]
    exact hw
  · rcases Nat.lt_or_eq_of_le h with hlt | rfl
    · rw [hb, hb]
      exact le_of_lt (wrapped_lt "build-" "" t1 t2 hlt hy)
    · exact le_rfl
  · intro hlt
    rw [hb, hb]
    exact wrapped_lt "build-" "" t1 t2 hlt hy

/-- C13, witness: the last second of a day and the first of the next. -/
theorem formatTimestamp_monotone_witness :
    formatTimestamp 86399 = "0000-01-01T23-59-59" ∧
    formatTimestamp 86400 = "0000-01-02T00-00-00" ∧
    formatTimestamp 86399 < formatTimestamp 86400 ∧
    buildName 86399 < buildName 86400 :=
  have h := formatTimestamp_monotone 86399 86400 (by decide) (by decide)
  ⟨by decide, by decide, h.2.2.2.1 (by decide), h.2.2.2.2.2.2.2 (by decide)⟩

/-! ## Paths: the elements of a path and `Clean` -/

namespace filepath

theorem split_ne_nil (p : List Char) : split p ≠ [] := by
  cases p with
  | nil => simp [split]
  | cons c cs =>
    unfold split
    split_ifs
    · simp
    · split <;> simp

theorem split_cons_slash (p : List Char) : split ('/' :: p) = [] :: split p := by
  simp [split]

theorem split_cons_other (c : Char) (p : List Char) (hc : c ≠ '/') :
    ∃ h t, split p = h :: t ∧ split (c :: p) = (c :: h) :: t := by
  cases hs : split p with
  | nil => exact absurd hs (split_ne_nil p)
  | cons h t =>
    refine ⟨h, t, rfl, ?_⟩
    rw [split]
    simp [hc, hs]

theorem split_no_slash (c : List Char) (hc : '/' ∉ c) : split c = [c] := by
  induction c with
  | nil => rfl
  | cons a as ih =>
    have ha : a ≠ '/' := fun h => hc (by simp [h])
    have has : '/' ∉ as := fun h => hc (by simp [h])
    obtain ⟨h, t, h1, h2⟩ := split_cons_other a as ha
    rw [ih has] at h1
    cases h1
    exact h2

theorem split_append (a b : List Char) : split (a ++ '/' :: b) = split a ++ split b := by
  induction a with
  | nil => simp [split]
  | cons c cs ih =>
    by_cases hc : c = '/'
    · subst hc
      rw [List.cons_append, split_cons_slash, split_cons_slash, ih, List.cons_append]
    · obtain ⟨h, t, h1, h2⟩ := split_cons_other c cs hc
      obtain ⟨h', t', h1', h2'⟩ := split_cons_other c (cs ++ '/' :: b) hc
      rw [List.cons_append, h2', h2]
      rw [ih, h1] at h1'
      simp only [List.cons_append, List.cons.injEq] at h1'
      rw [← h1'.1, ← h1'.2]
      rfl

theorem split_elements (p : List Char) : ∀ c ∈ split p, '/' ∉ c := by
  induction p with
  | nil => simp [split]
  | cons a as ih =>
    by_cases ha : a = '/'
    · subst ha
      rw [split_cons_slash]
      intro c hc
      rcases List.mem_cons.mp hc with h | h
      · rw [h]; simp
      · exact ih c h
    · obtain ⟨h, t, h1, h2⟩ := split_cons_other a as ha
      rw [h2]
      rw [h1] at ih
      intro c hc
      rcases List.mem_cons.mp hc with hh | hh
      · rw [hh]
        intro hm
        rcases List.mem_cons.mp hm with e | e
        · exact ha e.symm
        · exact ih h (by simp) e
      · exact ih c (by simp [hh])

theorem split_intercalate (cs : List (List Char)) (hne : cs ≠ [])
    (hcs : ∀ c ∈ cs, '/' ∉ c) : split (List.intercalate ['/'] cs) = cs := by
  induction cs with
  | nil => exact absurd rfl hne
  | cons c rest ih =>
    cases rest with
    | nil =>
      have h1 : List.intercalate ['/'] [c] = c := by
        simp [List.intercalate, List.intersperse]
      rw [h1]
      exact split_no_slash c (hcs c (by simp))
    | cons c' rest' =>
      have h1 : List.intercalate ['/'] (c :: c' :: rest')
          = c ++ '/' :: List.intercalate ['/'] (c' :: rest') := by
        simp [List.intercalate, List.intersperse]
      rw [h1, split_append, split_no_slash c (hcs c (by simp)),
        ih (by simp) (fun x hx => hcs x (by simp [hx]))]
      rfl

end filepath

namespace filepath

theorem cleanStep_push (r : Bool) (st : List (List Char)) (c : List Char)
    (h1 : c ≠ []) (h2 : c ≠ ['.']) (h3 : c ≠ ['.', '.']) : cleanStep r st c = c :: st := by
  unfold cleanStep
  simp [h1, h2, h3]

theorem cleanStep_skip (r : Bool) (st : List (List Char)) (c : List Char)
    (h : c = [] ∨ c = ['.']) : cleanStep r st c = st := by
  unfold cleanStep
  simp [h]

theorem cleanStep_normal (r : Bool) (st : List (List Char)) (c : List Char)
    (hst : Normal r st) (hc : '/' ∉ c) : Normal r (cleanStep r st c) := by
  by_cases h1 : c = [] ∨ c = ['.']
  · rw [cleanStep_skip r st c h1]; exact hst
  · have hne : c ≠ [] := fun h => h1 (Or.inl h)
    have hnd : c ≠ ['.'] := fun h => h1 (Or.inr h)
    by_cases h2 : c = ['.', '.']
    · subst h2
      unfold cleanStep
      simp only [h1, if_false, if_true]
      cases st with
      | nil =>
        cases r with
        | true => exact hst
        | false => exact ⟨⟨hne, hnd, hc⟩, fun _ => ⟨rfl, by simp⟩, trivial⟩
      | cons top rest =>
        simp only
        split_ifs with ht
        · subst ht
          obtain ⟨hk, hdd, hrest⟩ := hst
          obtain ⟨hr, hall⟩ := hdd rfl
          refine ⟨⟨hne, hnd, hc⟩, fun _ => ⟨hr, ?_⟩, hk, hdd, hrest⟩
          intro x hx
          rcases List.mem_cons.mp hx with h | h
          · exact h
          · exact hall x h
        · exact hst.2.2
    · rw [cleanStep_push r st c hne hnd h2]
      exact ⟨⟨hne, hnd, hc⟩, fun h => absurd h h2, hst⟩

theorem foldl_cleanStep_normal (r : Bool) (comps : List (List Char)) :
    ∀ st, Normal r st → (∀ c ∈ comps, '/' ∉ c) →
      Normal r (comps.foldl (cleanStep r) st) := by
  induction comps with
  | nil => intro st hst _; exact hst
  | cons c cs ih =>
    intro st hst hcs
    rw [List.foldl_cons]
    exact ih _ (cleanStep_normal r st c hst (hcs c (by simp)))
      (fun x hx => hcs x (by simp [hx]))

theorem foldl_cleanStep_reverse (r : Bool) (st : List (List Char)) (hst : Normal r st) :
    st.reverse.foldl (cleanStep r) [] = st := by
  induction st with
  | nil => rfl
  | cons top rest ih =>
    obtain ⟨⟨hne, hnd, hns⟩, hdd, hrest⟩ := hst
    rw [List.reverse_cons, List.foldl_append, ih hrest]
    simp only [List.foldl_cons, List.foldl_nil]
    by_cases h2 : top = ['.', '.']
    · obtain ⟨hr, hall⟩ := hdd h2
      subst h2
      unfold cleanStep
      simp only [hne, hnd, or_self, if_false, if_true]
      cases rest with
      | nil => simp [hr]
      | cons t2 r2 =>
        simp only
        rw [if_pos (hall t2 (by simp))]
    · exact cleanStep_push r rest top hne hnd h2

end filepath

namespace filepath

theorem Normal.kept {r : Bool} {st : List (List Char)} (h : Normal r st) :
    ∀ c ∈ st, Kept c := by
  induction st with
  | nil => intro c hc; cases hc
  | cons top rest ih =>
    intro c hc
    rcases List.mem_cons.mp hc with e | e
    · rw [e]; exact h.1
    · exact ih h.2.2 c e

theorem intercalate_cons_cons (c c' : List Char) (cs : List (List Char)) :
    List.intercalate ['/'] (c :: c' :: cs) = c ++ '/' :: List.intercalate ['/'] (c' :: cs) := by
  simp [List.intercalate, List.intersperse]

theorem intercalate_singleton (c : List Char) : List.intercalate ['/'] [c] = c := by
  simp [List.intercalate, List.intersperse]

theorem intercalate_snoc (cs : List (List Char)) (c : List Char) (hne : cs ≠ []) :
    List.intercalate ['/'] (cs ++ [c]) = List.intercalate ['/'] cs ++ '/' :: c := by
  induction cs with
  | nil => exact absurd rfl hne
  | cons a rest ih =>
    cases rest with
    | nil =>
      rw [List.singleton_append, intercalate_cons_cons, intercalate_singleton,
        intercalate_singleton]
    | cons b rest' =>
      rw [List.cons_append, List.cons_append, intercalate_cons_cons, intercalate_cons_cons,
        ← List.cons_append, ih (by simp), List.append_assoc]
      rfl

theorem intercalate_head (cs : List (List Char)) (hne : cs ≠ [])
    (hcs : ∀ c ∈ cs, c ≠ [] ∧ '/' ∉ c) :
    (List.intercalate ['/'] cs).head? ≠ some '/' ∧ List.intercalate ['/'] cs ≠ [] := by
  cases cs with
  | nil => exact absurd rfl hne
  | cons c rest =>
    obtain ⟨h1, h2⟩ := hcs c (by simp)
    cases c with
    | nil => exact absurd rfl h1
    | cons x xs =>
      have hx : x ≠ '/' := fun e => h2 (by simp [e])
      cases rest with
      | nil =>
        rw [intercalate_singleton]
        exact ⟨by simpa using hx, by simp⟩
      | cons c' rest' =>
        rw [intercalate_cons_cons]
        exact ⟨by simpa using hx, by simp⟩

theorem render_ne_nil (r : Bool) (st : List (List Char)) (hst : Normal r st) :
    render r st ≠ [] := by
  unfold render
  cases r with
  | true => simp
  | false =>
    simp only [Bool.false_eq_true, if_false]
    split_ifs with h
    · simp
    · exact (intercalate_head _ (by simpa using h)
        (fun c hc => ⟨(hst.kept c (List.mem_reverse.mp hc)).1,
          (hst.kept c (List.mem_reverse.mp hc)).2.2⟩)).2

theorem render_head (r : Bool) (st : List (List Char)) (hst : Normal r st) :
    decide ((render r st).head? = some '/') = r := by
  unfold render
  cases r with
  | true => simp
  | false =>
    simp only [Bool.false_eq_true, if_false]
    split_ifs with h
    · decide
    · have := (intercalate_head _ (by simpa using h)
        (fun c hc => ⟨(hst.kept c (List.mem_reverse.mp hc)).1,
          (hst.kept c (List.mem_reverse.mp hc)).2.2⟩)).1
      simpa using this

theorem foldl_split_render (r : Bool) (st : List (List Char)) (hst : Normal r st) :
    (split (render r st)).foldl (cleanStep r) [] = st := by
  have hsl : ∀ c ∈ st.reverse, '/' ∉ c :=
    fun c hc => (hst.kept c (List.mem_reverse.mp hc)).2.2
  unfold render
  cases r with
  | true =>
    simp only [if_true]
    rw [split_cons_slash, List.foldl_cons, cleanStep_skip _ _ _ (Or.inl rfl)]
    cases st with
    | nil => rfl
    | cons top rest =>
      rw [split_intercalate _ (by simp) hsl]
      exact foldl_cleanStep_reverse _ _ hst
  | false =>
    simp only [Bool.false_eq_true, if_false]
    split_ifs with h
    · subst h; rfl
    · rw [split_intercalate _ (by simpa using h) hsl]
      exact foldl_cleanStep_reverse _ _ hst

/-- Every cleaned path is printed from a stack in normal shape. -/
theorem cleanChars_normal (p : List Char) :
    ∃ r st, Normal r st ∧ cleanChars p = render r st := by
  unfold cleanChars
  split_ifs with h
  · exact ⟨false, [], by unfold Normal; trivial, rfl⟩
  · exact ⟨decide (p.head? = some '/'),
      (split p).foldl (cleanStep (decide (p.head? = some '/'))) [],
      foldl_cleanStep_normal _ (split p) [] (by unfold Normal; trivial) (split_elements p), rfl⟩

end filepath

namespace filepath

theorem dropWhile_append_all {α : Type} (q : α → Bool) (l m : List α) (h : ∀ x ∈ l, q x = true) :
    (l ++ m).dropWhile q = m.dropWhile q := by
  induction l with
  | nil => rfl
  | cons a as ih =>
    rw [List.cons_append, List.dropWhile_cons, if_pos (h a (by simp))]
    exact ih (fun x hx => h x (by simp [hx]))

theorem takeWhile_append_all {α : Type} (q : α → Bool) (l m : List α) (h : ∀ x ∈ l, q x = true)
    (hm : m.takeWhile q = []) : (l ++ m).takeWhile q = l := by
  induction l with
  | nil => exact hm
  | cons a as ih =>
    rw [List.cons_append, List.takeWhile_cons, if_pos (h a (by simp))]
    rw [ih (fun x hx => h x (by simp [hx]))]

/-- The directory part of a path whose last element is free of separators. -/
theorem dirPart_append (y last : List Char) (hl : '/' ∉ last)
    (hy : y = [] ∨ ∃ x, y = x ++ ['/']) : dirPart (y ++ last) = y := by
  have hall : ∀ c ∈ last.reverse, decide (c ≠ '/') = true := by
    intro c hc
    have : c ≠ '/' := fun e => hl (e ▸ List.mem_reverse.mp hc)
    simpa using this
  unfold dirPart
  rw [List.reverse_append, dropWhile_append_all _ _ _ hall]
  rcases hy with rfl | ⟨x, rfl⟩
  · rfl
  · simp

/-- The last element of a path whose last element is free of separators. -/
theorem baseChars_append (y last : List Char) (hne : last ≠ []) (hl : '/' ∉ last)
    (hy : y = [] ∨ ∃ x, y = x ++ ['/']) : baseChars (y ++ last) = last := by
  have hall : ∀ c ∈ last.reverse, decide (c ≠ '/') = true := by
    intro c hc
    have : c ≠ '/' := fun e => hl (e ▸ List.mem_reverse.mp hc)
    simpa using this
  have hrev : last.reverse ≠ [] := by simpa using hne
  have hdrop : ((y ++ last).reverse).dropWhile (fun c => decide (c = '/'))
      = (y ++ last).reverse := by
    rw [List.reverse_append]
    cases hl' : last.reverse with
    | nil => exact absurd hl' hrev
    | cons a as =>
      have ha : a ≠ '/' := by
        have := hall a (by rw [hl']; simp)
        simpa using this
      simp [List.dropWhile_cons, ha]
  have htake : ((y ++ last).reverse).takeWhile (fun c => decide (c ≠ '/')) = last.reverse := by
    rw [List.reverse_append]
    apply takeWhile_append_all _ _ _ hall
    rcases hy with rfl | ⟨x, rfl⟩
    · rfl
    · simp
  unfold baseChars
  have hnil : y ++ last ≠ [] := by simp [hne]
  simp only [hnil, if_false, hdrop, htake, List.reverse_reverse, hne]

theorem baseChars_cases (p : List Char) :
    baseChars p = ['/'] ∨ (baseChars p ≠ [] ∧ '/' ∉ baseChars p) := by
  unfold baseChars
  by_cases h1 : p = []
  · right; simp only [h1, if_true]; decide
  · simp only [h1, if_false]
    by_cases h2 : ((p.reverse.dropWhile (fun c => decide (c = '/'))).takeWhile
        (fun c => decide (c ≠ '/'))).reverse = []
    · left; simp only [h2, if_true]
    · right
      simp only [h2, if_false]
      refine ⟨h2, ?_⟩
      intro hm
      rw [List.mem_reverse] at hm
      have := List.mem_takeWhile_imp hm
      simp at this

theorem extChars_cases (p : List Char) : extChars p = [] ∨ (extChars p).head? = some '.' := by
  unfold extChars
  simp only
  split_ifs
  · right; simp
  · left; rfl

theorem trimSuffixChars_cases (s suffix : List Char) :
    s = trimSuffixChars s suffix ++ suffix ∨ trimSuffixChars s suffix = s := by
  unfold trimSuffixChars
  split_ifs with h
  · left
    obtain ⟨t, rfl⟩ := h
    simp
  · right; rfl

end filepath

namespace filepath

theorem head?_append_of_ne_nil {α : Type} (l m : List α) (h : l ≠ []) :
    (l ++ m).head? = l.head? := by
  cases l with
  | nil => exact absurd rfl h
  | cons a as => rfl

/-- Cleaning a cleaned path followed by a separator gives the cleaned path. -/
theorem cleanChars_render_slash (r : Bool) (st : List (List Char)) (hst : Normal r st) :
    cleanChars (render r st ++ ['/']) = render r st := by
  have hne := render_ne_nil r st hst
  have hhead : decide ((render r st ++ ['/']).head? = some '/') = r := by
    rw [head?_append_of_ne_nil _ _ hne]
    exact render_head r st hst
  unfold cleanChars
  have hnil : render r st ++ ['/'] ≠ [] := by simp
  simp only [hnil, if_false, hhead]
  have hs : split (render r st ++ ['/']) = split (render r st) ++ [[]] := split_append _ []
  rw [hs, List.foldl_append, foldl_split_render r st hst]
  simp only [List.foldl_cons, List.foldl_nil]
  rw [cleanStep_skip _ _ _ (Or.inl rfl)]

/-- Cleaning a cleaned path joined with one more kept element pushes the element. -/
theorem cleanChars_render_join (r : Bool) (st : List (List Char)) (hst : Normal r st)
    (nm last : List Char) (hk : Kept last) (hdd : last ≠ ['.', '.'])
    (hnm : nm = last ∨ nm = '/' :: last) :
    cleanChars (render r st ++ '/' :: nm) = render r (last :: st) := by
  have hne := render_ne_nil r st hst
  have hhead : decide ((render r st ++ '/' :: nm).head? = some '/') = r := by
    rw [head?_append_of_ne_nil _ _ hne]
    exact render_head r st hst
  have hpush : (split nm).foldl (cleanStep r) st = last :: st := by
    rcases hnm with rfl | rfl
    · rw [split_no_slash _ hk.2.2]
      exact cleanStep_push r st _ hk.1 hk.2.1 hdd
    · rw [split_cons_slash, split_no_slash _ hk.2.2]
      simp only [List.foldl_cons, List.foldl_nil]
      rw [cleanStep_skip _ _ _ (Or.inl rfl)]
      exact cleanStep_push r st _ hk.1 hk.2.1 hdd
  unfold cleanChars
  have hnil : render r st ++ '/' :: nm ≠ [] := by simp
  simp only [hnil, if_false, hhead]
  rw [split_append, List.foldl_append, foldl_split_render r st hst, hpush]

/-- A cleaned path with one more kept element on top is the element behind what
cleans to the path without it. -/
theorem render_push (r : Bool) (st : List (List Char)) (hst : Normal r st) (last : List Char) :
    ∃ y, render r (last :: st) = y ++ last ∧ (y = [] ∨ ∃ x, y = x ++ ['/']) ∧
      cleanChars y = render r st := by
  cases st with
  | nil =>
    cases r with
    | true =>
      refine ⟨['/'], ?_, Or.inr ⟨[], rfl⟩, by decide⟩
      simp [render, intercalate_singleton]
    | false =>
      refine ⟨[], ?_, Or.inl rfl, by decide⟩
      simp [render, intercalate_singleton]
  | cons top rest =>
    refine ⟨render r (top :: rest) ++ ['/'], ?_, Or.inr ⟨_, rfl⟩,
      cleanChars_render_slash r _ hst⟩
    have hsn : List.intercalate ['/'] ((top :: rest).reverse ++ [last])
        = List.intercalate ['/'] (top :: rest).reverse ++ '/' :: last :=
      intercalate_snoc _ _ (by simp)
    unfold render
    cases r with
    | true =>
      simp only [if_true]
      rw [List.reverse_cons (a := last), hsn]
      simp
    | false =>
      simp only [Bool.false_eq_true, if_false]
      rw [if_neg (by simp), if_neg (by simp), List.reverse_cons (a := last), hsn]
      simp

theorem stem_config_ne (bp ext stem cfg : List Char)
    (hstem : bp = stem ++ ext ∨ stem = bp) (hext : ext = [] ∨ ext.head? = some '.')
    (hcfg : cfg = ['-', 'c', 'o', 'n', 'f', 'i', 'g']) : stem ++ cfg ≠ bp := by
  intro h
  rcases hstem with ht | ht
  · have hce : cfg = ext := List.append_cancel_left (h.trans ht)
    rcases hext with he | he
    · rw [he, hcfg] at hce; cases hce
    · rw [← hce, hcfg] at he; simp at he
  · have h1 := congrArg List.length h
    rw [ht, List.length_append, hcfg] at h1
    simp at h1

/-- The element `Join` pushes for the name `stem + "-config"`: the name itself, or
"-config" when the last element of the path is the root. It is a kept element
and differs from the last element of the path. -/
theorem config_name_last (bp ext stem cfg : List Char)
    (hbp : (bp = ['/'] ∧ stem = ['/']) ∨ (bp ≠ [] ∧ '/' ∉ bp))
    (hmem : ∀ c ∈ stem, c ∈ bp)
    (hstem : bp = stem ++ ext ∨ stem = bp) (hext : ext = [] ∨ ext.head? = some '.')
    (hcfg : cfg = ['-', 'c', 'o', 'n', 'f', 'i', 'g']) :
    ∃ last, Kept last ∧ last ≠ ['.', '.'] ∧ last ≠ bp ∧
      (stem ++ cfg = last ∨ stem ++ cfg = '/' :: last) ∧
      ('/' ∉ bp → last = stem ++ cfg) := by
  rcases hbp with ⟨hb, hs⟩ | ⟨hbne, hbs⟩
  · subst hb hs hcfg
    exact ⟨_, ⟨by decide, by decide, by decide⟩, by decide, by decide, Or.inr rfl,
      fun h => absurd (List.mem_singleton.mpr rfl) h⟩
  · refine ⟨stem ++ cfg, ⟨?_, ?_, ?_⟩, ?_, stem_config_ne bp ext stem cfg hstem hext hcfg,
      Or.inl rfl, fun _ => rfl⟩
    · rw [hcfg]; simp
    · intro h
      have h1 := congrArg List.length h
      rw [List.length_append, hcfg] at h1
      simp at h1
    · intro h
      rcases List.mem_append.mp h with h | h
      · exact hbs (hmem _ h)
      · rw [hcfg] at h; simp at h
    · intro h
      have h1 := congrArg List.length h
      rw [List.length_append, hcfg] at h1
      simp at h1

theorem trimSuffixChars_mem (s suffix : List Char) :
    ∀ c ∈ trimSuffixChars s suffix, c ∈ s := by
  intro c hc
  unfold trimSuffixChars at hc
  split_ifs at hc
  · exact List.mem_of_mem_take hc
  · exact hc

theorem baseChars_root (p : List Char) (h : baseChars p = ['/']) :
    trimSuffixChars (baseChars p) (extChars (baseChars p)) = ['/'] := by
  rw [h]; decide

/-- The path `Join(Dir(p), stem + "-config")`, `stem` the last element of `p`
without its extension, has the directory of `p`, is not `p`, and its last
element is `stem + "-config"` unless the last element of `p` is the root. -/
theorem configPath_chars (p : List Char) :
    dirChars (joinChars (dirChars p)
        (trimSuffixChars (baseChars p) (extChars (baseChars p)) ++ "-config".data))
      = dirChars p ∧
    joinChars (dirChars p)
        (trimSuffixChars (baseChars p) (extChars (baseChars p)) ++ "-config".data) ≠ p ∧
    ('/' ∉ baseChars p →
      baseChars (joinChars (dirChars p)
          (trimSuffixChars (baseChars p) (extChars (baseChars p)) ++ "-config".data))
        = trimSuffixChars (baseChars p) (extChars (baseChars p)) ++ "-config".data) := by
  have hcfg : "-config".data = ['-', 'c', 'o', 'n', 'f', 'i', 'g'] := rfl
  obtain ⟨r, st, hst, hD⟩ := cleanChars_normal (dirPart p)
  have hD' : dirChars p = render r st := hD
  have hDne : dirChars p ≠ [] := by rw [hD']; exact render_ne_nil r st hst
  have hbp : (baseChars p = ['/'] ∧
      trimSuffixChars (baseChars p) (extChars (baseChars p)) = ['/']) ∨
      (baseChars p ≠ [] ∧ '/' ∉ baseChars p) := by
    rcases baseChars_cases p with hb | hb
    · exact Or.inl ⟨hb, baseChars_root p hb⟩
    · exact Or.inr hb
  obtain ⟨last, hk, hdd, hnb, hnm, hroot⟩ := config_name_last (baseChars p)
    (extChars (baseChars p))
    (trimSuffixChars (baseChars p) (extChars (baseChars p))) "-config".data hbp
    (trimSuffixChars_mem _ _) (trimSuffixChars_cases _ _) (extChars_cases _) hcfg
  generalize trimSuffixChars (baseChars p) (extChars (baseChars p)) ++ "-config".data = nm
    at hnm hroot ⊢
  have hJ : joinChars (dirChars p) nm = render r (last :: st) := by
    unfold joinChars
    rw [if_pos hDne, hD']
    exact cleanChars_render_join r st hst nm last hk hdd hnm
  obtain ⟨y, hy, hys, hyc⟩ := render_push r st hst last
  have hb := baseChars_append y last hk.1 hk.2.2 hys
  rw [hJ, hy]
  refine ⟨?_, ?_, ?_⟩
  · unfold dirChars
    rw [dirPart_append y last hk.2.2 hys]
    exact hyc.trans hD.symm
  · intro h
    rw [h] at hb
    exact hnb hb.symm
  · intro hs
    rw [hb]
    exact hroot hs

end filepath
/-! ## `resolveOutputPaths` -/

/-- C12: `resolveOutputPaths`. In the mode "split" the configuration path is
`Join(Dir(imagePath), TrimSuffix(Base(imagePath), Ext(Base(imagePath))) + "-config")`;
it has the directory of the image path, it differs from the image path, and its
last element is the base name without extension followed by "-config" (the
image path being no root). In every other mode the configuration path is
empty. A non-empty `OutputPath` is the image path as given; an empty one gives
`Join(ConfigDir, "image-<timestamp>.<type>")`. -/
theorem resolveOutputPaths_spec (now : Nat) (args : CustomizeFlags) :
    (args.Mode = "split" →
      (resolveOutputPaths now args).2
        = filepath.Join (filepath.Dir (resolveOutputPaths now args).1)
            (filepath.TrimSuffix (filepath.Base (resolveOutputPaths now args).1)
              (filepath.Ext (filepath.Base (resolveOutputPaths now args).1)) ++ "-config") ∧
      filepath.Dir (resolveOutputPaths now args).2
        = filepath.Dir (resolveOutputPaths now args).1 ∧
      (resolveOutputPaths now args).2 ≠ (resolveOutputPaths now args).1 ∧
      (filepath.Base (resolveOutputPaths now args).1 ≠ "/" →
        filepath.Base (resolveOutputPaths now args).2
          = filepath.TrimSuffix (filepath.Base (resolveOutputPaths now args).1)
              (filepath.Ext (filepath.Base (resolveOutputPaths now args).1)) ++ "-config")) ∧
    (args.Mode ≠ "split" → (resolveOutputPaths now args).2 = "") ∧
    (args.OutputPath ≠ "" → (resolveOutputPaths now args).1 = args.OutputPath) ∧
    (args.OutputPath = "" →
      (resolveOutputPaths now args).1
        = filepath.Join args.ConfigDir (imageName now args.MediaType)) := by
  refine ⟨?_, ?_, ?_, ?_⟩
  · intro hm
    have h2 : (resolveOutputPaths now args).2
        = filepath.Join (filepath.Dir (resolveOutputPaths now args).1)
            (filepath.TrimSuffix (filepath.Base (resolveOutputPaths now args).1)
              (filepath.Ext (filepath.Base (resolveOutputPaths now args).1)) ++ "-config") := by
      unfold resolveOutputPaths
      simp only [hm, if_true]
    generalize (resolveOutputPaths now args).1 = ip at h2 ⊢
    obtain ⟨hA, hB, hC⟩ := filepath.configPath_chars ip.data
    have hdata : (resolveOutputPaths now args).2.data
        = filepath.joinChars (filepath.dirChars ip.data)
            (filepath.trimSuffixChars (filepath.baseChars ip.data)
              (filepath.extChars (filepath.baseChars ip.data)) ++ "-config".data) := by
      rw [h2]
      simp only [filepath.Join, filepath.Dir, filepath.TrimSuffix, filepath.Base, filepath.Ext,
        String.data_append]
    refine ⟨h2, ?_, ?_, ?_⟩
    · show String.mk (filepath.dirChars (resolveOutputPaths now args).2.data)
        = String.mk (filepath.dirChars ip.data)
      rw [hdata, hA]
    · intro h
      apply hB
      rw [← hdata, h]
    · intro hb
      have hns : '/' ∉ filepath.baseChars ip.data := by
        rcases filepath.baseChars_cases ip.data with h | h
        · exact absurd (show filepath.Base ip = "/" from congrArg String.mk h) hb
        · exact h.2
      show String.mk (filepath.baseChars (resolveOutputPaths now args).2.data) = _
      rw [hdata, hC hns]
      apply String.ext
      simp only [filepath.TrimSuffix, filepath.Base, filepath.Ext, String.data_append]
  · intro hm
    unfold resolveOutputPaths
    simp only [hm, if_false]
  · intro ho
    unfold resolveOutputPaths
    simp only [ho, if_false]
  · intro ho
    unfold resolveOutputPaths
    simp only [ho, if_true]

/-- C12, witness: the image path `/out/image.iso` in the mode "split". -/
theorem resolveOutputPaths_spec_witness :
    (resolveOutputPaths 0 bogusCustomizeFlags).1 = "/out/image.iso" ∧
    (resolveOutputPaths 0 bogusCustomizeFlags).2 = "/out/image-config" ∧
    filepath.Dir (resolveOutputPaths 0 bogusCustomizeFlags).2
      = filepath.Dir (resolveOutputPaths 0 bogusCustomizeFlags).1 ∧
    (resolveOutputPaths 0 bogusCustomizeFlags).2 ≠ (resolveOutputPaths 0 bogusCustomizeFlags).1 :=
  have h := (resolveOutputPaths_spec 0 bogusCustomizeFlags).1 rfl
  ⟨by decide, by decide, h.2.1, h.2.2.1⟩

end Elemental
